import Mathlib

/-!
# go_cargo: stock mutation engine and inventory ledger

A shallow embedding of the stock operations of the inventory backend
(`internal/models`, `internal/repository`, `internal/service`), of its handlers,
its router and its middlewares, together with the properties of the stock
register, the ledger, the reports and the request handling.

Conventions of the embedding

* Go `int` is the 64-bit two's-complement integer: values are `Int`, and every
  `+`, `-` and unary `-` of the source is followed by `wrapInt`.
* Go `uint` identifiers are `Nat`; `time.Time` is a `Nat` timestamp whose zero
  value is `0`; `gorm.DeletedAt` is an `Option Nat` (`none` = not deleted).
* Go `float64` is a carrier `F` with the operations of `Float64Ops`.  The stock
  engine is written over any carrier; where the value depends on the rounding
  (the costs of the ledger, the stock value of the dashboard, the page count of
  `Paginated`) the carrier is `Float64`, a rational number rounded to nearest,
  ties to even, on 53 bits (`float64Round`, `float64Value`).
* The database is an explicit `Store` value; every repository function takes
  the store and returns the new store.  Whether a database call reports an
  error is decided by the flags of `Env`, which also carries the clock.
-/

namespace GoCargo

/-! ## Machine integers -/

/-- Largest value of a Go `int` on a 64-bit target. -/
def MaxInt : Int := 9223372036854775807

/-- Smallest value of a Go `int` on a 64-bit target. -/
def MinInt : Int := -9223372036854775808

/-- Two's-complement reduction of a mathematical integer to a Go `int`. -/
def wrapInt (x : Int) : Int :=
  (x + 9223372036854775808) % 18446744073709551616 - 9223372036854775808

/-- The integer is representable as a Go `int`. -/
def InIntRange (x : Int) : Prop := MinInt ≤ x ∧ x ≤ MaxInt

instance (x : Int) : Decidable (InIntRange x) := by
  unfold InIntRange; infer_instance

/-- Operations on `float64` used by the stock engine. -/
class Float64Ops (F : Type) where
  /-- The zero value of a `float64` field. -/
  zero : F
  /-- Conversion `float64(n)` of a Go `int`. -/
  ofInt : Int → F
  /-- Product `x * y` of two `float64` values. -/
  mul : F → F → F

/-- Exact rational arithmetic as a carrier for the cost fields. -/
instance : Float64Ops ℚ where
  zero := 0
  ofInt := fun n => (n : ℚ)
  mul := fun x y => x * y

/-! ## internal/models -/

namespace models

/-- Product row (`models.Product` with the embedded `BaseModel`); the preloaded
`Category` and `Supplier` associations are read-only views and are left out. -/
structure Product (F : Type) where
  ID : Nat
  CreatedAt : Nat
  UpdatedAt : Nat
  DeletedAt : Option Nat
  SKU : String
  Name : String
  Description : String
  CategoryID : Option Nat
  SupplierID : Option Nat
  Unit : String
  CostPrice : F
  SellingPrice : F
  CurrentStock : Int
  MinStock : Int
  MaxStock : Int
  Barcode : String
  Location : String
  ImageURL : String
  Status : Int
deriving DecidableEq, Repr

/-- Kind of a stock operation: `type InventoryRecordType string`. -/
abbrev InventoryRecordType := String

/-- Constant `models.StockIn`. -/
def StockIn : InventoryRecordType := "stock_in"

/-- Constant `models.StockOut`. -/
def StockOut : InventoryRecordType := "stock_out"

/-- Constant `models.StockAdjust`. -/
def StockAdjust : InventoryRecordType := "adjust"

/-- Ledger row (`models.InventoryRecord`), without the `Product` association;
the Go field `Type` is written `Type_`. -/
structure InventoryRecord (F : Type) where
  ID : Nat
  ProductID : Nat
  Type_ : InventoryRecordType
  Quantity : Int
  BeforeQty : Int
  AfterQty : Int
  UnitCost : F
  TotalCost : F
  ReferenceNo : String
  Notes : String
  OperatorID : Nat
  OperatorName : String
  CreatedAt : Nat
deriving DecidableEq, Repr

/-- Request body of a stock-in (`models.StockInRequest`). -/
structure StockInRequest (F : Type) where
  ProductID : Nat
  Quantity : Int
  UnitCost : F
  ReferenceNo : String
  Notes : String
deriving DecidableEq, Repr

/-- Request body of a stock-out (`models.StockOutRequest`). -/
structure StockOutRequest where
  ProductID : Nat
  Quantity : Int
  ReferenceNo : String
  Notes : String
deriving DecidableEq, Repr

/-- Request body of an adjustment (`models.StockAdjustRequest`). -/
structure StockAdjustRequest where
  ProductID : Nat
  NewQuantity : Int
  Notes : String
deriving DecidableEq, Repr

/-- User row (`models.User` with the embedded `BaseModel`). -/
structure User where
  ID : Nat
  CreatedAt : Nat
  UpdatedAt : Nat
  DeletedAt : Option Nat
  Username : String
  Email : String
  Password : String
  RealName : String
  Phone : String
  Role : String
  Status : Int
  Avatar : String
deriving DecidableEq, Repr

/-- Category row (`models.Category`); `ProductCount` is not a column. -/
structure Category where
  ID : Nat
  CreatedAt : Nat
  UpdatedAt : Nat
  DeletedAt : Option Nat
  Name : String
  Description : String
  SortOrder : Int
  Status : Int
deriving DecidableEq, Repr

/-- Supplier row (`models.Supplier`); `ProductCount` is not a column. -/
structure Supplier where
  ID : Nat
  CreatedAt : Nat
  UpdatedAt : Nat
  DeletedAt : Option Nat
  Code : String
  Name : String
  ContactPerson : String
  Phone : String
  Email : String
  Address : String
  Status : Int
  Remark : String
deriving DecidableEq, Repr

/-- Request body of a registration (`models.RegisterRequest`). -/
structure RegisterRequest where
  Username : String
  Password : String
  Email : String
  RealName : String
deriving DecidableEq, Repr

/-- Request body of a profile update (`models.UpdateProfileRequest`). -/
structure UpdateProfileRequest where
  Email : String
  RealName : String
  Phone : String
  Avatar : String
deriving DecidableEq, Repr

/-- Request body of a password change (`models.ChangePasswordRequest`). -/
structure ChangePasswordRequest where
  OldPassword : String
  NewPassword : String
deriving DecidableEq, Repr

/-- Request body of a product create or update (`models.ProductRequest`). -/
structure ProductRequest (F : Type) where
  SKU : String
  Name : String
  Description : String
  CategoryID : Option Nat
  SupplierID : Option Nat
  Unit : String
  CostPrice : F
  SellingPrice : F
  MinStock : Int
  MaxStock : Int
  Barcode : String
  Location : String
  ImageURL : String
  Status : Int
deriving DecidableEq, Repr

/-- Request body of a category create or update (`models.CategoryRequest`). -/
structure CategoryRequest where
  Name : String
  Description : String
  SortOrder : Int
  Status : Int
deriving DecidableEq, Repr

/-- Request body of a supplier create or update (`models.SupplierRequest`). -/
structure SupplierRequest where
  Code : String
  Name : String
  ContactPerson : String
  Phone : String
  Email : String
  Address : String
  Status : Int
  Remark : String
deriving DecidableEq, Repr

/-- Query parameters of a listing (`models.PaginationQuery`). -/
structure PaginationQuery where
  Page : Int
  PageSize : Int
  Keyword : String
  Status : Option Int
deriving DecidableEq, Repr

/-- The receiver after `GetOffset` has replaced out-of-range values: `Page <= 0`
by 1, `PageSize <= 0` by 20, `PageSize > 100` by 100. -/
def PaginationQuery.normalized (p : PaginationQuery) : PaginationQuery :=
  let p1 := if p.Page ≤ 0 then { p with Page := 1 } else p
  let p2 := if p1.PageSize ≤ 0 then { p1 with PageSize := 20 } else p1
  if p2.PageSize > 100 then { p2 with PageSize := 100 } else p2

/-- Method `PaginationQuery.GetOffset`: the value `(p.Page - 1) * p.PageSize` of the
normalised receiver, in Go `int` arithmetic. -/
def PaginationQuery.GetOffset (p : PaginationQuery) : Int :=
  wrapInt (wrapInt (p.normalized.Page - 1) * p.normalized.PageSize)

end models

/-! ## The database -/

/-- Error value of a database call. -/
inductive DBError where
  | recordNotFound
  | ioFailure
  | uniqueViolation
  | foreignKeyViolation
deriving DecidableEq, Repr

/-- Tables of the database, each in insertion order: `products`,
`inventory_records`, `categories`, `suppliers` and `users`. -/
structure Store (F : Type) where
  products : List (models.Product F)
  records : List (models.InventoryRecord F)
  categories : List models.Category := []
  suppliers : List models.Supplier := []
  users : List models.User := []
deriving DecidableEq, Repr

/-- Environment of one service call: the clock and, for each kind of database
call (`SELECT`, `UPDATE`, `INSERT`, commit), whether that call reports an error. -/
structure Env where
  now : Nat
  readErr : Bool
  updateErr : Bool
  createErr : Bool
  commitErr : Bool
deriving DecidableEq, Repr

/-- Length of a second in the unit of the timestamps, nanoseconds of local time. -/
def nanosPerSecond : Nat := 1000000000

/-- Length of a calendar day in nanoseconds. -/
def nanosPerDay : Nat := 86400 * nanosPerSecond

/-- Calendar day (local time) of a timestamp. -/
def localDay (t : Nat) : Nat := t / nanosPerDay

/-- Comparison `created_at >= ?` with the text of the day followed by
" 00:00:00": true from the first instant of the day on. -/
def notBeforeDayStart (t day : Nat) : Bool :=
  decide (day * nanosPerDay ≤ t)

/-- Comparison `created_at <= ?` with the text of the day followed by
" 23:59:59".  The column is compared as text and the stored text of a timestamp
continues after the seconds (fraction, zone), so a timestamp whose seconds read
23:59:59 on that day compares greater than the bound. -/
def notAfterLastSecond (t day : Nat) : Bool :=
  decide (t < day * nanosPerDay + 86399 * nanosPerSecond)

/-- Matching of the rest of a LIKE pattern against every suffix of the text. -/
def likeAnySuffix (rest : List Char → Bool) : List Char → Bool
  | [] => rest []
  | c :: cs => rest (c :: cs) || likeAnySuffix rest cs

/-- SQLite's `LIKE` on character lists: `%` matches any run of characters, `_`
one character, every other character itself, ASCII letters without regard to
case. -/
def likeChars : List Char → List Char → Bool
  | [] => fun text => text.isEmpty
  | p :: ps =>
    if p = '%' then likeAnySuffix (likeChars ps)
    else if p = '_' then fun text =>
      match text with
      | [] => false
      | _ :: cs => likeChars ps cs
    else fun text =>
      match text with
      | [] => false
      | c :: cs => (p.toLower == c.toLower) && likeChars ps cs

/-- SQL operator `text LIKE pattern`. -/
def sqlLike (pattern text : String) : Bool :=
  likeChars pattern.data text.data

/-- Primary key the database gives to the next ledger row. -/
def nextRecordID {F : Type} (records : List (models.InventoryRecord F)) : Nat :=
  (records.map (fun r => r.ID)).foldr max 0 + 1

/-- Effect of `UPDATE products SET current_stock = n, updated_at = now WHERE id = ?
AND deleted_at IS NULL` on one row. -/
def setStock {F : Type} (now productID : Nat) (newStock : Int) (p : models.Product F) :
    models.Product F :=
  if p.ID = productID ∧ p.DeletedAt = none then
    { p with CurrentStock := newStock, UpdatedAt := now }
  else p

/-- Statement `Model(&Product{}).Where("id = ?", id).Update("current_stock", n)`:
sets `current_stock` (and gorm's `updated_at`) on the live rows with that id. -/
def execUpdateCurrentStock {F : Type} (env : Env) (tx : Store F) (productID : Nat)
    (newStock : Int) : Option DBError × Store F :=
  if env.updateErr then (some DBError.ioFailure, tx)
  else (none, { tx with products := tx.products.map (setStock env.now productID newStock) })

/-- The row as `Create` stores it: a zero primary key and a zero creation time
are filled in by the database layer. -/
def stampRecord {F : Type} (now : Nat) (records : List (models.InventoryRecord F))
    (record : models.InventoryRecord F) : models.InventoryRecord F :=
  { record with
      ID := if record.ID = 0 then nextRecordID records else record.ID,
      CreatedAt := if record.CreatedAt = 0 then now else record.CreatedAt }

/-- Statement `Create(record)`: appends the row to `inventory_records`. -/
def execCreateRecord {F : Type} (env : Env) (tx : Store F)
    (record : models.InventoryRecord F) : Option DBError × Store F :=
  if env.createErr then (some DBError.ioFailure, tx)
  else (none, { tx with records := tx.records ++ [stampRecord env.now tx.records record] })

/-- The call `db.Transaction(fc)` of gorm: `fc` runs on the transaction state; an
error of `fc` or of the commit rolls back to the state before the call. -/
def Transaction {F : Type} (env : Env) (db : Store F)
    (fc : Store F → Option DBError × Store F) : Option DBError × Store F :=
  match fc db with
  | (some err, _) => (some err, db)
  | (none, tx) => if env.commitErr then (some DBError.ioFailure, db) else (none, tx)

/-! ## internal/repository -/

namespace repository

/-- Condition `id = ? AND deleted_at IS NULL` of a lookup by primary key. -/
def isLiveWithID {F : Type} (id : Nat) (p : models.Product F) : Bool :=
  decide (p.ID = id ∧ p.DeletedAt = none)

/-- Method `Repository.GetProductByID`: the live product with the given id. -/
def GetProductByID {F : Type} (env : Env) (db : Store F) (id : Nat) :
    Except DBError (models.Product F) :=
  if env.readErr then Except.error DBError.ioFailure
  else
    match db.products.find? (isLiveWithID id) with
    | some product => Except.ok product
    | none => Except.error DBError.recordNotFound

/-- Body of the transaction of `Repository.StockOperation`. -/
def stockOperationBody {F : Type} (env : Env) (record : models.InventoryRecord F)
    (newStock : Int) (tx : Store F) : Option DBError × Store F :=
  match execUpdateCurrentStock env tx record.ProductID newStock with
  | (some err, tx1) => (some err, tx1)
  | (none, tx1) =>
    match execCreateRecord env tx1 record with
    | (some err, tx2) => (some err, tx2)
    | (none, tx2) => (none, tx2)

/-- Method `Repository.StockOperation`: the stock update and the ledger insert in
one transaction. -/
def StockOperation {F : Type} (env : Env) (db : Store F)
    (record : models.InventoryRecord F) (newStock : Int) : Option DBError × Store F :=
  Transaction env db (stockOperationBody env record newStock)

/-- Condition `current_stock <= min_stock AND min_stock > 0 AND status = 1` of
`GetLowStockProducts`, together with gorm's `deleted_at IS NULL`. -/
def isLowStock {F : Type} (p : models.Product F) : Bool :=
  decide (p.CurrentStock ≤ p.MinStock ∧ 0 < p.MinStock ∧ p.Status = 1 ∧ p.DeletedAt = none)

/-- Order of `ORDER BY current_stock ASC`. -/
def stockLE {F : Type} (a b : models.Product F) : Prop :=
  a.CurrentStock ≤ b.CurrentStock

instance {F : Type} : DecidableRel (stockLE : models.Product F → models.Product F → Prop) :=
  fun a b => inferInstanceAs (Decidable (a.CurrentStock ≤ b.CurrentStock))

instance {F : Type} : IsTotal (models.Product F) stockLE :=
  ⟨fun a b => le_total a.CurrentStock b.CurrentStock⟩

instance {F : Type} : IsTrans (models.Product F) stockLE :=
  ⟨fun _ _ _ hab hbc => le_trans hab hbc⟩

/-- Method `Repository.GetLowStockProducts`: the qualifying rows by ascending
stock, cut at `limit`; gorm adds no `LIMIT` clause for a negative limit. -/
def GetLowStockProducts {F : Type} (env : Env) (db : Store F) (limit : Int) :
    Except DBError (List (models.Product F)) :=
  if env.readErr then Except.error DBError.ioFailure
  else if limit < 0 then
    Except.ok ((db.products.filter isLowStock).insertionSort stockLE)
  else
    Except.ok (((db.products.filter isLowStock).insertionSort stockLE).take limit.toNat)

/-- Conjunction of the `Where` clauses `ListInventoryRecords` adds for its
arguments; a date argument is `none` for the empty string and the day otherwise. -/
def recordMatches {F : Type} (keyword : String) (productID : Option Nat)
    (recordType : String) (startDate endDate : Option Nat)
    (r : models.InventoryRecord F) : Bool :=
  (match productID with
    | some id => if 0 < id then decide (r.ProductID = id) else true
    | none => true)
  && (if recordType ≠ "" then decide (r.Type_ = recordType) else true)
  && (match startDate with
    | some day => notBeforeDayStart r.CreatedAt day
    | none => true)
  && (match endDate with
    | some day => notAfterLastSecond r.CreatedAt day
    | none => true)
  && (if keyword ≠ "" then
        sqlLike ("%" ++ keyword ++ "%") r.ReferenceNo || sqlLike ("%" ++ keyword ++ "%") r.Notes
      else true)

/-- Order of `ORDER BY created_at DESC`. -/
def createdDesc {F : Type} (a b : models.InventoryRecord F) : Prop :=
  b.CreatedAt ≤ a.CreatedAt

instance {F : Type} :
    DecidableRel (createdDesc : models.InventoryRecord F → models.InventoryRecord F → Prop) :=
  fun a b => inferInstanceAs (Decidable (b.CreatedAt ≤ a.CreatedAt))

instance {F : Type} : IsTotal (models.InventoryRecord F) createdDesc :=
  ⟨fun a b => le_total b.CreatedAt a.CreatedAt⟩

instance {F : Type} : IsTrans (models.InventoryRecord F) createdDesc :=
  ⟨fun _ _ _ hab hbc => le_trans hbc hab⟩

/-- Method `Repository.ListInventoryRecords`: the page of matching rows, newest
first, and the number of all matching rows.  A non-positive offset adds no
`OFFSET` clause. -/
def ListInventoryRecords {F : Type} (env : Env) (db : Store F)
    (query : models.PaginationQuery) (productID : Option Nat) (recordType : String)
    (startDate endDate : Option Nat) :
    Except DBError (List (models.InventoryRecord F) × Nat) :=
  if env.readErr then Except.error DBError.ioFailure
  else
    let matching :=
      db.records.filter (recordMatches query.Keyword productID recordType startDate endDate)
    Except.ok
      (((matching.insertionSort createdDesc).drop query.GetOffset.toNat).take
          query.normalized.PageSize.toNat,
        matching.length)

/-- Primary key the database gives to the next row of a table. -/
def nextID (ids : List Nat) : Nat :=
  ids.foldr max 0 + 1

/-- Effect of gorm's `Save` on a table: the row with the primary key of `row`
becomes `row`; when there is none, `row` is inserted. -/
def upsertBy {α : Type} (key : α → Nat) (row : α) (rows : List α) : List α :=
  if rows.any (fun r => decide (key r = key row)) then
    rows.map (fun r => if key r = key row then row else r)
  else rows ++ [row]

/-- Method `Repository.CreateInventoryRecord`. -/
def CreateInventoryRecord {F : Type} (env : Env) (db : Store F)
    (record : models.InventoryRecord F) : Option DBError × Store F :=
  execCreateRecord env db record

/-- Method `Repository.UpdateProductStock`. -/
def UpdateProductStock {F : Type} (env : Env) (db : Store F) (productID : Nat)
    (newStock : Int) : Option DBError × Store F :=
  execUpdateCurrentStock env db productID newStock

/-- Method `Repository.GetUserByUsername`: the first live user with the name. -/
def GetUserByUsername {F : Type} (env : Env) (db : Store F) (username : String) :
    Except DBError models.User :=
  if env.readErr then Except.error DBError.ioFailure
  else
    match db.users.find? (fun u => decide (u.Username = username ∧ u.DeletedAt = none)) with
    | some user => Except.ok user
    | none => Except.error DBError.recordNotFound

/-- Method `Repository.GetUserByID`. -/
def GetUserByID {F : Type} (env : Env) (db : Store F) (id : Nat) :
    Except DBError models.User :=
  if env.readErr then Except.error DBError.ioFailure
  else
    match db.users.find? (fun u => decide (u.ID = id ∧ u.DeletedAt = none)) with
    | some user => Except.ok user
    | none => Except.error DBError.recordNotFound

/-- Method `Repository.CreateUser`; `username` carries a unique index. -/
def CreateUser {F : Type} (env : Env) (db : Store F) (user : models.User) :
    Option DBError × Store F :=
  if env.createErr then (some DBError.ioFailure, db)
  else if db.users.any (fun u => decide (u.Username = user.Username)) then
    (some DBError.uniqueViolation, db)
  else
    (none, { db with users := db.users ++
      [{ user with
          ID := if user.ID = 0 then nextID (db.users.map (fun u => u.ID)) else user.ID,
          CreatedAt := if user.CreatedAt = 0 then env.now else user.CreatedAt,
          UpdatedAt := if user.UpdatedAt = 0 then env.now else user.UpdatedAt }] })

/-- Method `Repository.UpdateUser` (`Save`). -/
def UpdateUser {F : Type} (env : Env) (db : Store F) (user : models.User) :
    Option DBError × Store F :=
  if env.updateErr then (some DBError.ioFailure, db)
  else if db.users.any (fun u => decide (u.ID ≠ user.ID ∧ u.Username = user.Username)) then
    (some DBError.uniqueViolation, db)
  else
    let rows := upsertBy (fun u => u.ID) { user with UpdatedAt := env.now } db.users
    (none, { db with users := rows })

/-- Method `Repository.GetCategoryByID`. -/
def GetCategoryByID {F : Type} (env : Env) (db : Store F) (id : Nat) :
    Except DBError models.Category :=
  if env.readErr then Except.error DBError.ioFailure
  else
    match db.categories.find? (fun c => decide (c.ID = id ∧ c.DeletedAt = none)) with
    | some cat => Except.ok cat
    | none => Except.error DBError.recordNotFound

/-- Method `Repository.CreateCategory`. -/
def CreateCategory {F : Type} (env : Env) (db : Store F) (cat : models.Category) :
    Option DBError × Store F :=
  if env.createErr then (some DBError.ioFailure, db)
  else
    (none, { db with categories := db.categories ++
      [{ cat with
          ID := if cat.ID = 0 then nextID (db.categories.map (fun c => c.ID)) else cat.ID,
          CreatedAt := if cat.CreatedAt = 0 then env.now else cat.CreatedAt,
          UpdatedAt := if cat.UpdatedAt = 0 then env.now else cat.UpdatedAt }] })

/-- Method `Repository.UpdateCategory` (`Save`). -/
def UpdateCategory {F : Type} (env : Env) (db : Store F) (cat : models.Category) :
    Option DBError × Store F :=
  if env.updateErr then (some DBError.ioFailure, db)
  else
    let rows := upsertBy (fun c => c.ID) { cat with UpdatedAt := env.now } db.categories
    (none, { db with categories := rows })

/-- Number of live products that reference the category; a failing count leaves
the counter at 0, as the source ignores the error of `Count`. -/
def countProductsOfCategory {F : Type} (env : Env) (db : Store F) (id : Nat) : Nat :=
  if env.readErr then 0
  else
    (db.products.filter
      (fun p => decide (p.CategoryID = some id ∧ p.DeletedAt = none))).length

/-- Number of live products that reference the supplier. -/
def countProductsOfSupplier {F : Type} (env : Env) (db : Store F) (id : Nat) : Nat :=
  if env.readErr then 0
  else
    (db.products.filter
      (fun p => decide (p.SupplierID = some id ∧ p.DeletedAt = none))).length

/-- Result of `DeleteCategory` and `DeleteSupplier`: refused because products
reference the row, a database error, or done. -/
inductive DeleteOutcome where
  | inUse (count : Nat)
  | failed (err : DBError)
  | done
deriving DecidableEq, Repr

/-- Method `Repository.DeleteCategory`: soft delete unless products reference it. -/
def DeleteCategory {F : Type} (env : Env) (db : Store F) (id : Nat) :
    DeleteOutcome × Store F :=
  if 0 < countProductsOfCategory env db id then
    (DeleteOutcome.inUse (countProductsOfCategory env db id), db)
  else if env.updateErr then (DeleteOutcome.failed DBError.ioFailure, db)
  else
    (DeleteOutcome.done, { db with categories := db.categories.map (fun c =>
      if c.ID = id ∧ c.DeletedAt = none then { c with DeletedAt := some env.now } else c) })

/-- Method `Repository.GetSupplierByID`. -/
def GetSupplierByID {F : Type} (env : Env) (db : Store F) (id : Nat) :
    Except DBError models.Supplier :=
  if env.readErr then Except.error DBError.ioFailure
  else
    match db.suppliers.find? (fun c => decide (c.ID = id ∧ c.DeletedAt = none)) with
    | some sup => Except.ok sup
    | none => Except.error DBError.recordNotFound

/-- Method `Repository.CreateSupplier`; `code` carries a unique index. -/
def CreateSupplier {F : Type} (env : Env) (db : Store F) (sup : models.Supplier) :
    Option DBError × Store F :=
  if env.createErr then (some DBError.ioFailure, db)
  else if db.suppliers.any (fun c => decide (c.Code = sup.Code)) then
    (some DBError.uniqueViolation, db)
  else
    (none, { db with suppliers := db.suppliers ++
      [{ sup with
          ID := if sup.ID = 0 then nextID (db.suppliers.map (fun c => c.ID)) else sup.ID,
          CreatedAt := if sup.CreatedAt = 0 then env.now else sup.CreatedAt,
          UpdatedAt := if sup.UpdatedAt = 0 then env.now else sup.UpdatedAt }] })

/-- Method `Repository.UpdateSupplier` (`Save`). -/
def UpdateSupplier {F : Type} (env : Env) (db : Store F) (sup : models.Supplier) :
    Option DBError × Store F :=
  if env.updateErr then (some DBError.ioFailure, db)
  else if db.suppliers.any (fun c => decide (c.ID ≠ sup.ID ∧ c.Code = sup.Code)) then
    (some DBError.uniqueViolation, db)
  else
    let rows := upsertBy (fun c => c.ID) { sup with UpdatedAt := env.now } db.suppliers
    (none, { db with suppliers := rows })

/-- Method `Repository.DeleteSupplier`: soft delete unless products reference it. -/
def DeleteSupplier {F : Type} (env : Env) (db : Store F) (id : Nat) :
    DeleteOutcome × Store F :=
  if 0 < countProductsOfSupplier env db id then
    (DeleteOutcome.inUse (countProductsOfSupplier env db id), db)
  else if env.updateErr then (DeleteOutcome.failed DBError.ioFailure, db)
  else
    (DeleteOutcome.done, { db with suppliers := db.suppliers.map (fun c =>
      if c.ID = id ∧ c.DeletedAt = none then { c with DeletedAt := some env.now } else c) })

/-- Method `Repository.GetProductBySKU`: the first live product with the SKU. -/
def GetProductBySKU {F : Type} (env : Env) (db : Store F) (sku : String) :
    Except DBError (models.Product F) :=
  if env.readErr then Except.error DBError.ioFailure
  else
    match db.products.find? (fun p => decide (p.SKU = sku ∧ p.DeletedAt = none)) with
    | some product => Except.ok product
    | none => Except.error DBError.recordNotFound

/-- The foreign keys of the product table, which the database enforces
(`PRAGMA foreign_keys=ON`): a category id or a supplier id that is set is the id of
a row of its table, soft-deleted or not. -/
def foreignKeysHold {F : Type} (db : Store F) (product : models.Product F) : Bool :=
  (match product.CategoryID with
    | none => true
    | some id => db.categories.any (fun c => decide (c.ID = id)))
  && (match product.SupplierID with
    | none => true
    | some id => db.suppliers.any (fun s => decide (s.ID = id)))

/-- Method `Repository.CreateProduct`; `sku` carries a unique index, `category_id`
and `supplier_id` are foreign keys. -/
def CreateProduct {F : Type} (env : Env) (db : Store F) (product : models.Product F) :
    Option DBError × Store F :=
  if env.createErr then (some DBError.ioFailure, db)
  else if db.products.any (fun p => decide (p.SKU = product.SKU)) then
    (some DBError.uniqueViolation, db)
  else if foreignKeysHold db product = false then (some DBError.foreignKeyViolation, db)
  else
    (none, { db with products := db.products ++
      [{ product with
          ID := if product.ID = 0 then nextID (db.products.map (fun p => p.ID))
            else product.ID,
          CreatedAt := if product.CreatedAt = 0 then env.now else product.CreatedAt,
          UpdatedAt := if product.UpdatedAt = 0 then env.now else product.UpdatedAt }] })

/-- The value `Preload("Category")` of `GetProductByID` puts into the field
`Category` of the product it returns: the live category the product refers to. -/
def preloadCategory {F : Type} (db : Store F) (product : models.Product F) :
    Option models.Category :=
  match product.CategoryID with
  | none => none
  | some id => db.categories.find? (fun c => decide (c.ID = id ∧ c.DeletedAt = none))

/-- The value `Preload("Supplier")` of `GetProductByID` puts into the field
`Supplier` of the product it returns: the live supplier the product refers to. -/
def preloadSupplier {F : Type} (db : Store F) (product : models.Product F) :
    Option models.Supplier :=
  match product.SupplierID with
  | none => none
  | some id => db.suppliers.find? (fun s => decide (s.ID = id ∧ s.DeletedAt = none))

/-- The row `Save` writes for a product whose fields `Category` and `Supplier` hold
`category` and `supplier`: gorm copies the id of a loaded association into its
foreign key, whatever the foreign key field held, and refreshes the update time. -/
def savedRow {F : Type} (now : Nat) (product : models.Product F)
    (category : Option models.Category) (supplier : Option models.Supplier) :
    models.Product F :=
  { product with
      CategoryID :=
        (match category with
          | some c => some c.ID
          | none => product.CategoryID),
      SupplierID :=
        (match supplier with
          | some s => some s.ID
          | none => product.SupplierID),
      UpdatedAt := now }

/-- Method `Repository.UpdateProduct` (`Save`) on a product whose association
fields `Category` and `Supplier` hold `category` and `supplier`: every column of
the row, the current stock included, is written from `savedRow`.  The rows of the
loaded associations exist already and are left as they are. -/
def UpdateProductWith {F : Type} (env : Env) (db : Store F) (product : models.Product F)
    (category : Option models.Category) (supplier : Option models.Supplier) :
    Option DBError × Store F :=
  if env.updateErr then (some DBError.ioFailure, db)
  else if db.products.any (fun p => decide (p.ID ≠ product.ID ∧ p.SKU = product.SKU)) then
    (some DBError.uniqueViolation, db)
  else if foreignKeysHold db (savedRow env.now product category supplier) = false then
    (some DBError.foreignKeyViolation, db)
  else
    let rows := upsertBy (fun p => p.ID) (savedRow env.now product category supplier)
      db.products
    (none, { db with products := rows })

/-- Method `Repository.UpdateProduct` (`Save`) on a product without loaded
associations. -/
def UpdateProduct {F : Type} (env : Env) (db : Store F) (product : models.Product F) :
    Option DBError × Store F :=
  UpdateProductWith env db product none none

/-- Method `Repository.DeleteProduct`: soft delete. -/
def DeleteProduct {F : Type} (env : Env) (db : Store F) (id : Nat) :
    Option DBError × Store F :=
  if env.updateErr then (some DBError.ioFailure, db)
  else
    (none, { db with products := db.products.map (fun p =>
      if p.ID = id ∧ p.DeletedAt = none then { p with DeletedAt := some env.now } else p) })

end repository

/-! ## internal/service -/

/-- Error returned by a stock operation of the service. -/
inductive ServiceError where
  /-- The message "product does not exist". -/
  | productNotFound
  /-- The message "insufficient stock", with current stock and requested quantity. -/
  | insufficientStock (current requested : Int)
  /-- An error of `Repository.StockOperation`, returned as it is. -/
  | storage (err : DBError)
deriving DecidableEq, Repr

/-- Password hashing: `bcrypt.GenerateFromPassword`, which can fail, and
`bcrypt.CompareHashAndPassword` (hash first, password second). -/
structure Crypto where
  generateFromPassword : String → Option String
  compareHashAndPassword : String → String → Bool

/-- Error returned by a service method on users and master data. -/
inductive CrudError where
  /-- The row to work on does not exist. -/
  | notFound
  /-- The user name or the SKU is taken. -/
  | alreadyExists
  /-- The old password does not match. -/
  | wrongPassword
  /-- The password could not be hashed. -/
  | hashFailed
  /-- Products reference the category or supplier to delete. -/
  | inUse (count : Nat)
  /-- An error of the repository call. -/
  | storage (err : DBError)
deriving DecidableEq, Repr

namespace service

/-- Result of `Repository.StockOperation` as the service returns it. -/
def commitResult {F : Type} (r : Option DBError × Store F) :
    Option ServiceError × Store F :=
  match r with
  | (some err, db) => (some (ServiceError.storage err), db)
  | (none, db) => (none, db)

/-- Method `Service.StockIn` (service.go, lines 349-374). -/
def StockIn {F : Type} [Float64Ops F] (env : Env) (db : Store F)
    (req : models.StockInRequest F) (operatorID : Nat) (operatorName : String) :
    Option ServiceError × Store F :=
  match repository.GetProductByID env db req.ProductID with
  | Except.error _ => (some ServiceError.productNotFound, db)
  | Except.ok product =>
    let beforeQty := product.CurrentStock
    let afterQty := wrapInt (beforeQty + req.Quantity)
    let totalCost := Float64Ops.mul (Float64Ops.ofInt req.Quantity) req.UnitCost
    let record : models.InventoryRecord F :=
      { ID := 0
        ProductID := req.ProductID
        Type_ := models.StockIn
        Quantity := req.Quantity
        BeforeQty := beforeQty
        AfterQty := afterQty
        UnitCost := req.UnitCost
        TotalCost := totalCost
        ReferenceNo := req.ReferenceNo
        Notes := req.Notes
        OperatorID := operatorID
        OperatorName := operatorName
        CreatedAt := 0 }
    commitResult (repository.StockOperation env db record afterQty)

/-- Method `Service.StockOut` (service.go, lines 377-403). -/
def StockOut {F : Type} [Float64Ops F] (env : Env) (db : Store F)
    (req : models.StockOutRequest) (operatorID : Nat) (operatorName : String) :
    Option ServiceError × Store F :=
  match repository.GetProductByID env db req.ProductID with
  | Except.error _ => (some ServiceError.productNotFound, db)
  | Except.ok product =>
    if product.CurrentStock < req.Quantity then
      (some (ServiceError.insufficientStock product.CurrentStock req.Quantity), db)
    else
      let beforeQty := product.CurrentStock
      let afterQty := wrapInt (beforeQty - req.Quantity)
      let record : models.InventoryRecord F :=
        { ID := 0
          ProductID := req.ProductID
          Type_ := models.StockOut
          Quantity := req.Quantity
          BeforeQty := beforeQty
          AfterQty := afterQty
          UnitCost := Float64Ops.zero
          TotalCost := Float64Ops.zero
          ReferenceNo := req.ReferenceNo
          Notes := req.Notes
          OperatorID := operatorID
          OperatorName := operatorName
          CreatedAt := 0 }
      commitResult (repository.StockOperation env db record afterQty)

/-- Method `Service.StockAdjust` (service.go, lines 406-431). -/
def StockAdjust {F : Type} [Float64Ops F] (env : Env) (db : Store F)
    (req : models.StockAdjustRequest) (operatorID : Nat) (operatorName : String) :
    Option ServiceError × Store F :=
  match repository.GetProductByID env db req.ProductID with
  | Except.error _ => (some ServiceError.productNotFound, db)
  | Except.ok product =>
    let beforeQty := product.CurrentStock
    let diff := wrapInt (req.NewQuantity - beforeQty)
    let quantity := if diff < 0 then wrapInt (-diff) else diff
    let record : models.InventoryRecord F :=
      { ID := 0
        ProductID := req.ProductID
        Type_ := models.StockAdjust
        Quantity := quantity
        BeforeQty := beforeQty
        AfterQty := req.NewQuantity
        UnitCost := Float64Ops.zero
        TotalCost := Float64Ops.zero
        ReferenceNo := ""
        Notes := req.Notes
        OperatorID := operatorID
        OperatorName := operatorName
        CreatedAt := 0 }
    commitResult (repository.StockOperation env db record req.NewQuantity)

/-- Method `Service.GetLowStockProducts`. -/
def GetLowStockProducts {F : Type} (env : Env) (db : Store F) :
    Except DBError (List (models.Product F)) :=
  repository.GetLowStockProducts env db 20

/-- Method `Service.ListInventoryRecords`. -/
def ListInventoryRecords {F : Type} (env : Env) (db : Store F)
    (query : models.PaginationQuery) (productID : Option Nat) (recordType : String)
    (startDate endDate : Option Nat) :
    Except DBError (List (models.InventoryRecord F) × Nat) :=
  repository.ListInventoryRecords env db query productID recordType startDate endDate

/-- Result of a repository write as the service returns it. -/
def crudResult {F : Type} (r : Option DBError × Store F) : Option CrudError × Store F :=
  match r with
  | (some err, db) => (some (CrudError.storage err), db)
  | (none, db) => (none, db)

/-- Result of `DeleteCategory` or `DeleteSupplier` as the service returns it. -/
def deleteResult {F : Type} (r : repository.DeleteOutcome × Store F) :
    Option CrudError × Store F :=
  match r with
  | (repository.DeleteOutcome.inUse count, db) => (some (CrudError.inUse count), db)
  | (repository.DeleteOutcome.failed err, db) => (some (CrudError.storage err), db)
  | (repository.DeleteOutcome.done, db) => (none, db)

/-- Check of `UpdateProduct` for a changed SKU: another live product carries it. -/
def skuTaken {F : Type} (env : Env) (db : Store F) (id : Nat) (oldSKU newSKU : String) :
    Bool :=
  if newSKU ≠ oldSKU then
    match repository.GetProductBySKU env db newSKU with
    | Except.ok existing => decide (existing.ID ≠ id)
    | Except.error _ => false
  else false

/-- Method `Service.Register`. -/
def Register {F : Type} (crypto : Crypto) (env : Env) (db : Store F)
    (req : models.RegisterRequest) : Option CrudError × Store F :=
  match repository.GetUserByUsername env db req.Username with
  | Except.ok _ => (some CrudError.alreadyExists, db)
  | Except.error _ =>
    match crypto.generateFromPassword req.Password with
    | none => (some CrudError.hashFailed, db)
    | some hashedPwd =>
      let user : models.User :=
        { ID := 0, CreatedAt := 0, UpdatedAt := 0, DeletedAt := none
          Username := req.Username
          Password := hashedPwd
          Email := req.Email
          RealName := req.RealName
          Phone := ""
          Role := "operator"
          Status := 1
          Avatar := "" }
      crudResult (repository.CreateUser env db user)

/-- Method `Service.UpdateProfile`. -/
def UpdateProfile {F : Type} (env : Env) (db : Store F) (userID : Nat)
    (req : models.UpdateProfileRequest) : Option CrudError × Store F :=
  match repository.GetUserByID env db userID with
  | Except.error _ => (some CrudError.notFound, db)
  | Except.ok user =>
    let user1 := { user with Email := req.Email, RealName := req.RealName, Phone := req.Phone }
    let user2 := if req.Avatar ≠ "" then { user1 with Avatar := req.Avatar } else user1
    crudResult (repository.UpdateUser env db user2)

/-- Method `Service.ChangePassword`. -/
def ChangePassword {F : Type} (crypto : Crypto) (env : Env) (db : Store F) (userID : Nat)
    (req : models.ChangePasswordRequest) : Option CrudError × Store F :=
  match repository.GetUserByID env db userID with
  | Except.error _ => (some CrudError.notFound, db)
  | Except.ok user =>
    if crypto.compareHashAndPassword user.Password req.OldPassword then
      match crypto.generateFromPassword req.NewPassword with
      | none => (some CrudError.hashFailed, db)
      | some hashedPwd =>
        crudResult (repository.UpdateUser env db { user with Password := hashedPwd })
    else (some CrudError.wrongPassword, db)

/-- Method `Service.CreateCategory`. -/
def CreateCategory {F : Type} (env : Env) (db : Store F) (req : models.CategoryRequest) :
    Option CrudError × Store F :=
  let cat : models.Category :=
    { ID := 0, CreatedAt := 0, UpdatedAt := 0, DeletedAt := none
      Name := req.Name
      Description := req.Description
      SortOrder := req.SortOrder
      Status := 1 }
  let cat1 := if req.Status ≠ 0 then { cat with Status := req.Status } else cat
  crudResult (repository.CreateCategory env db cat1)

/-- Method `Service.UpdateCategory`. -/
def UpdateCategory {F : Type} (env : Env) (db : Store F) (id : Nat)
    (req : models.CategoryRequest) : Option CrudError × Store F :=
  match repository.GetCategoryByID env db id with
  | Except.error _ => (some CrudError.notFound, db)
  | Except.ok cat =>
    let cat1 :=
      { cat with Name := req.Name, Description := req.Description, SortOrder := req.SortOrder }
    let cat2 := if req.Status ≠ 0 then { cat1 with Status := req.Status } else cat1
    crudResult (repository.UpdateCategory env db cat2)

/-- Method `Service.DeleteCategory`. -/
def DeleteCategory {F : Type} (env : Env) (db : Store F) (id : Nat) :
    Option CrudError × Store F :=
  deleteResult (repository.DeleteCategory env db id)

/-- Method `Service.CreateSupplier`. -/
def CreateSupplier {F : Type} (env : Env) (db : Store F) (req : models.SupplierRequest) :
    Option CrudError × Store F :=
  let sup : models.Supplier :=
    { ID := 0, CreatedAt := 0, UpdatedAt := 0, DeletedAt := none
      Code := req.Code
      Name := req.Name
      ContactPerson := req.ContactPerson
      Phone := req.Phone
      Email := req.Email
      Address := req.Address
      Status := 1
      Remark := req.Remark }
  let sup1 := if req.Status ≠ 0 then { sup with Status := req.Status } else sup
  crudResult (repository.CreateSupplier env db sup1)

/-- Method `Service.UpdateSupplier`. -/
def UpdateSupplier {F : Type} (env : Env) (db : Store F) (id : Nat)
    (req : models.SupplierRequest) : Option CrudError × Store F :=
  match repository.GetSupplierByID env db id with
  | Except.error _ => (some CrudError.notFound, db)
  | Except.ok sup =>
    let sup1 :=
      { sup with
          Code := req.Code, Name := req.Name, ContactPerson := req.ContactPerson,
          Phone := req.Phone, Email := req.Email, Address := req.Address,
          Remark := req.Remark }
    let sup2 := if req.Status ≠ 0 then { sup1 with Status := req.Status } else sup1
    crudResult (repository.UpdateSupplier env db sup2)

/-- Method `Service.DeleteSupplier`. -/
def DeleteSupplier {F : Type} (env : Env) (db : Store F) (id : Nat) :
    Option CrudError × Store F :=
  deleteResult (repository.DeleteSupplier env db id)

/-- Method `Service.CreateProduct`. -/
def CreateProduct {F : Type} (env : Env) (db : Store F) (req : models.ProductRequest F) :
    Option CrudError × Store F :=
  match repository.GetProductBySKU env db req.SKU with
  | Except.ok _ => (some CrudError.alreadyExists, db)
  | Except.error _ =>
    let product : models.Product F :=
      { ID := 0, CreatedAt := 0, UpdatedAt := 0, DeletedAt := none
        SKU := req.SKU
        Name := req.Name
        Description := req.Description
        CategoryID := req.CategoryID
        SupplierID := req.SupplierID
        Unit := req.Unit
        CostPrice := req.CostPrice
        SellingPrice := req.SellingPrice
        CurrentStock := 0
        MinStock := req.MinStock
        MaxStock := req.MaxStock
        Barcode := req.Barcode
        Location := req.Location
        ImageURL := req.ImageURL
        Status := 1 }
    let product1 := if req.Unit = "" then { product with Unit := "个" } else product
    let product2 :=
      if req.Status ≠ 0 then { product1 with Status := req.Status } else product1
    crudResult (repository.CreateProduct env db product2)

/-- Method `Service.UpdateProduct`.  The product `GetProductByID` returns carries
its preloaded category and supplier, which stay in it when the columns are
overwritten from the request. -/
def UpdateProduct {F : Type} (env : Env) (db : Store F) (id : Nat)
    (req : models.ProductRequest F) : Option CrudError × Store F :=
  match repository.GetProductByID env db id with
  | Except.error _ => (some CrudError.notFound, db)
  | Except.ok product =>
    if skuTaken env db id product.SKU req.SKU then (some CrudError.alreadyExists, db)
    else
      let product1 :=
        { product with
            SKU := req.SKU, Name := req.Name, Description := req.Description,
            CategoryID := req.CategoryID, SupplierID := req.SupplierID, Unit := req.Unit,
            CostPrice := req.CostPrice, SellingPrice := req.SellingPrice,
            MinStock := req.MinStock, MaxStock := req.MaxStock, Barcode := req.Barcode,
            Location := req.Location, ImageURL := req.ImageURL }
      let product2 :=
        if req.Status ≠ 0 then { product1 with Status := req.Status } else product1
      crudResult (repository.UpdateProductWith env db product2
        (repository.preloadCategory db product) (repository.preloadSupplier db product))

/-- Method `Service.DeleteProduct`. -/
def DeleteProduct {F : Type} (env : Env) (db : Store F) (id : Nat) :
    Option CrudError × Store F :=
  crudResult (repository.DeleteProduct env db id)

end service

/-- One call of the stock mutation engine. -/
inductive Call (F : Type) where
  | stockIn (req : models.StockInRequest F) (operatorID : Nat) (operatorName : String)
  | stockOut (req : models.StockOutRequest) (operatorID : Nat) (operatorName : String)
  | stockAdjust (req : models.StockAdjustRequest) (operatorID : Nat) (operatorName : String)

/-- Product id the call targets. -/
def Call.productID {F : Type} : Call F → Nat
  | Call.stockIn req _ _ => req.ProductID
  | Call.stockOut req _ _ => req.ProductID
  | Call.stockAdjust req _ _ => req.ProductID

/-- Runs the call through the service. -/
def Call.apply {F : Type} [Float64Ops F] (env : Env) (db : Store F) :
    Call F → Option ServiceError × Store F
  | Call.stockIn req operatorID operatorName =>
    service.StockIn env db req operatorID operatorName
  | Call.stockOut req operatorID operatorName =>
    service.StockOut env db req operatorID operatorName
  | Call.stockAdjust req operatorID operatorName =>
    service.StockAdjust env db req operatorID operatorName

/-! ## internal/handler -/

namespace handler

/-- Response of a stock handler. -/
inductive Response where
  /-- Status 400: `ShouldBindJSON` refused the request body. -/
  | bindingError
  /-- Status 400 carrying the error of the service call. -/
  | badRequest (err : ServiceError)
  /-- Status 200. -/
  | success
deriving DecidableEq, Repr

/-- HTTP status code of the response. -/
def Response.code : Response → Nat
  | Response.bindingError => 400
  | Response.badRequest _ => 400
  | Response.success => 200

/-- Validation of `StockInRequest` by its `binding` tags: `product_id` is
`required` (not the zero value), `quantity` is `required,min=1`. -/
def bindStockInRequest {F : Type} (req : models.StockInRequest F) : Bool :=
  decide (req.ProductID ≠ 0 ∧ req.Quantity ≠ 0 ∧ 1 ≤ req.Quantity)

/-- Validation of `StockOutRequest` by its `binding` tags: `product_id` is
`required`, `quantity` is `required,min=1`. -/
def bindStockOutRequest (req : models.StockOutRequest) : Bool :=
  decide (req.ProductID ≠ 0 ∧ req.Quantity ≠ 0 ∧ 1 ≤ req.Quantity)

/-- Validation of `StockAdjustRequest` by its `binding` tags: `product_id` is
`required`, `new_quantity` is `required,min=0`. -/
def bindStockAdjustRequest (req : models.StockAdjustRequest) : Bool :=
  decide (req.ProductID ≠ 0 ∧ req.NewQuantity ≠ 0 ∧ 0 ≤ req.NewQuantity)

/-- Response for the result of a service call. -/
def respond {F : Type} (r : Option ServiceError × Store F) : Response × Store F :=
  match r with
  | (some err, db) => (Response.badRequest err, db)
  | (none, db) => (Response.success, db)

/-- Handler `Handler.StockIn` on a decoded request body; `userID` and `username`
are the values of the request context. -/
def StockIn {F : Type} [Float64Ops F] (env : Env) (db : Store F)
    (req : models.StockInRequest F) (userID : Nat) (username : String) :
    Response × Store F :=
  if bindStockInRequest req then respond (service.StockIn env db req userID username)
  else (Response.bindingError, db)

/-- Handler `Handler.StockOut` on a decoded request body. -/
def StockOut {F : Type} [Float64Ops F] (env : Env) (db : Store F)
    (req : models.StockOutRequest) (userID : Nat) (username : String) :
    Response × Store F :=
  if bindStockOutRequest req then respond (service.StockOut env db req userID username)
  else (Response.bindingError, db)

/-- Handler `Handler.StockAdjust` on a decoded request body. -/
def StockAdjust {F : Type} [Float64Ops F] (env : Env) (db : Store F)
    (req : models.StockAdjustRequest) (userID : Nat) (username : String) :
    Response × Store F :=
  if bindStockAdjustRequest req then
    respond (service.StockAdjust env db req userID username)
  else (Response.bindingError, db)

end handler

/-! ## Sample data -/

/-- A product row with the given id, stock and upper stock threshold. -/
def sampleProduct (id : Nat) (stock maxStock : Int) : models.Product ℚ :=
  { ID := id, CreatedAt := 100, UpdatedAt := 100, DeletedAt := none
    SKU := String.mk ('P' :: List.replicate id '0'), Name := "bolt", Description := ""
    CategoryID := none
    SupplierID := none, Unit := "pc", CostPrice := 2, SellingPrice := 3
    CurrentStock := stock, MinStock := 10, MaxStock := maxStock
    Barcode := "", Location := "", ImageURL := "", Status := 1 }

/-- A store with two products and an empty ledger. -/
def sampleStore (stock : Int) : Store ℚ :=
  { products := [sampleProduct 1 stock 15, sampleProduct 2 7 0], records := [] }

/-- A store whose only product row is soft-deleted. -/
def deletedStore : Store ℚ :=
  { products := [{ sampleProduct 1 10 15 with DeletedAt := some 150 }], records := [] }

/-- An environment in which no database call fails. -/
def quietEnv (now : Nat) : Env :=
  { now := now, readErr := false, updateErr := false, createErr := false,
    commitErr := false }

/-! ## Vocabulary of the properties -/

/-- The ledger row `Service.StockIn` builds for a product it has read. -/
def stockInRecord {F : Type} [Float64Ops F] (req : models.StockInRequest F)
    (product : models.Product F) (operatorID : Nat) (operatorName : String) :
    models.InventoryRecord F :=
  { ID := 0
    ProductID := req.ProductID
    Type_ := models.StockIn
    Quantity := req.Quantity
    BeforeQty := product.CurrentStock
    AfterQty := wrapInt (product.CurrentStock + req.Quantity)
    UnitCost := req.UnitCost
    TotalCost := Float64Ops.mul (Float64Ops.ofInt req.Quantity) req.UnitCost
    ReferenceNo := req.ReferenceNo
    Notes := req.Notes
    OperatorID := operatorID
    OperatorName := operatorName
    CreatedAt := 0 }

/-- The ledger row `Service.StockOut` builds for a product it has read. -/
def stockOutRecord {F : Type} [Float64Ops F] (req : models.StockOutRequest)
    (product : models.Product F) (operatorID : Nat) (operatorName : String) :
    models.InventoryRecord F :=
  { ID := 0
    ProductID := req.ProductID
    Type_ := models.StockOut
    Quantity := req.Quantity
    BeforeQty := product.CurrentStock
    AfterQty := wrapInt (product.CurrentStock - req.Quantity)
    UnitCost := Float64Ops.zero
    TotalCost := Float64Ops.zero
    ReferenceNo := req.ReferenceNo
    Notes := req.Notes
    OperatorID := operatorID
    OperatorName := operatorName
    CreatedAt := 0 }

/-- The quantity `Service.StockAdjust` records: the wrapped difference, negated
when negative. -/
def adjustQuantity (newQuantity beforeQty : Int) : Int :=
  if wrapInt (newQuantity - beforeQty) < 0 then wrapInt (-wrapInt (newQuantity - beforeQty))
  else wrapInt (newQuantity - beforeQty)

/-- The ledger row `Service.StockAdjust` builds for a product it has read. -/
def stockAdjustRecord {F : Type} [Float64Ops F] (req : models.StockAdjustRequest)
    (product : models.Product F) (operatorID : Nat) (operatorName : String) :
    models.InventoryRecord F :=
  { ID := 0
    ProductID := req.ProductID
    Type_ := models.StockAdjust
    Quantity := adjustQuantity req.NewQuantity product.CurrentStock
    BeforeQty := product.CurrentStock
    AfterQty := req.NewQuantity
    UnitCost := Float64Ops.zero
    TotalCost := Float64Ops.zero
    ReferenceNo := ""
    Notes := req.Notes
    OperatorID := operatorID
    OperatorName := operatorName
    CreatedAt := 0 }

/-- No database call of the environment reports an error. -/
def Env.Quiet (env : Env) : Prop :=
  env.readErr = false ∧ env.updateErr = false ∧ env.createErr = false ∧
    env.commitErr = false

instance (env : Env) : Decidable env.Quiet := by
  unfold Env.Quiet; infer_instance

/-- The store after both steps of a stock operation have been applied. -/
def applied {F : Type} (env : Env) (db : Store F) (record : models.InventoryRecord F)
    (newStock : Int) : Store F :=
  { db with
      products := db.products.map (setStock env.now record.ProductID newStock),
      records := db.records ++ [stampRecord env.now db.records record] }

/-- The ledger row and the new stock a call computes from the product it read. -/
def Call.plan {F : Type} [Float64Ops F] (call : Call F) (product : models.Product F) :
    models.InventoryRecord F × Int :=
  match call with
  | Call.stockIn req operatorID operatorName =>
    (stockInRecord req product operatorID operatorName,
      wrapInt (product.CurrentStock + req.Quantity))
  | Call.stockOut req operatorID operatorName =>
    (stockOutRecord req product operatorID operatorName,
      wrapInt (product.CurrentStock - req.Quantity))
  | Call.stockAdjust req operatorID operatorName =>
    (stockAdjustRecord req product operatorID operatorName, req.NewQuantity)

/-- The part of a service call before `StockOperation`: the product is read, and
for a stock-out the guard is evaluated on the stock that was read. -/
def Call.prepare {F : Type} [Float64Ops F] (env : Env) (db : Store F) (call : Call F) :
    Except ServiceError (models.InventoryRecord F × Int) :=
  match repository.GetProductByID env db call.productID with
  | Except.error _ => Except.error ServiceError.productNotFound
  | Except.ok product =>
    match call with
    | Call.stockOut req _ _ =>
      if product.CurrentStock < req.Quantity then
        Except.error (ServiceError.insufficientStock product.CurrentStock req.Quantity)
      else Except.ok (call.plan product)
    | _ => Except.ok (call.plan product)

/-- The final statement of a service call: `return s.repo.StockOperation(...)`. -/
def Call.commit {F : Type} (env : Env) (db : Store F)
    (plan : models.InventoryRecord F × Int) : Option ServiceError × Store F :=
  service.commitResult (repository.StockOperation env db plan.1 plan.2)

/-- An environment in which the ledger insert fails. -/
def createFailsEnv (now : Nat) : Env :=
  { now := now, readErr := false, updateErr := false, createErr := true,
    commitErr := false }

/-- A stock-in request for product 1. -/
def sampleStockIn (quantity : Int) : models.StockInRequest ℚ :=
  { ProductID := 1, Quantity := quantity, UnitCost := 3, ReferenceNo := "PO-2", Notes := "" }

/-- A stock-out request for product 1. -/
def sampleStockOut (quantity : Int) : models.StockOutRequest :=
  { ProductID := 1, Quantity := quantity, ReferenceNo := "SO-2", Notes := "" }

/-- An adjustment request for product 1. -/
def sampleStockAdjust (newQuantity : Int) : models.StockAdjustRequest :=
  { ProductID := 1, NewQuantity := newQuantity, Notes := "recount" }

/-- Sequential execution of calls, each in its own environment. -/
def run {F : Type} [Float64Ops F] (db : Store F) : List (Env × Call F) → Store F
  | [] => db
  | c :: rest => run (c.2.apply c.1 db).2 rest

/-- Current stock of the live product with the given id, if there is one. -/
def currentStock {F : Type} (db : Store F) (id : Nat) : Option Int :=
  (db.products.find? (repository.isLiveWithID id)).map (fun p => p.CurrentStock)

/-- Ledger entries of one product, oldest first. -/
def ledgerOf {F : Type} (id : Nat) (db : Store F) : List (models.InventoryRecord F) :=
  db.records.filter (fun r => decide (r.ProductID = id))

/-- Number of calls of the run that target the product and succeed. -/
def successes {F : Type} [Float64Ops F] (id : Nat) (db : Store F) :
    List (Env × Call F) → Nat
  | [] => 0
  | c :: rest =>
    (if c.2.productID = id ∧ (c.2.apply c.1 db).1 = none then 1 else 0)
      + successes id (c.2.apply c.1 db).2 rest

/-- The entries form a chain from `seed` to `cur`: the first starts at `seed`, each
next one starts where the previous ended, and the last ends at `cur`. -/
def Chained {F : Type} (seed : Int) : List (models.InventoryRecord F) → Int → Prop
  | [], cur => cur = seed
  | e :: rest, cur => e.BeforeQty = seed ∧ Chained e.AfterQty rest cur

/-- Every stock is at least 0 and representable as a Go `int`. -/
def StocksNonneg {F : Type} (db : Store F) : Prop :=
  ∀ p ∈ db.products, 0 ≤ p.CurrentStock ∧ p.CurrentStock ≤ MaxInt

instance {F : Type} (db : Store F) : Decidable (StocksNonneg db) :=
  inferInstanceAs (Decidable (∀ p ∈ db.products, 0 ≤ p.CurrentStock ∧ p.CurrentStock ≤ MaxInt))

/-- The request of the call respects its precondition, its numbers are Go `int`s,
and a stock-in does not push the stock of its product beyond the largest `int`. -/
def Call.admissible {F : Type} (db : Store F) : Call F → Prop
  | Call.stockIn req _ _ =>
    0 < req.Quantity ∧ ∀ before ∈ currentStock db req.ProductID, before + req.Quantity ≤ MaxInt
  | Call.stockOut req _ _ => 0 < req.Quantity
  | Call.stockAdjust req _ _ => 0 ≤ req.NewQuantity ∧ req.NewQuantity ≤ MaxInt

instance Call.decAdmissible {F : Type} (db : Store F) :
    (call : Call F) → Decidable (call.admissible db)
  | Call.stockIn req _ _ =>
    inferInstanceAs (Decidable (0 < req.Quantity ∧
      ∀ before ∈ currentStock db req.ProductID, before + req.Quantity ≤ MaxInt))
  | Call.stockOut req _ _ => inferInstanceAs (Decidable (0 < req.Quantity))
  | Call.stockAdjust req _ _ =>
    inferInstanceAs (Decidable (0 ≤ req.NewQuantity ∧ req.NewQuantity ≤ MaxInt))

/-- Every call of the run is admissible in the store it is executed on. -/
def admissibleRun {F : Type} [Float64Ops F] (db : Store F) :
    List (Env × Call F) → Prop
  | [] => True
  | c :: rest => c.2.admissible db ∧ admissibleRun (c.2.apply c.1 db).2 rest

/-- Admissibility of a run is decided call by call. -/
def decAdmissibleRun {F : Type} [Float64Ops F] :
    (db : Store F) → (calls : List (Env × Call F)) → Decidable (admissibleRun db calls)
  | _, [] => isTrue trivial
  | db, c :: rest =>
    @instDecidableAnd _ _ (Call.decAdmissible db c.2)
      (decAdmissibleRun (c.2.apply c.1 db).2 rest)

instance {F : Type} [Float64Ops F] (db : Store F) (calls : List (Env × Call F)) :
    Decidable (admissibleRun db calls) :=
  decAdmissibleRun db calls

/-- How far one in-flight service call has got: not started, product read and
ledger row built (the call is about to enter `StockOperation`), or returned. -/
inductive Progress (F : Type) where
  | idle
  | prepared (plan : models.InventoryRecord F × Int)
  | returned (result : Option ServiceError)
deriving DecidableEq

/-- One database round trip of a call on the shared store: the read with the
guard, then the transaction of `StockOperation`. -/
def advance {F : Type} [Float64Ops F] (env : Env) (call : Call F) (db : Store F) :
    Progress F → Progress F × Store F
  | Progress.idle =>
    match call.prepare env db with
    | Except.error e => (Progress.returned (some e), db)
    | Except.ok plan => (Progress.prepared plan, db)
  | Progress.prepared plan =>
    (Progress.returned (Call.commit env db plan).1, (Call.commit env db plan).2)
  | Progress.returned result => (Progress.returned result, db)

/-- Two concurrent requests and the store they share. -/
structure TwoCalls (F : Type) where
  db : Store F
  first : Progress F
  second : Progress F
deriving DecidableEq

/-- Runs a schedule: `false` lets the first call make its next round trip, `true`
the second. -/
def interleave {F : Type} [Float64Ops F] (env : Env) (callA callB : Call F) :
    List Bool → TwoCalls F → TwoCalls F
  | [], st => st
  | false :: rest, st =>
    interleave env callA callB rest
      { st with db := (advance env callA st.db st.first).2,
                first := (advance env callA st.db st.first).1 }
  | true :: rest, st =>
    interleave env callA callB rest
      { st with db := (advance env callB st.db st.second).2,
                second := (advance env callB st.db st.second).1 }

/-- The six orders in which two calls of two round trips each can be interleaved. -/
def schedules : List (List Bool) :=
  [[false, false, true, true], [false, true, false, true], [false, true, true, false],
   [true, false, false, true], [true, false, true, false], [true, true, false, false]]

/-- A run on product 1: a stock-in, a refused stock-out, a stock-out whose ledger
insert fails, an adjustment to zero and a stock-out on the emptied product. -/
def sampleRun : List (Env × Call ℚ) :=
  [(quietEnv 200, Call.stockIn (sampleStockIn 5) 7 "amy"),
   (quietEnv 201, Call.stockOut (sampleStockOut 20) 7 "amy"),
   (createFailsEnv 202, Call.stockOut (sampleStockOut 2) 7 "amy"),
   (quietEnv 203, Call.stockAdjust (sampleStockAdjust 0) 7 "amy"),
   (quietEnv 204, Call.stockOut (sampleStockOut 1) 7 "amy")]

/-- Well-formedness of a ledger entry as the data model states it. -/
def EntryWellFormed {F : Type} (e : models.InventoryRecord F) : Prop :=
  0 ≤ e.Quantity
  ∧ (e.Type_ = "stock_in" → e.AfterQty = e.BeforeQty + e.Quantity)
  ∧ (e.Type_ = "stock_out" → e.AfterQty = e.BeforeQty - e.Quantity ∧ e.Quantity ≤ e.BeforeQty)
  ∧ (e.Type_ = "adjust" → e.Quantity = |e.AfterQty - e.BeforeQty|)

instance {F : Type} (e : models.InventoryRecord F) : Decidable (EntryWellFormed e) :=
  inferInstanceAs (Decidable (0 ≤ e.Quantity
    ∧ (e.Type_ = "stock_in" → e.AfterQty = e.BeforeQty + e.Quantity)
    ∧ (e.Type_ = "stock_out" →
        e.AfterQty = e.BeforeQty - e.Quantity ∧ e.Quantity ≤ e.BeforeQty)
    ∧ (e.Type_ = "adjust" → e.Quantity = |e.AfterQty - e.BeforeQty|)))

/-- A product that qualifies as low stock ahead of product 1: stock 0, minimum 1. -/
def crowdProduct (id : Nat) : models.Product ℚ :=
  { sampleProduct id 0 0 with MinStock := 1 }

/-- Twenty low-stock products with stock 0 and product 1 with stock 5, minimum 10. -/
def crowdedStore : Store ℚ :=
  { products := sampleProduct 1 5 15 :: (List.range 20).map (fun i => crowdProduct (i + 2)),
    records := [] }

/-- A store whose second product has minimum stock 0 and stock 0. -/
def lowStockStore : Store ℚ :=
  { products := [sampleProduct 1 5 15, { sampleProduct 2 0 0 with MinStock := 0 },
      { sampleProduct 3 2 0 with MinStock := 4 }, { sampleProduct 4 3 0 with Status := 0 },
      sampleProduct 5 11 0],
    records := [] }

/-- A ledger row of the given product, kind, creation time, reference and notes. -/
def sampleRecord (id productID : Nat) (kind : String) (createdAt : Nat)
    (referenceNo notes : String) : models.InventoryRecord ℚ :=
  { ID := id, ProductID := productID, Type_ := kind, Quantity := 1, BeforeQty := 0
    AfterQty := 1, UnitCost := 0, TotalCost := 0, ReferenceNo := referenceNo
    Notes := notes, OperatorID := 7, OperatorName := "amy", CreatedAt := createdAt }

/-- A ledger of five rows created on days 3, 4 and 5; the fourth row is stamped
half a second before the end of day 4. -/
def ledgerStore : Store ℚ :=
  { products := [sampleProduct 1 10 15, sampleProduct 2 7 0],
    records :=
      [sampleRecord 1 1 "stock_in" (3 * nanosPerDay + 5) "PO-2" "first delivery",
       sampleRecord 2 2 "stock_in" (4 * nanosPerDay) "PO-3" "",
       sampleRecord 3 1 "stock_out" (4 * nanosPerDay + 7) "SO-1" "sold",
       sampleRecord 4 1 "adjust" (4 * nanosPerDay + 86399 * nanosPerSecond + 500000000) ""
         "recount",
       sampleRecord 5 2 "stock_out" (5 * nanosPerDay + 1) "SO-2" "sold"] }

/-- A listing query with the given page, page size and keyword. -/
def sampleQuery (page pageSize : Int) (keyword : String) : models.PaginationQuery :=
  { Page := page, PageSize := pageSize, Keyword := keyword, Status := none }

/-- One call of a service method that writes to the database, other than the three
stock operations.  The remaining service methods (`Login`, `GetProfile`, the
`List...` and `Get...` methods, the dashboard methods) issue `SELECT` statements
only and hand back no new store. -/
inductive OtherCall (F : Type) where
  | register (req : models.RegisterRequest)
  | updateProfile (userID : Nat) (req : models.UpdateProfileRequest)
  | changePassword (userID : Nat) (req : models.ChangePasswordRequest)
  | createCategory (req : models.CategoryRequest)
  | updateCategory (id : Nat) (req : models.CategoryRequest)
  | deleteCategory (id : Nat)
  | createSupplier (req : models.SupplierRequest)
  | updateSupplier (id : Nat) (req : models.SupplierRequest)
  | deleteSupplier (id : Nat)
  | createProduct (req : models.ProductRequest F)
  | updateProduct (id : Nat) (req : models.ProductRequest F)
  | deleteProduct (id : Nat)

/-- Runs the call through the service. -/
def OtherCall.apply {F : Type} (crypto : Crypto) (env : Env) (db : Store F) :
    OtherCall F → Option CrudError × Store F
  | OtherCall.register req => service.Register crypto env db req
  | OtherCall.updateProfile userID req => service.UpdateProfile env db userID req
  | OtherCall.changePassword userID req => service.ChangePassword crypto env db userID req
  | OtherCall.createCategory req => service.CreateCategory env db req
  | OtherCall.updateCategory id req => service.UpdateCategory env db id req
  | OtherCall.deleteCategory id => service.DeleteCategory env db id
  | OtherCall.createSupplier req => service.CreateSupplier env db req
  | OtherCall.updateSupplier id req => service.UpdateSupplier env db id req
  | OtherCall.deleteSupplier id => service.DeleteSupplier env db id
  | OtherCall.createProduct req => service.CreateProduct env db req
  | OtherCall.updateProduct id req => service.UpdateProduct env db id req
  | OtherCall.deleteProduct id => service.DeleteProduct env db id

/-- A product request that renames product 1 and moves its thresholds. -/
def sampleProductRequest : models.ProductRequest ℚ :=
  { SKU := "P0", Name := "hex bolt", Description := "M8", CategoryID := none
    SupplierID := none, Unit := "box", CostPrice := 4, SellingPrice := 6
    MinStock := 2, MaxStock := 50, Barcode := "", Location := "A-1", ImageURL := ""
    Status := 0 }

/-- A password scheme for the samples: the hash is the password itself. -/
def sampleCrypto : Crypto :=
  { generateFromPassword := fun password => some password,
    compareHashAndPassword := fun hashed password => hashed == password }

/-- A store with two categories and two suppliers: product 1 references category 1
and supplier 1, product 2 references nothing, and product 3, deleted at time 150,
references category 2 and supplier 2. -/
def catalogStore : Store ℚ :=
  { products :=
      [{ sampleProduct 1 10 15 with CategoryID := some 1, SupplierID := some 1 },
       sampleProduct 2 7 0,
       { sampleProduct 3 4 0 with
           CategoryID := some 2, SupplierID := some 2, DeletedAt := some 150 }],
    records := [],
    categories :=
      [{ ID := 1, CreatedAt := 100, UpdatedAt := 100, DeletedAt := none, Name := "bolts"
         Description := "", SortOrder := 0, Status := 1 },
       { ID := 2, CreatedAt := 100, UpdatedAt := 100, DeletedAt := none, Name := "nuts"
         Description := "", SortOrder := 1, Status := 1 }],
    suppliers :=
      [{ ID := 1, CreatedAt := 100, UpdatedAt := 100, DeletedAt := none, Code := "S1"
         Name := "acme", ContactPerson := "", Phone := "", Email := "", Address := ""
         Status := 1, Remark := "" },
       { ID := 2, CreatedAt := 100, UpdatedAt := 100, DeletedAt := none, Code := "S2"
         Name := "apex", ContactPerson := "", Phone := "", Email := "", Address := ""
         Status := 1, Remark := "" }] }

/-! ## Routing and middleware -/

namespace middleware

/-- The claims `JWTAuth` reads from a token that `jwt.Parse` accepts; the tokens
signed by `Service.generateToken` carry all three. -/
structure TokenClaims where
  UserID : Nat
  Username : String
  Role : String
deriving DecidableEq, Repr

/-- The keys the middlewares set in the request context. -/
structure Context where
  UserID : Option Nat
  Username : Option String
  Role : Option String
deriving DecidableEq, Repr

/-- Context of a request before any middleware has run. -/
def Context.empty : Context :=
  { UserID := none, Username := none, Role := none }

/-- Function `strings.TrimPrefix`. -/
def trimPrefixOf (s pre : String) : String :=
  if pre.data.isPrefixOf s.data then String.mk (s.data.drop pre.data.length) else s

/-- Middleware `JWTAuth` (middleware.go, lines 15-72) on the value of the
`Authorization` header, which is empty when the header is absent.  The library call
`jwt.Parse` with the configured secret is the parameter `jwtParse`, which gives the
claims of a valid token.  The result is the status of the abort, or the context
handed to the next handler. -/
def JWTAuth (jwtParse : String → Option TokenClaims) (authHeader : String)
    (c : Context) : Except Nat Context :=
  if authHeader = "" then Except.error 401
  else
    let tokenString := trimPrefixOf authHeader "Bearer "
    if tokenString = authHeader then Except.error 401
    else
      match jwtParse tokenString with
      | none => Except.error 401
      | some claims =>
        Except.ok { c with
          UserID := some claims.UserID,
          Username := some claims.Username,
          Role := some claims.Role }

/-- Middleware `AdminOnly` (middleware.go, lines 75-89). -/
def AdminOnly (c : Context) : Except Nat Context :=
  match c.Role with
  | none => Except.error 403
  | some role => if role ≠ "admin" then Except.error 403 else Except.ok c

end middleware

namespace router

/-- HTTP methods of the routes. -/
inductive Method where
  | GET
  | POST
  | PUT
  | DELETE
deriving DecidableEq, Repr

/-- One segment of a route pattern: a literal, or a parameter such as `:id`. -/
inductive Segment where
  | lit (s : String)
  | param (name : String)
deriving DecidableEq, Repr

/-- The middlewares `Setup` can mount. -/
inductive Middleware where
  | recovery
  | requestLogger
  | cors
  | jwtAuth
  | adminOnly
deriving DecidableEq, Repr

/-- The handlers `Setup` registers. -/
inductive Endpoint where
  | health
  | index
  | app
  | Login
  | Register
  | GetProfile
  | UpdateProfile
  | ChangePassword
  | GetDashboardStats
  | GetChartData
  | GetLowStockProducts
  | ListCategories
  | GetAllCategories
  | CreateCategory
  | UpdateCategory
  | DeleteCategory
  | ListSuppliers
  | GetAllSuppliers
  | CreateSupplier
  | UpdateSupplier
  | DeleteSupplier
  | ListProducts
  | GetProduct
  | CreateProduct
  | UpdateProduct
  | DeleteProduct
  | StockIn
  | StockOut
  | StockAdjust
  | ListInventoryRecords
deriving DecidableEq, Repr

/-- A registered route: method, pattern, the handlers chained before the endpoint
(those of the engine, then those of its groups) and the endpoint. -/
structure Route where
  method : Method
  pattern : List Segment
  chain : List Middleware
  endpoint : Endpoint
deriving DecidableEq, Repr

/-- A request: method, path segments and the `Authorization` header. -/
structure Request where
  method : Method
  path : List String
  authorization : String
deriving DecidableEq, Repr

/-- The handlers mounted on the engine with `r.Use`. -/
def engineChain : List Middleware :=
  [Middleware.recovery, Middleware.requestLogger, Middleware.cors]

/-- The handlers of the group `protected`: those of the engine and `JWTAuth`. -/
def protectedChain : List Middleware :=
  engineChain ++ [Middleware.jwtAuth]

/-- A route of the group `/api/v1/auth`. -/
def authRoute (method : Method) (tail : List Segment) (endpoint : Endpoint) : Route :=
  { method := method
    pattern := [Segment.lit "api", Segment.lit "v1", Segment.lit "auth"] ++ tail
    chain := engineChain
    endpoint := endpoint }

/-- A route of the group `protected`, whose base path is `/api/v1`. -/
def protectedRoute (method : Method) (tail : List Segment) (endpoint : Endpoint) :
    Route :=
  { method := method
    pattern := [Segment.lit "api", Segment.lit "v1"] ++ tail
    chain := protectedChain
    endpoint := endpoint }

/-- Function `Setup` (router.go, lines 16-106): the routes in the order of their
registration. -/
def Setup : List Route :=
  [{ method := Method.GET, pattern := [Segment.lit "health"], chain := engineChain
     endpoint := Endpoint.health },
   { method := Method.GET, pattern := [], chain := engineChain
     endpoint := Endpoint.index },
   { method := Method.GET, pattern := [Segment.lit "app"], chain := engineChain
     endpoint := Endpoint.app },
   authRoute Method.POST [Segment.lit "login"] Endpoint.Login,
   authRoute Method.POST [Segment.lit "register"] Endpoint.Register,
   protectedRoute Method.GET [Segment.lit "auth", Segment.lit "profile"]
     Endpoint.GetProfile,
   protectedRoute Method.PUT [Segment.lit "auth", Segment.lit "profile"]
     Endpoint.UpdateProfile,
   protectedRoute Method.PUT [Segment.lit "auth", Segment.lit "change-password"]
     Endpoint.ChangePassword,
   protectedRoute Method.GET [Segment.lit "dashboard", Segment.lit "stats"]
     Endpoint.GetDashboardStats,
   protectedRoute Method.GET [Segment.lit "dashboard", Segment.lit "charts"]
     Endpoint.GetChartData,
   protectedRoute Method.GET [Segment.lit "dashboard", Segment.lit "low-stock"]
     Endpoint.GetLowStockProducts,
   protectedRoute Method.GET [Segment.lit "categories"] Endpoint.ListCategories,
   protectedRoute Method.GET [Segment.lit "categories", Segment.lit "all"]
     Endpoint.GetAllCategories,
   protectedRoute Method.POST [Segment.lit "categories"] Endpoint.CreateCategory,
   protectedRoute Method.PUT [Segment.lit "categories", Segment.param "id"]
     Endpoint.UpdateCategory,
   protectedRoute Method.DELETE [Segment.lit "categories", Segment.param "id"]
     Endpoint.DeleteCategory,
   protectedRoute Method.GET [Segment.lit "suppliers"] Endpoint.ListSuppliers,
   protectedRoute Method.GET [Segment.lit "suppliers", Segment.lit "all"]
     Endpoint.GetAllSuppliers,
   protectedRoute Method.POST [Segment.lit "suppliers"] Endpoint.CreateSupplier,
   protectedRoute Method.PUT [Segment.lit "suppliers", Segment.param "id"]
     Endpoint.UpdateSupplier,
   protectedRoute Method.DELETE [Segment.lit "suppliers", Segment.param "id"]
     Endpoint.DeleteSupplier,
   protectedRoute Method.GET [Segment.lit "products"] Endpoint.ListProducts,
   protectedRoute Method.GET [Segment.lit "products", Segment.param "id"]
     Endpoint.GetProduct,
   protectedRoute Method.POST [Segment.lit "products"] Endpoint.CreateProduct,
   protectedRoute Method.PUT [Segment.lit "products", Segment.param "id"]
     Endpoint.UpdateProduct,
   protectedRoute Method.DELETE [Segment.lit "products", Segment.param "id"]
     Endpoint.DeleteProduct,
   protectedRoute Method.POST [Segment.lit "inventory", Segment.lit "stock-in"]
     Endpoint.StockIn,
   protectedRoute Method.POST [Segment.lit "inventory", Segment.lit "stock-out"]
     Endpoint.StockOut,
   protectedRoute Method.POST [Segment.lit "inventory", Segment.lit "adjust"]
     Endpoint.StockAdjust,
   protectedRoute Method.GET [Segment.lit "inventory", Segment.lit "records"]
     Endpoint.ListInventoryRecords]

/-- A path matches a pattern: literals agree, a parameter takes any non-empty
segment. -/
def matchPath : List Segment → List String → Bool
  | [], [] => true
  | Segment.lit s :: pattern, segment :: path => decide (s = segment) && matchPath pattern path
  | Segment.param _ :: pattern, segment :: path =>
    decide (segment ≠ "") && matchPath pattern path
  | _, _ => false

/-- One handler of a chain.  The library handlers mounted on the engine (recovery,
request logger, CORS) hand the request on. -/
def Middleware.run (jwtParse : String → Option middleware.TokenClaims) (req : Request)
    (m : Middleware) (c : middleware.Context) : Except Nat middleware.Context :=
  match m with
  | Middleware.recovery => Except.ok c
  | Middleware.requestLogger => Except.ok c
  | Middleware.cors => Except.ok c
  | Middleware.jwtAuth => middleware.JWTAuth jwtParse req.authorization c
  | Middleware.adminOnly => middleware.AdminOnly c

/-- The chain of a route: each handler runs on the context the previous one handed
on, and an abort ends the chain. -/
def runChain (jwtParse : String → Option middleware.TokenClaims) (req : Request) :
    List Middleware → middleware.Context → Except Nat middleware.Context
  | [], c => Except.ok c
  | m :: rest, c =>
    match m.run jwtParse req c with
    | Except.error status => Except.error status
    | Except.ok c2 => runChain jwtParse req rest c2

/-- What becomes of a request: no route, an abort with a status before the
endpoint, or the endpoint running with the context the chain has built. -/
inductive Outcome where
  | noRoute
  | aborted (status : Nat)
  | reached (endpoint : Endpoint) (c : middleware.Context)
deriving DecidableEq, Repr

/-- The engine serving a request: the route is looked up, its chain runs, then its
endpoint. -/
def serve (jwtParse : String → Option middleware.TokenClaims) (req : Request) : Outcome :=
  match Setup.find? (fun route =>
      decide (route.method = req.method) && matchPath route.pattern req.path) with
  | none => Outcome.noRoute
  | some route =>
    match runChain jwtParse req route.chain middleware.Context.empty with
    | Except.error status => Outcome.aborted status
    | Except.ok c => Outcome.reached route.endpoint c

end router

/-- A stand-in for `jwt.Parse`: the token `t-user` is valid and carries user 7,
`amy`, with the given role; no other token is valid. -/
def sampleJwtParse (role : String) (token : String) : Option middleware.TokenClaims :=
  if token = "t-user" then some { UserID := 7, Username := "amy", Role := role } else none

/-- The requests that create, update or delete a category, a supplier or a
product, sent with the given `Authorization` header. -/
def masterDataWrites (authorization : String) : List router.Request :=
  [{ method := router.Method.POST, path := ["api", "v1", "categories"]
     authorization := authorization },
   { method := router.Method.PUT, path := ["api", "v1", "categories", "1"]
     authorization := authorization },
   { method := router.Method.DELETE, path := ["api", "v1", "categories", "1"]
     authorization := authorization },
   { method := router.Method.POST, path := ["api", "v1", "suppliers"]
     authorization := authorization },
   { method := router.Method.PUT, path := ["api", "v1", "suppliers", "1"]
     authorization := authorization },
   { method := router.Method.DELETE, path := ["api", "v1", "suppliers", "1"]
     authorization := authorization },
   { method := router.Method.POST, path := ["api", "v1", "products"]
     authorization := authorization },
   { method := router.Method.PUT, path := ["api", "v1", "products", "1"]
     authorization := authorization },
   { method := router.Method.DELETE, path := ["api", "v1", "products", "1"]
     authorization := authorization }]

/-! ## Dashboard -/

namespace models

/-- Result of `GetDashboardStats` (`models.DashboardStats`); the counts are `int64`
values that hold a number of rows. -/
structure DashboardStats (F : Type) where
  TotalProducts : Nat
  TotalCategories : Nat
  TotalSuppliers : Nat
  TotalStockValue : F
  LowStockCount : Nat
  TodayStockIn : Int
  TodayStockOut : Int
  TodayRecords : Nat
deriving DecidableEq, Repr

/-- One entry of the stock-movement series (`models.DailyMovement`); the date text
`2006-01-02` is represented by the number of the calendar day. -/
structure DailyMovement where
  Date : Int
  StockIn : Int
  StockOut : Int
deriving DecidableEq, Repr

end models

/-- The aggregate `SUM` over an integer column, row by row from the accumulator:
the engine reports an integer overflow instead of a sum that leaves the 64-bit
range. -/
def sumFrom (acc : Int) : List Int → Option Int
  | [] => some acc
  | q :: rest => if InIntRange (acc + q) then sumFrom (acc + q) rest else none

/-- Statement `Select("COALESCE(SUM(quantity), 0)").Scan(&field)` on a field that
holds 0: the sum, 0 for no rows; when the query fails the error is dropped and the
field keeps its 0. -/
def scanSum (quantities : List Int) : Int :=
  (sumFrom 0 quantities).getD 0

namespace repository

/-- Condition `status = 1` on a product, together with gorm's `deleted_at IS NULL`. -/
def isActiveProduct {F : Type} (p : models.Product F) : Bool :=
  decide (p.Status = 1 ∧ p.DeletedAt = none)

/-- Condition `created_at BETWEEN ? AND ?` with the texts of the day followed by
" 00:00:00" and " 23:59:59". -/
def createdBetween (day : Nat) (t : Nat) : Bool :=
  notBeforeDayStart t day && notAfterLastSecond t day

end repository

namespace repository

/-- The local time of a timestamp in milliseconds, as SQLite's date functions
compute it from a text: the day, the hours and the minutes, and the seconds with
their fraction rounded to the millisecond, a half upwards. -/
def localMillis (t : Nat) : Nat :=
  (t / nanosPerDay) * 86400000 + (t % nanosPerDay + 500000) / 1000000

/-- The value of SQLite's `DATE(created_at)`.  The column holds the text of the
local time followed by its zone offset (`2006-01-02 15:04:05.999999999-07:00`);
`zone t` is the offset east of UTC, in minutes, that the text of the local time `t`
carries.  For the offset `+00:00` the result is the date the text starts with.  For
any other offset `DATE` converts to UTC before it takes the day: it subtracts the
offset from the time in milliseconds and returns the calendar day of the result. -/
def utcDay (zone : Nat → Int) (t : Nat) : Int :=
  if zone t = 0 then (localDay t : Int)
  else ((localMillis t : Int) - zone t * 60000) / 86400000

/-- The statement `Where("type = ? AND DATE(created_at) = ?", kind, dateStr)` with
`Select("COALESCE(SUM(quantity), 0)").Scan(&field)` of `GetChartData`. -/
def dayMovement {F : Type} (env : Env) (zone : Nat → Int) (db : Store F) (kind : String)
    (day : Int) : Int :=
  if env.readErr then 0
  else
    scanSum ((db.records.filter (fun r =>
      decide (r.Type_ = kind ∧ utcDay zone r.CreatedAt = day))).map
        (fun r => r.Quantity))

/-- The body of the loop of `GetChartData` for the date `day`: the entry with the
two sums of that day. -/
def dailyMovement {F : Type} (env : Env) (zone : Nat → Int) (db : Store F) (day : Int) :
    models.DailyMovement :=
  { Date := day
    StockIn := dayMovement env zone db models.StockIn day
    StockOut := dayMovement env zone db models.StockOut day }

/-- The loop `for i := 29; i >= 0; i--` of `GetChartData` from the value `i` on:
each iteration takes `time.Now().AddDate(0, 0, -i)`, formats its local date and
appends the entry of that date.  `clock k` is what the `k`-th call of `time.Now()`
returns, and the iteration for `i` is the one that makes the call `reading`. -/
def movementsFrom {F : Type} (env : Env) (zone : Nat → Int) (clock : Nat → Nat)
    (db : Store F) : Nat → Nat → List models.DailyMovement
  | 0, reading => [dailyMovement env zone db ((localDay (clock reading) : Int) - (0 : Nat))]
  | i + 1, reading =>
    dailyMovement env zone db ((localDay (clock reading) : Int) - ((i + 1 : Nat) : Int))
      :: movementsFrom env zone clock db i (reading + 1)

/-- The field `StockMovement` of the result of `Repository.GetChartData`
(repository.go, lines 381-401); the fields `TopProducts` and `CategoryStats` are
not part of the model. -/
def GetChartData {F : Type} (env : Env) (zone : Nat → Int) (clock : Nat → Nat)
    (db : Store F) : List models.DailyMovement :=
  movementsFrom env zone clock db 29 0

end repository

/-- Rounding of a significand to an integer, ties to the even one. -/
def roundHalfEven (m : ℚ) : Int :=
  if m - ⌊m⌋ < 1 / 2 then ⌊m⌋
  else if 1 / 2 < m - ⌊m⌋ then ⌊m⌋ + 1
  else if ⌊m⌋ % 2 = 0 then ⌊m⌋
  else ⌊m⌋ + 1

/-- The `float64` value nearest to a rational number: round to nearest, ties to
even, on a significand of 53 bits.  The exponent is not bounded, which is exact for
numbers between 2^-1022 and 2^1023; infinities and NaN are not represented. -/
def float64Round (x : ℚ) : ℚ :=
  if x = 0 then 0
  else (roundHalfEven (x / 2 ^ (Int.log 2 |x| - 52)) : ℚ) * 2 ^ (Int.log 2 |x| - 52)

/-- Conversion `float64(n)` of an integer. -/
def float64OfInt (n : Int) : ℚ :=
  float64Round n

/-- Quotient `x / y` of two `float64` values, for a divisor other than zero. -/
def float64Div (x y : ℚ) : ℚ :=
  float64Round (x / y)

/-- Function `math.Ceil` on a finite `float64` value. -/
def mathCeil (x : ℚ) : ℚ :=
  (⌈x⌉ : Int)

/-- Conversion `int(x)` of a `float64` value: the fraction is dropped.  Go leaves
the result for a value outside the `int` range to the implementation; here it
wraps. -/
def intOfFloat64 (x : ℚ) : Int :=
  wrapInt (if 0 ≤ x then ⌊x⌋ else ⌈x⌉)

namespace models

/-- Body of a paginated response (`models.PaginatedData`). -/
structure PaginatedData (α : Type) where
  Items : α
  Total : Int
  Page : Int
  PageSize : Int
  TotalPages : Int

end models

namespace handler

/-- Function `Paginated` (handler.go, lines 55-65): the body of the response. -/
def Paginated {α : Type} (items : α) (total : Int) (page pageSize : Int) :
    models.PaginatedData α :=
  { Items := items
    Total := total
    Page := page
    PageSize := pageSize
    TotalPages :=
      intOfFloat64 (mathCeil (float64Div (float64OfInt total) (float64OfInt pageSize))) }

/-- The common body of the list handlers `ListCategories`, `ListSuppliers`,
`ListProducts` and `ListInventoryRecords` on a bound query: `query.GetOffset()`
normalises the query, the service method `fetch` is called with it, and its result
goes to `Paginated` with the page and the page size of the normalised query; an
error of the service method gives status 500. -/
def listResponse {α : Type}
    (fetch : models.PaginationQuery → Except DBError (α × Nat))
    (query : models.PaginationQuery) : Except Nat (models.PaginatedData α) :=
  match fetch query.normalized with
  | Except.error _ => Except.error 500
  | Except.ok (items, total) =>
    Except.ok (Paginated items total query.normalized.Page query.normalized.PageSize)

/-- Handler `Handler.ListInventoryRecords` (inventory.go, lines 66-92) on a bound
query and parsed filters. -/
def ListInventoryRecords {F : Type} (env : Env) (db : Store F)
    (query : models.PaginationQuery) (productID : Option Nat) (recordType : String)
    (startDate endDate : Option Nat) :
    Except Nat (models.PaginatedData (List (models.InventoryRecord F))) :=
  listResponse (fun q =>
    service.ListInventoryRecords env db q productID recordType startDate endDate) query

end handler

/-- The call asks for a stock other than the one the product holds: a stock-in or
stock-out with a quantity that is a non-zero Go `int`, or an adjustment to a new
quantity other than `before`. -/
def Call.asksChange {F : Type} (call : Call F) (before : Int) : Prop :=
  match call with
  | Call.stockIn req _ _ => InIntRange req.Quantity ∧ req.Quantity ≠ 0
  | Call.stockOut req _ _ => InIntRange req.Quantity ∧ req.Quantity ≠ 0
  | Call.stockAdjust req _ _ => req.NewQuantity ≠ before

/-! ## A carrier for float64 values -/

/-- A `float64` value: the rational number a finite value stands for, or `none`
for an infinity or NaN.  The sign of zero is not represented. -/
structure Float64 where
  val : Option ℚ
deriving DecidableEq, Repr

/-- The finite `float64` value of an operation whose exact result is `x`: the
number is rounded to nearest, ties to even, on a significand of 53 bits, and to a
multiple of 2^-1074 below 2^-1022 (gradual underflow); the result is `none` when
the rounded number reaches 2^1024 (overflow to an infinity). -/
def float64Value (x : ℚ) : Option ℚ :=
  if |(if |x| < 2 ^ (-1022 : Int) then (roundHalfEven (x * 2 ^ 1074) : ℚ) / 2 ^ 1074
      else float64Round x)| < 2 ^ 1024 then
    some (if |x| < 2 ^ (-1022 : Int) then (roundHalfEven (x * 2 ^ 1074) : ℚ) / 2 ^ 1074
      else float64Round x)
  else none

/-- Go's `float64` operations: the conversion `float64(n)` and the product round
the exact result; an operand that is not finite gives a result that is not finite. -/
instance : Float64Ops Float64 where
  zero := { val := some 0 }
  ofInt := fun n => { val := float64Value n }
  mul := fun x y =>
    match x.val, y.val with
    | some a, some b => { val := float64Value (a * b) }
    | _, _ => { val := none }

/-- An active product with minimum stock 10, the given stock and cost price. -/
def float64Product (id : Nat) (stock : Int) (cost : ℚ) : models.Product Float64 :=
  { ID := id, CreatedAt := 100, UpdatedAt := 100, DeletedAt := none
    SKU := String.mk ('P' :: List.replicate id '0'), Name := "bolt", Description := ""
    CategoryID := none
    SupplierID := none, Unit := "pc", CostPrice := { val := some cost }
    SellingPrice := { val := some 3 }
    CurrentStock := stock, MinStock := 10, MaxStock := 15
    Barcode := "", Location := "", ImageURL := "", Status := 1 }

/-- A store with product 1 at the given stock and product 2 at stock 7, both with
cost price 2, and an empty ledger. -/
def float64Store (stock : Int) : Store Float64 :=
  { products := [float64Product 1 stock 2, float64Product 2 7 2], records := [] }

/-- A stock-in request for product 1 with the given quantity and unit cost. -/
def float64StockIn (quantity : Int) (unitCost : ℚ) : models.StockInRequest Float64 :=
  { ProductID := 1, Quantity := quantity, UnitCost := { val := some unitCost }
    ReferenceNo := "PO-3", Notes := "" }

/-! ## The statistics of the dashboard -/

namespace repository

/-- The value of `current_stock * cost_price` for a product row, when the engine
computes it as an INTEGER.  The column `cost_price` has the type `decimal(12,2)`,
hence NUMERIC affinity: it holds a `float64` that is a whole number strictly
between -2^63 and 2^63 - 1 as an INTEGER, any other as a REAL.  The product of two
INTEGER values is an INTEGER unless it leaves the 64-bit range.  `none` is every
other case, in which the engine computes the product in floating point. -/
def integerStockValue (stock : Int) (cost : Float64) : Option Int :=
  match cost.val with
  | some c =>
    if c.den = 1 ∧ MinInt < c.num ∧ c.num < MaxInt ∧ InIntRange (stock * c.num) then
      some (stock * c.num)
    else none
  | none => none

/-- The values of `current_stock * cost_price` over the rows, when all of them are
INTEGER values. -/
def integerStockValues : List (Int × Float64) → Option (List Int)
  | [] => some []
  | row :: rest =>
    match integerStockValue row.1 row.2, integerStockValues rest with
    | some value, some values => some (value :: values)
    | _, _ => none

/-- The statement `Select("COALESCE(SUM(current_stock * cost_price), 0)")` with
`Scan(&stats.TotalStockValue)` over the rows `(current_stock, cost_price)` in table
order, on a field that holds 0.  While every value is an INTEGER the engine sums in
integer arithmetic: the sum is scanned as `float64(sum)`, and a sum that leaves the
64-bit range is an error of the query, which is dropped and leaves the 0.  As soon
as one value is not an INTEGER the engine sums in floating point, with a result
that depends on the rounding of every step and on the version of the engine (a
running sum up to SQLite 3.43, a compensated sum from 3.44 on): `realSum rows`
stands for what the field holds in that case. -/
def scanStockValue (realSum : List (Int × Float64) → Float64) (rows : List (Int × Float64)) :
    Float64 :=
  match integerStockValues rows with
  | some values =>
    (match sumFrom 0 values with
      | some total => Float64Ops.ofInt total
      | none => Float64Ops.zero)
  | none => realSum rows

/-- Method `Repository.GetDashboardStats` (repository.go, lines 335-379).  The error
of every query is dropped, so a failing query leaves the zero value in its field. -/
def GetDashboardStats (realSum : List (Int × Float64) → Float64) (env : Env)
    (db : Store Float64) : models.DashboardStats Float64 :=
  if env.readErr then
    { TotalProducts := 0, TotalCategories := 0, TotalSuppliers := 0
      TotalStockValue := Float64Ops.zero, LowStockCount := 0, TodayStockIn := 0
      TodayStockOut := 0, TodayRecords := 0 }
  else
    let today := localDay env.now
    { TotalProducts := (db.products.filter isActiveProduct).length
      TotalCategories :=
        (db.categories.filter (fun c => decide (c.Status = 1 ∧ c.DeletedAt = none))).length
      TotalSuppliers :=
        (db.suppliers.filter (fun s => decide (s.Status = 1 ∧ s.DeletedAt = none))).length
      TotalStockValue :=
        scanStockValue realSum ((db.products.filter isActiveProduct).map
          (fun p => (p.CurrentStock, p.CostPrice)))
      LowStockCount := (db.products.filter isLowStock).length
      TodayStockIn :=
        scanSum ((db.records.filter (fun r =>
          decide (r.Type_ = models.StockIn) && createdBetween today r.CreatedAt)).map
            (fun r => r.Quantity))
      TodayStockOut :=
        scanSum ((db.records.filter (fun r =>
          decide (r.Type_ = models.StockOut) && createdBetween today r.CreatedAt)).map
            (fun r => r.Quantity))
      TodayRecords := (db.records.filter (fun r => createdBetween today r.CreatedAt)).length }

end repository

open repository service

theorem wrapInt_eq_self {x : Int} (h : InIntRange x) : wrapInt x = x := by
  unfold InIntRange MinInt MaxInt at h
  unfold wrapInt
  omega

theorem wrapInt_inRange (x : Int) : InIntRange (wrapInt x) := by
  unfold InIntRange MinInt MaxInt wrapInt
  omega

/-- On a product that resolves `Service.StockIn` is the commit of its ledger row. -/
theorem StockIn_resolved {F : Type} [Float64Ops F] {env : Env} {db : Store F}
    {req : models.StockInRequest F} {product : models.Product F}
    (operatorID : Nat) (operatorName : String)
    (hres : GetProductByID env db req.ProductID = Except.ok product) :
    StockIn env db req operatorID operatorName
      = commitResult (StockOperation env db
          (stockInRecord req product operatorID operatorName)
          (wrapInt (product.CurrentStock + req.Quantity))) := by
  simp only [StockIn, hres, stockInRecord]

/-- On a product that resolves `Service.StockOut` is the guard, then the commit. -/
theorem StockOut_resolved {F : Type} [Float64Ops F] {env : Env} {db : Store F}
    {req : models.StockOutRequest} {product : models.Product F}
    (operatorID : Nat) (operatorName : String)
    (hres : GetProductByID env db req.ProductID = Except.ok product) :
    StockOut env db req operatorID operatorName
      = if product.CurrentStock < req.Quantity then
          (some (ServiceError.insufficientStock product.CurrentStock req.Quantity), db)
        else commitResult (StockOperation env db
          (stockOutRecord req product operatorID operatorName)
          (wrapInt (product.CurrentStock - req.Quantity))) := by
  simp only [StockOut, hres, stockOutRecord]

/-- On a product that resolves `Service.StockAdjust` is the commit of its ledger row. -/
theorem StockAdjust_resolved {F : Type} [Float64Ops F] {env : Env} {db : Store F}
    {req : models.StockAdjustRequest} {product : models.Product F}
    (operatorID : Nat) (operatorName : String)
    (hres : GetProductByID env db req.ProductID = Except.ok product) :
    StockAdjust env db req operatorID operatorName
      = commitResult (StockOperation env db
          (stockAdjustRecord req product operatorID operatorName) req.NewQuantity) := by
  simp only [StockAdjust, hres, stockAdjustRecord, adjustQuantity]

/-- The three database calls of `StockOperation` decide its outcome: any failure
gives back the store of before the call, otherwise both writes are applied. -/
theorem StockOperation_eq {F : Type} (env : Env) (db : Store F)
    (record : models.InventoryRecord F) (newStock : Int) :
    StockOperation env db record newStock =
      if env.updateErr = true ∨ env.createErr = true ∨ env.commitErr = true then
        (some DBError.ioFailure, db)
      else (none, applied env db record newStock) := by
  unfold StockOperation Transaction stockOperationBody execUpdateCurrentStock
    execCreateRecord applied
  cases hu : env.updateErr <;> cases hc : env.createErr <;> cases hm : env.commitErr <;>
    simp

theorem StockOperation_quiet {F : Type} (env : Env) (hq : env.Quiet) (db : Store F)
    (record : models.InventoryRecord F) (newStock : Int) :
    StockOperation env db record newStock = (none, applied env db record newStock) := by
  obtain ⟨_, hu, hc, hm⟩ := hq
  simp [StockOperation_eq, hu, hc, hm]

theorem setStock_ID {F : Type} (now productID : Nat) (n : Int) (p : models.Product F) :
    (setStock now productID n p).ID = p.ID := by
  unfold setStock; split <;> rfl

theorem setStock_DeletedAt {F : Type} (now productID : Nat) (n : Int)
    (p : models.Product F) : (setStock now productID n p).DeletedAt = p.DeletedAt := by
  unfold setStock; split <;> rfl

/-- Looking a product up after the stock update finds the updated row. -/
theorem find_map_setStock {F : Type} (now productID : Nat) (n : Int) (id : Nat)
    (l : List (models.Product F)) :
    (l.map (setStock now productID n)).find? (isLiveWithID id)
      = (l.find? (isLiveWithID id)).map
          (setStock now productID n) := by
  induction l with
  | nil => rfl
  | cons a t ih =>
    simp only [List.map_cons, List.find?_cons, isLiveWithID, setStock_ID,
      setStock_DeletedAt]
    split
    · rfl
    · exact ih

/-- A product that resolves carries the requested id and is not deleted. -/
theorem GetProductByID_ok {F : Type} {env : Env} {db : Store F} {id : Nat}
    {product : models.Product F} (h : GetProductByID env db id = Except.ok product) :
    env.readErr = false ∧ product ∈ db.products ∧ product.ID = id ∧
      product.DeletedAt = none ∧
      db.products.find? (isLiveWithID id) = some product := by
  unfold GetProductByID at h
  cases hr : env.readErr
  · simp only [hr, Bool.false_eq_true, if_false] at h
    cases hf : db.products.find? (isLiveWithID id) with
    | none => simp [hf] at h
    | some q =>
      simp only [hf, Except.ok.injEq] at h
      subst h
      have h1 := List.find?_some hf
      have h2 := List.mem_of_find?_eq_some hf
      simp only [isLiveWithID, decide_eq_true_eq] at h1
      exact ⟨rfl, h2, h1.1, h1.2, rfl⟩
  · simp [hr] at h

/-- After both writes are applied the product resolves to the row with the new
stock and the refreshed update time; no other column has changed. -/
theorem GetProductByID_applied {F : Type} {env : Env} {db : Store F}
    {product : models.Product F} (record : models.InventoryRecord F) (n : Int)
    (h : GetProductByID env db record.ProductID = Except.ok product) :
    GetProductByID env (applied env db record n) record.ProductID
      = Except.ok { product with CurrentStock := n, UpdatedAt := env.now } := by
  obtain ⟨hr, _, hid, hdel, hf⟩ := GetProductByID_ok h
  unfold GetProductByID
  simp only [hr, Bool.false_eq_true, if_false, applied, find_map_setStock, hf, Option.map_some']
  simp [setStock, hid, hdel]

/-- C1. For a `StockOut` request whose product resolves, the call fails with
`insufficientStock` exactly when the requested quantity exceeds the product's
current stock, and in that case the whole store (every product row, hence the
current stock, and the ledger with all its entries) is the store before the call. -/
theorem StockOut_insufficient_iff {F : Type} [Float64Ops F] (env : Env) (db : Store F)
    (req : models.StockOutRequest) (operatorID : Nat) (operatorName : String)
    (product : models.Product F)
    (hres : GetProductByID env db req.ProductID = Except.ok product) :
    ((∃ c r, (StockOut env db req operatorID operatorName).1
        = some (ServiceError.insufficientStock c r)) ↔ product.CurrentStock < req.Quantity)
    ∧ (product.CurrentStock < req.Quantity →
        StockOut env db req operatorID operatorName
          = (some (ServiceError.insufficientStock product.CurrentStock req.Quantity), db)
        ∧ (StockOut env db req operatorID operatorName).2.products = db.products
        ∧ (StockOut env db req operatorID operatorName).2.records = db.records
        ∧ (StockOut env db req operatorID operatorName).2.records.length
            = db.records.length) := by
  constructor
  · constructor
    · rintro ⟨c, r, h⟩
      by_contra hlt
      simp only [StockOut, hres, if_neg hlt, commitResult] at h
      split at h <;> simp at h
    · intro hlt
      exact ⟨product.CurrentStock, req.Quantity, by simp [StockOut, hres, hlt]⟩
  · intro hlt
    simp [StockOut, hres, hlt]

/-- Witness of C1: a request for 11 on a product holding 10. -/
theorem StockOut_insufficient_iff_witness :
    ((∃ c r, (StockOut (quietEnv 200) (sampleStore 10)
        { ProductID := 1, Quantity := 11, ReferenceNo := "SO-1", Notes := "" } 7 "amy").1
        = some (ServiceError.insufficientStock c r)) ↔ (10 : Int) < 11)
    ∧ StockOut (quietEnv 200) (sampleStore 10)
        { ProductID := 1, Quantity := 11, ReferenceNo := "SO-1", Notes := "" } 7 "amy"
        = (some (ServiceError.insufficientStock 10 11), sampleStore 10) :=
  have h := StockOut_insufficient_iff (quietEnv 200) (sampleStore 10)
    { ProductID := 1, Quantity := 11, ReferenceNo := "SO-1", Notes := "" } 7 "amy"
    (sampleProduct 1 10 15) rfl
  ⟨h.1, (h.2 (by decide)).1⟩

/-- C3 (counterexample). A `StockIn` of 1 on a product holding the largest Go `int`
succeeds, and the stock and the entry's quantity-after are the smallest `int`,
not `before + quantity`. -/
theorem StockIn_sum_counterexample :
    GetProductByID (quietEnv 200) (sampleStore MaxInt) 1
        = Except.ok (sampleProduct 1 MaxInt 15)
    ∧ (StockIn (quietEnv 200) (sampleStore MaxInt)
        { ProductID := 1, Quantity := 1, UnitCost := 3, ReferenceNo := "PO-1", Notes := "" }
        7 "amy").1 = none
    ∧ (StockIn (quietEnv 200) (sampleStore MaxInt)
        { ProductID := 1, Quantity := 1, UnitCost := 3, ReferenceNo := "PO-1", Notes := "" }
        7 "amy").2.products.map (fun p => p.CurrentStock) = [MinInt, 7]
    ∧ (StockIn (quietEnv 200) (sampleStore MaxInt)
        { ProductID := 1, Quantity := 1, UnitCost := 3, ReferenceNo := "PO-1", Notes := "" }
        7 "amy").2.records.map (fun r => r.AfterQty) = [MinInt]
    ∧ MinInt ≠ MaxInt + 1 := by
  refine ⟨rfl, ?_, ?_, ?_, ?_⟩ <;> decide

/-- C3 (amended). When no database call fails, a `StockIn` with `quantity > 0` on a
product that resolves with stock `before`, where `before + quantity` still fits a
Go `int`, succeeds whatever `MaxStock` is, sets the stock to `before + quantity`
and appends one `stock_in` entry with the request's quantity, unit cost, reference
number and notes, the caller's operator id and name, quantity-before `before` and
quantity-after `before + quantity`. -/
theorem StockIn_adds {F : Type} [Float64Ops F] (env : Env) (db : Store F)
    (req : models.StockInRequest F) (operatorID : Nat) (operatorName : String)
    (product : models.Product F) (hquiet : env.Quiet)
    (hres : GetProductByID env db req.ProductID = Except.ok product)
    (hq : 0 < req.Quantity) (hlo : MinInt ≤ product.CurrentStock)
    (hfit : product.CurrentStock + req.Quantity ≤ MaxInt) :
    (StockIn env db req operatorID operatorName).1 = none
    ∧ GetProductByID env (StockIn env db req operatorID operatorName).2 req.ProductID
        = Except.ok { product with
            CurrentStock := product.CurrentStock + req.Quantity, UpdatedAt := env.now }
    ∧ (StockIn env db req operatorID operatorName).2.records = db.records ++
        [{ ID := nextRecordID db.records
           ProductID := req.ProductID
           Type_ := "stock_in"
           Quantity := req.Quantity
           BeforeQty := product.CurrentStock
           AfterQty := product.CurrentStock + req.Quantity
           UnitCost := req.UnitCost
           TotalCost := Float64Ops.mul (Float64Ops.ofInt req.Quantity) req.UnitCost
           ReferenceNo := req.ReferenceNo
           Notes := req.Notes
           OperatorID := operatorID
           OperatorName := operatorName
           CreatedAt := env.now }] := by
  have hw : wrapInt (product.CurrentStock + req.Quantity)
      = product.CurrentStock + req.Quantity :=
    wrapInt_eq_self ⟨by omega, hfit⟩
  have hget := GetProductByID_applied (stockInRecord req product operatorID operatorName)
    (product.CurrentStock + req.Quantity) hres
  rw [StockIn_resolved operatorID operatorName hres, hw, StockOperation_quiet env hquiet]
  refine ⟨rfl, hget, ?_⟩
  simp [commitResult, applied, stampRecord, stockInRecord, models.StockIn, hw]

/-- Witness of C3: 20 units onto a product holding 10 whose `MaxStock` is 15. -/
theorem StockIn_adds_witness :
    (StockIn (quietEnv 200) (sampleStore 10)
      { ProductID := 1, Quantity := 20, UnitCost := 3, ReferenceNo := "PO-1", Notes := "" }
      7 "amy").1 = none
    ∧ GetProductByID (quietEnv 200) (StockIn (quietEnv 200) (sampleStore 10)
        { ProductID := 1, Quantity := 20, UnitCost := 3, ReferenceNo := "PO-1", Notes := "" }
        7 "amy").2 1
      = Except.ok { sampleProduct 1 10 15 with CurrentStock := 10 + 20, UpdatedAt := 200 } :=
  have h := StockIn_adds (quietEnv 200) (sampleStore 10)
    { ProductID := 1, Quantity := 20, UnitCost := 3, ReferenceNo := "PO-1", Notes := "" }
    7 "amy" (sampleProduct 1 10 15) (by decide) rfl (by decide) (by decide) (by decide)
  ⟨h.1, h.2.1⟩

/-- C4. When no database call fails, a `StockOut` with `0 < quantity ≤ before` on a
product that resolves with stock `before` (a Go `int`) succeeds, sets the stock to
`before - quantity` (to 0 when `quantity = before`) and appends one `stock_out`
entry with the requested quantity, quantity-before `before` and quantity-after
`before - quantity`. -/
theorem StockOut_subtracts {F : Type} [Float64Ops F] (env : Env) (db : Store F)
    (req : models.StockOutRequest) (operatorID : Nat) (operatorName : String)
    (product : models.Product F) (hquiet : env.Quiet)
    (hres : GetProductByID env db req.ProductID = Except.ok product)
    (hrange : InIntRange product.CurrentStock)
    (hq : 0 < req.Quantity) (hle : req.Quantity ≤ product.CurrentStock) :
    (StockOut env db req operatorID operatorName).1 = none
    ∧ GetProductByID env (StockOut env db req operatorID operatorName).2 req.ProductID
        = Except.ok { product with
            CurrentStock := product.CurrentStock - req.Quantity, UpdatedAt := env.now }
    ∧ (StockOut env db req operatorID operatorName).2.records = db.records ++
        [{ ID := nextRecordID db.records
           ProductID := req.ProductID
           Type_ := "stock_out"
           Quantity := req.Quantity
           BeforeQty := product.CurrentStock
           AfterQty := product.CurrentStock - req.Quantity
           UnitCost := Float64Ops.zero
           TotalCost := Float64Ops.zero
           ReferenceNo := req.ReferenceNo
           Notes := req.Notes
           OperatorID := operatorID
           OperatorName := operatorName
           CreatedAt := env.now }]
    ∧ (req.Quantity = product.CurrentStock →
        GetProductByID env (StockOut env db req operatorID operatorName).2 req.ProductID
          = Except.ok { product with CurrentStock := 0, UpdatedAt := env.now }) := by
  have hw : wrapInt (product.CurrentStock - req.Quantity)
      = product.CurrentStock - req.Quantity := by
    unfold InIntRange MinInt MaxInt at hrange
    exact wrapInt_eq_self ⟨by unfold MinInt; omega, by unfold MaxInt; omega⟩
  have hguard : ¬ product.CurrentStock < req.Quantity := by omega
  have hget := GetProductByID_applied (stockOutRecord req product operatorID operatorName)
    (product.CurrentStock - req.Quantity) hres
  rw [StockOut_resolved operatorID operatorName hres, if_neg hguard, hw,
    StockOperation_quiet env hquiet]
  refine ⟨rfl, hget, ?_, ?_⟩
  · simp [commitResult, applied, stampRecord, stockOutRecord, models.StockOut, hw]
  · intro heq
    have h0 : product.CurrentStock - req.Quantity = 0 := by omega
    rw [h0] at hget ⊢
    exact hget

/-- Witness of C4: taking all 10 units of a product holding 10. -/
theorem StockOut_subtracts_witness :
    (StockOut (quietEnv 200) (sampleStore 10)
      { ProductID := 1, Quantity := 10, ReferenceNo := "SO-1", Notes := "" } 7 "amy").1 = none
    ∧ GetProductByID (quietEnv 200) (StockOut (quietEnv 200) (sampleStore 10)
        { ProductID := 1, Quantity := 10, ReferenceNo := "SO-1", Notes := "" } 7 "amy").2 1
      = Except.ok { sampleProduct 1 10 15 with CurrentStock := 0, UpdatedAt := 200 } :=
  have h := StockOut_subtracts (quietEnv 200) (sampleStore 10)
    { ProductID := 1, Quantity := 10, ReferenceNo := "SO-1", Notes := "" } 7 "amy"
    (sampleProduct 1 10 15) (by decide) rfl (by decide) (by decide) (by decide)
  ⟨h.1, h.2.2.2 rfl⟩

/-- C5 (counterexample). Adjusting a product whose stock is -1 to the largest Go
`int` succeeds and records the quantity -2^63, a negative number, while
`|newQuantity - before|` is 2^63. -/
theorem StockAdjust_magnitude_counterexample :
    GetProductByID (quietEnv 200) (sampleStore (-1)) 1 = Except.ok (sampleProduct 1 (-1) 15)
    ∧ (0 : Int) ≤ MaxInt
    ∧ (StockAdjust (quietEnv 200) (sampleStore (-1))
        { ProductID := 1, NewQuantity := MaxInt, Notes := "" } 7 "amy").1 = none
    ∧ (StockAdjust (quietEnv 200) (sampleStore (-1))
        { ProductID := 1, NewQuantity := MaxInt, Notes := "" } 7 "amy").2.records.map
          (fun r => r.Quantity) = [MinInt]
    ∧ MinInt < 0 ∧ MinInt ≠ |MaxInt - (-1)| := by
  refine ⟨rfl, ?_, ?_, ?_, ?_, ?_⟩ <;> decide

/-- The recorded quantity is the magnitude of the change when the change fits. -/
theorem adjustQuantity_eq_abs {newQuantity beforeQty : Int}
    (hlo : MinInt < newQuantity - beforeQty) (hhi : newQuantity - beforeQty ≤ MaxInt) :
    adjustQuantity newQuantity beforeQty = |newQuantity - beforeQty| := by
  have hw : wrapInt (newQuantity - beforeQty) = newQuantity - beforeQty :=
    wrapInt_eq_self ⟨le_of_lt hlo, hhi⟩
  unfold adjustQuantity
  rw [hw]
  unfold MinInt at hlo
  unfold MaxInt at hhi
  split
  · rename_i hneg
    rw [wrapInt_eq_self ⟨by unfold MinInt; omega, by unfold MaxInt; omega⟩, abs_of_neg hneg]
  · rename_i hpos
    rw [abs_of_nonneg (not_lt.mp hpos)]

/-- C5 (amended). When no database call fails, a `StockAdjust` with
`newQuantity ≥ 0` on a product that resolves with stock `before` (a Go `int`),
where `newQuantity - before` still fits a Go `int`, succeeds, sets the stock to
`newQuantity` and appends one `adjust` entry with quantity-before `before`,
quantity-after `newQuantity` and quantity `|newQuantity - before|`, which is not
negative. -/
theorem StockAdjust_sets {F : Type} [Float64Ops F] (env : Env) (db : Store F)
    (req : models.StockAdjustRequest) (operatorID : Nat) (operatorName : String)
    (product : models.Product F) (hquiet : env.Quiet)
    (hres : GetProductByID env db req.ProductID = Except.ok product)
    (hrange : InIntRange product.CurrentStock)
    (hq : 0 ≤ req.NewQuantity)
    (hfit : req.NewQuantity - product.CurrentStock ≤ MaxInt) :
    (StockAdjust env db req operatorID operatorName).1 = none
    ∧ GetProductByID env (StockAdjust env db req operatorID operatorName).2 req.ProductID
        = Except.ok { product with CurrentStock := req.NewQuantity, UpdatedAt := env.now }
    ∧ (StockAdjust env db req operatorID operatorName).2.records = db.records ++
        [{ ID := nextRecordID db.records
           ProductID := req.ProductID
           Type_ := "adjust"
           Quantity := |req.NewQuantity - product.CurrentStock|
           BeforeQty := product.CurrentStock
           AfterQty := req.NewQuantity
           UnitCost := Float64Ops.zero
           TotalCost := Float64Ops.zero
           ReferenceNo := ""
           Notes := req.Notes
           OperatorID := operatorID
           OperatorName := operatorName
           CreatedAt := env.now }]
    ∧ 0 ≤ |req.NewQuantity - product.CurrentStock| := by
  have hlo : MinInt < req.NewQuantity - product.CurrentStock := by
    unfold InIntRange MinInt MaxInt at hrange
    unfold MinInt
    omega
  have hget := GetProductByID_applied
    (stockAdjustRecord req product operatorID operatorName) req.NewQuantity hres
  rw [StockAdjust_resolved operatorID operatorName hres, StockOperation_quiet env hquiet]
  refine ⟨rfl, hget, ?_, abs_nonneg _⟩
  simp [commitResult, applied, stampRecord, stockAdjustRecord, models.StockAdjust,
    adjustQuantity_eq_abs hlo hfit]

/-- Witness of C5: lowering a stock of 10 to 4 records the quantity 6. -/
theorem StockAdjust_sets_witness :
    (StockAdjust (quietEnv 200) (sampleStore 10)
      { ProductID := 1, NewQuantity := 4, Notes := "count" } 7 "amy").2.records
      = [{ ID := 1, ProductID := 1, Type_ := "adjust", Quantity := |(4 : Int) - 10|
           BeforeQty := 10, AfterQty := 4, UnitCost := 0, TotalCost := 0
           ReferenceNo := "", Notes := "count", OperatorID := 7, OperatorName := "amy"
           CreatedAt := 200 }] :=
  (StockAdjust_sets (quietEnv 200) (sampleStore 10)
    { ProductID := 1, NewQuantity := 4, Notes := "count" } 7 "amy"
    (sampleProduct 1 10 15) (by decide) rfl (by decide) (by decide) (by decide)).2.2.1

/-- A lookup fails when every row with the id is soft-deleted or there is none. -/
theorem GetProductByID_unresolved {F : Type} (env : Env) (db : Store F) (id : Nat)
    (h : ∀ p ∈ db.products, p.ID = id → p.DeletedAt ≠ none) :
    ∃ err, GetProductByID env db id = Except.error err := by
  unfold GetProductByID
  cases hr : env.readErr
  · have hf : db.products.find? (isLiveWithID id) = none := by
      rw [List.find?_eq_none]
      intro p hp
      simp only [isLiveWithID, decide_eq_true_eq, not_and]
      intro hid
      exact h p hp hid
    exact ⟨DBError.recordNotFound, by simp [hf]⟩
  · exact ⟨DBError.ioFailure, by simp⟩

/-- C7. When the product id of the request does not resolve (no row carries it, or
the row is soft-deleted), each of `StockIn`, `StockOut` (whatever the quantity)
and `StockAdjust` fails with `productNotFound` and returns the store unchanged:
no current stock is altered and no ledger entry added. -/
theorem stock_calls_not_found {F : Type} [Float64Ops F] (env : Env) (db : Store F)
    (id : Nat) (h : ∀ p ∈ db.products, p.ID = id → p.DeletedAt ≠ none) :
    (∀ (req : models.StockInRequest F) (operatorID : Nat) (operatorName : String),
      req.ProductID = id →
        StockIn env db req operatorID operatorName = (some ServiceError.productNotFound, db))
    ∧ (∀ (req : models.StockOutRequest) (operatorID : Nat) (operatorName : String),
      req.ProductID = id →
        StockOut env db req operatorID operatorName = (some ServiceError.productNotFound, db))
    ∧ (∀ (req : models.StockAdjustRequest) (operatorID : Nat) (operatorName : String),
      req.ProductID = id →
        StockAdjust env db req operatorID operatorName
          = (some ServiceError.productNotFound, db)) := by
  obtain ⟨err, herr⟩ := GetProductByID_unresolved env db id h
  refine ⟨?_, ?_, ?_⟩
  · intro req _ _ hid
    subst hid
    simp [StockIn, herr]
  · intro req _ _ hid
    subst hid
    simp [StockOut, herr]
  · intro req _ _ hid
    subst hid
    simp [StockAdjust, herr]

/-- Witness of C7: a stock-out of 3 on a soft-deleted product. -/
theorem stock_calls_not_found_witness :
    StockOut (quietEnv 200) deletedStore
      { ProductID := 1, Quantity := 3, ReferenceNo := "", Notes := "" } 7 "amy"
      = (some ServiceError.productNotFound, deletedStore) :=
  (stock_calls_not_found (quietEnv 200) deletedStore 1 (by decide)).2.1
    { ProductID := 1, Quantity := 3, ReferenceNo := "", Notes := "" } 7 "amy" rfl

/-- A service call is its read part followed by its commit. -/
theorem Call.apply_eq {F : Type} [Float64Ops F] (env : Env) (db : Store F)
    (call : Call F) :
    call.apply env db =
      match call.prepare env db with
      | Except.error e => (some e, db)
      | Except.ok plan => Call.commit env db plan := by
  cases call with
  | stockIn req operatorID operatorName =>
    simp only [Call.apply, Call.prepare, Call.productID, Call.commit, Call.plan, StockIn,
      stockInRecord]
    cases GetProductByID env db req.ProductID <;> rfl
  | stockOut req operatorID operatorName =>
    simp only [Call.apply, Call.prepare, Call.productID, Call.commit, Call.plan, StockOut,
      stockOutRecord]
    cases GetProductByID env db req.ProductID with
    | error e => rfl
    | ok product =>
      by_cases hlt : product.CurrentStock < req.Quantity
      · simp only [if_pos hlt]
      · simp only [if_neg hlt]
  | stockAdjust req operatorID operatorName =>
    simp only [Call.apply, Call.prepare, Call.productID, Call.commit, Call.plan,
      StockAdjust, stockAdjustRecord, adjustQuantity]
    cases GetProductByID env db req.ProductID <;> rfl

theorem Call.plan_ProductID {F : Type} [Float64Ops F] (call : Call F)
    (product : models.Product F) : (call.plan product).1.ProductID = call.productID := by
  cases call <;> rfl

theorem Call.plan_BeforeQty {F : Type} [Float64Ops F] (call : Call F)
    (product : models.Product F) :
    (call.plan product).1.BeforeQty = product.CurrentStock := by
  cases call <;> rfl

theorem Call.plan_AfterQty {F : Type} [Float64Ops F] (call : Call F)
    (product : models.Product F) : (call.plan product).1.AfterQty = (call.plan product).2 := by
  cases call <;> rfl

/-- A prepared call carries the plan computed from the product that resolves. -/
theorem Call.prepare_ok {F : Type} [Float64Ops F] {env : Env} {db : Store F}
    {call : Call F} {plan : models.InventoryRecord F × Int}
    (h : call.prepare env db = Except.ok plan) :
    ∃ product, GetProductByID env db call.productID = Except.ok product ∧
      plan = call.plan product := by
  unfold Call.prepare at h
  cases hres : GetProductByID env db call.productID with
  | error e => simp [hres] at h
  | ok product =>
    refine ⟨product, rfl, ?_⟩
    simp only [hres] at h
    cases call with
    | stockIn req operatorID operatorName =>
      simp only [Except.ok.injEq] at h
      exact h.symm
    | stockOut req operatorID operatorName =>
      by_cases hlt : product.CurrentStock < req.Quantity
      · simp [if_pos hlt] at h
      · simp only [if_neg hlt, Except.ok.injEq] at h
        exact h.symm
    | stockAdjust req operatorID operatorName =>
      simp only [Except.ok.injEq] at h
      exact h.symm

/-- Every call either fails and returns the store it was given, or succeeds and
returns the store with both writes of its plan applied. -/
theorem Call.apply_cases {F : Type} [Float64Ops F] (env : Env) (db : Store F)
    (call : Call F) :
    ((call.apply env db).1 ≠ none ∧ (call.apply env db).2 = db)
    ∨ ∃ product, GetProductByID env db call.productID = Except.ok product ∧
        call.prepare env db = Except.ok (call.plan product) ∧
        call.apply env db
          = (none, applied env db (call.plan product).1 (call.plan product).2) := by
  rw [Call.apply_eq]
  cases hprep : call.prepare env db with
  | error e => exact Or.inl ⟨by simp, rfl⟩
  | ok plan =>
    obtain ⟨product, hres, hplan⟩ := Call.prepare_ok hprep
    subst hplan
    simp only [Call.commit, StockOperation_eq]
    by_cases hf : env.updateErr = true ∨ env.createErr = true ∨ env.commitErr = true
    · exact Or.inl (by simp [if_pos hf, commitResult])
    · exact Or.inr ⟨product, hres, rfl, by simp [if_neg hf, commitResult]⟩

/-- A successful call has applied both writes of its plan. -/
theorem Call.apply_success {F : Type} [Float64Ops F] {env : Env} {db : Store F}
    {call : Call F} (hok : (call.apply env db).1 = none) :
    ∃ product, GetProductByID env db call.productID = Except.ok product ∧
      call.apply env db
        = (none, applied env db (call.plan product).1 (call.plan product).2) := by
  rcases Call.apply_cases env db call with h | ⟨product, hres, _, happ⟩
  · exact absurd hok h.1
  · exact ⟨product, hres, happ⟩

/-- Inside the transaction a failing ledger insert comes after the stock update:
the transaction state at the error already holds the new stock, and it is the
rollback of `Transaction` that discards it. -/
theorem stockOperationBody_insert_failure {F : Type} (env : Env) (db : Store F)
    (record : models.InventoryRecord F) (newStock : Int)
    (hu : env.updateErr = false) (hc : env.createErr = true) :
    stockOperationBody env record newStock db
      = (some DBError.ioFailure,
          { db with products :=
              db.products.map (setStock env.now record.ProductID newStock) }) := by
  simp [stockOperationBody, execUpdateCurrentStock, execCreateRecord, hu, hc]

/-- C8. If the stock update or the ledger insert of `StockOperation` fails, the call
returns a storage error and the store of before the call; so does every service
call that reaches the commit, and no service call changes the store.  Under every
pattern of failures the outcome of `StockOperation` is one of two: an error with
the store untouched, or success with both the stock update and the ledger row
applied. -/
theorem StockOperation_atomic {F : Type} [Float64Ops F] (env : Env) (db : Store F)
    (record : models.InventoryRecord F) (newStock : Int)
    (hfail : env.updateErr = true ∨ env.createErr = true) :
    StockOperation env db record newStock = (some DBError.ioFailure, db)
    ∧ (∀ env2 : Env,
        StockOperation env2 db record newStock = (some DBError.ioFailure, db)
        ∨ ((StockOperation env2 db record newStock).1 = none
          ∧ (StockOperation env2 db record newStock).2.products
              = db.products.map (setStock env2.now record.ProductID newStock)
          ∧ (StockOperation env2 db record newStock).2.records
              = db.records ++ [stampRecord env2.now db.records record]))
    ∧ (∀ call : Call F, (call.apply env db).1 ≠ none ∧ (call.apply env db).2 = db)
    ∧ (∀ (call : Call F) (plan : models.InventoryRecord F × Int),
        call.prepare env db = Except.ok plan →
          call.apply env db = (some (ServiceError.storage DBError.ioFailure), db)) := by
  have hany : env.updateErr = true ∨ env.createErr = true ∨ env.commitErr = true := by
    rcases hfail with h | h
    · exact Or.inl h
    · exact Or.inr (Or.inl h)
  refine ⟨by rw [StockOperation_eq, if_pos hany], ?_, ?_, ?_⟩
  · intro env2
    rw [StockOperation_eq]
    by_cases hf : env2.updateErr = true ∨ env2.createErr = true ∨ env2.commitErr = true
    · exact Or.inl (by rw [if_pos hf])
    · exact Or.inr (by simp [if_neg hf, applied])
  · intro call
    rw [Call.apply_eq]
    cases hprep : call.prepare env db with
    | error e => exact ⟨by simp, rfl⟩
    | ok plan => simp [Call.commit, StockOperation_eq, if_pos hany, commitResult]
  · intro call plan hprep
    rw [Call.apply_eq, hprep]
    simp [Call.commit, StockOperation_eq, if_pos hany, commitResult]

/-- Witness of C8: the ledger insert fails after the stock update of a stock-in. -/
theorem StockOperation_atomic_witness :
    StockIn (createFailsEnv 200) (sampleStore 10) (sampleStockIn 5) 7 "amy"
      = (some (ServiceError.storage DBError.ioFailure), sampleStore 10) :=
  (StockOperation_atomic (createFailsEnv 200) (sampleStore 10)
    (stockInRecord (sampleStockIn 5) (sampleProduct 1 10 15) 7 "amy") 15
    (Or.inr rfl)).2.2.2 (Call.stockIn (sampleStockIn 5) 7 "amy") _ rfl

/-- The stock update relates every row to itself up to stock and update time, and
leaves rows with another id, and soft-deleted rows, as they are. -/
theorem forall₂_map_setStock {F : Type} (now productID : Nat) (n : Int)
    (l : List (models.Product F)) :
    List.Forall₂ (fun p p' : models.Product F =>
        (p.ID ≠ productID ∨ p.DeletedAt ≠ none → p' = p)
        ∧ { p' with CurrentStock := p.CurrentStock, UpdatedAt := p.UpdatedAt } = p)
      l (l.map (setStock now productID n)) := by
  induction l with
  | nil => exact List.Forall₂.nil
  | cons a t ih =>
    refine List.Forall₂.cons ⟨?_, ?_⟩ ih
    · intro h
      unfold setStock
      rw [if_neg]
      rintro ⟨h1, h2⟩
      rcases h with h | h
      · exact h h1
      · exact h h2
    · unfold setStock
      split <;> rfl

/-- C9. A successful `StockIn`, `StockOut` or `StockAdjust` call targets a product
that resolves, and afterwards that product resolves with its current stock set to
the new value (`before + quantity`, `before - quantity` in Go `int` arithmetic, or
the new quantity of the adjustment) and every other column as before, apart from
the update time gorm refreshes; the new value differs from the old one whenever
the quantity of a stock-in or stock-out is a non-zero Go `int`, or the new quantity
of an adjustment is not the old stock.  Row by row the product table is as before
except for the current stock and update time of the rows the call changes; every
row with another id, and every soft-deleted row, is unchanged; with unique ids the
targeted product is the only row with its id; and the ledger is the ledger of
before the call followed by exactly one new entry, which is for the targeted
product. -/
theorem stock_call_frame {F : Type} [Float64Ops F] (env : Env) (db : Store F)
    (call : Call F) (hok : (call.apply env db).1 = none) :
    (∃ product, GetProductByID env db call.productID = Except.ok product
        ∧ product ∈ db.products
        ∧ ((db.products.map (fun p => p.ID)).Nodup →
            ∀ p ∈ db.products, p.ID = call.productID → p = product)
        ∧ GetProductByID env (call.apply env db).2 call.productID
            = Except.ok { product with
                CurrentStock := (call.plan product).2, UpdatedAt := env.now }
        ∧ (call.plan product).2
            = (match call with
                | Call.stockIn req _ _ => wrapInt (product.CurrentStock + req.Quantity)
                | Call.stockOut req _ _ => wrapInt (product.CurrentStock - req.Quantity)
                | Call.stockAdjust req _ _ => req.NewQuantity)
        ∧ (InIntRange product.CurrentStock → call.asksChange product.CurrentStock →
            (call.plan product).2 ≠ product.CurrentStock))
    ∧ List.Forall₂ (fun p p' : models.Product F =>
        (p.ID ≠ call.productID ∨ p.DeletedAt ≠ none → p' = p)
        ∧ { p' with CurrentStock := p.CurrentStock, UpdatedAt := p.UpdatedAt } = p)
      db.products (call.apply env db).2.products
    ∧ ∃ e, (call.apply env db).2.records = db.records ++ [e]
        ∧ e.ProductID = call.productID := by
  obtain ⟨product, hres, happ⟩ := Call.apply_success hok
  obtain ⟨_, hmem, hid, _, _⟩ := GetProductByID_ok hres
  have hres2 : GetProductByID env db (call.plan product).1.ProductID = Except.ok product := by
    rw [Call.plan_ProductID]
    exact hres
  have hafter := GetProductByID_applied (call.plan product).1 (call.plan product).2 hres2
  have hstore : (call.apply env db).2
      = applied env db (call.plan product).1 (call.plan product).2 := by rw [happ]
  rw [Call.plan_ProductID, ← hstore] at hafter
  refine ⟨⟨product, hres, hmem, ?_, hafter, ?_, ?_⟩, ?_, ?_⟩
  · intro hnd p hp hpid
    exact List.inj_on_of_nodup_map hnd hp hmem (by rw [hpid, hid])
  · cases call <;> rfl
  · intro hrange hmoves
    unfold InIntRange MinInt MaxInt at hrange
    cases call with
    | stockIn req operatorID operatorName =>
      obtain ⟨hq, hne⟩ := hmoves
      unfold InIntRange MinInt MaxInt at hq
      simp only [Call.plan, wrapInt]
      omega
    | stockOut req operatorID operatorName =>
      obtain ⟨hq, hne⟩ := hmoves
      unfold InIntRange MinInt MaxInt at hq
      simp only [Call.plan, wrapInt]
      omega
    | stockAdjust req operatorID operatorName => exact hmoves
  · rw [happ]
    simp only [applied, Call.plan_ProductID]
    exact forall₂_map_setStock _ _ _ _
  · rw [happ]
    exact ⟨_, rfl, by simp [stampRecord, Call.plan_ProductID]⟩

/-- Witness of C9: a stock-out of 6 sets the stock of product 1 from 10 to 4 and
leaves the second product and the other columns alone. -/
theorem stock_call_frame_witness :
    (∃ product, GetProductByID (quietEnv 200) (sampleStore 10) 1 = Except.ok product
        ∧ GetProductByID (quietEnv 200)
            ((Call.stockOut (sampleStockOut 6) 7 "amy").apply (quietEnv 200)
              (sampleStore 10)).2 1
          = Except.ok { product with
              CurrentStock := ((Call.stockOut (sampleStockOut 6) 7 "amy").plan product).2,
              UpdatedAt := 200 }
        ∧ ((Call.stockOut (sampleStockOut 6) 7 "amy").plan product).2
          = wrapInt (product.CurrentStock - 6))
    ∧ List.Forall₂ (fun p p' : models.Product ℚ =>
        (p.ID ≠ 1 ∨ p.DeletedAt ≠ none → p' = p)
        ∧ { p' with CurrentStock := p.CurrentStock, UpdatedAt := p.UpdatedAt } = p)
      (sampleStore 10).products
      ((Call.stockOut (sampleStockOut 6) 7 "amy").apply (quietEnv 200)
        (sampleStore 10)).2.products :=
  have h := stock_call_frame (quietEnv 200) (sampleStore 10)
    (Call.stockOut (sampleStockOut 6) 7 "amy") (by decide)
  ⟨h.1.imp fun _ hp => ⟨hp.1, hp.2.2.2.1, hp.2.2.2.2.1⟩, h.2.1⟩

/-- C2 (counterexample). All stocks are non-negative, the call is a `StockIn` with
a positive quantity, and afterwards a stock is negative. -/
theorem stock_nonneg_counterexample :
    (∀ p ∈ (sampleStore 1).products, 0 ≤ p.CurrentStock)
    ∧ 0 < (sampleStockIn MaxInt).Quantity
    ∧ (run (sampleStore 1)
        [(quietEnv 200, Call.stockIn (sampleStockIn MaxInt) 7 "amy")]).products.map
          (fun p => p.CurrentStock) = [MinInt, 7]
    ∧ ¬ (∀ p ∈ (run (sampleStore 1)
        [(quietEnv 200, Call.stockIn (sampleStockIn MaxInt) 7 "amy")]).products,
          0 ≤ p.CurrentStock) := by
  refine ⟨?_, ?_, ?_, ?_⟩ <;> decide

/-- A call that was prepared on a store with non-negative stocks, and is
admissible there, plans a non-negative new stock. -/
theorem Call.plan_nonneg {F : Type} [Float64Ops F] {env : Env} {db : Store F}
    {call : Call F} {product : models.Product F} (hinv : StocksNonneg db)
    (hadm : call.admissible db)
    (hres : GetProductByID env db call.productID = Except.ok product)
    (hprep : call.prepare env db = Except.ok (call.plan product)) :
    0 ≤ (call.plan product).2 ∧ (call.plan product).2 ≤ MaxInt := by
  obtain ⟨_, hmem, _, _, hfind⟩ := GetProductByID_ok hres
  obtain ⟨h0, hmax⟩ := hinv product hmem
  unfold MaxInt at hmax
  cases call with
  | stockIn req operatorID operatorName =>
    obtain ⟨hq, hfit⟩ := hadm
    have hfit2 := hfit product.CurrentStock (by
      simp only [Call.productID] at hfind
      simp [currentStock, hfind])
    unfold MaxInt at hfit2
    simp only [Call.plan]
    rw [wrapInt_eq_self ⟨by unfold MinInt; omega, by unfold MaxInt; omega⟩]
    unfold MaxInt
    omega
  | stockOut req operatorID operatorName =>
    have hq : 0 < req.Quantity := hadm
    have hguard : ¬ product.CurrentStock < req.Quantity := by
      intro hlt
      simp only [Call.prepare, Call.productID] at hprep hres
      simp [hres, if_pos hlt] at hprep
    simp only [Call.plan]
    rw [wrapInt_eq_self ⟨by unfold MinInt; omega, by unfold MaxInt; omega⟩]
    unfold MaxInt
    omega
  | stockAdjust req operatorID operatorName =>
    exact hadm

/-- One admissible call keeps every stock non-negative and within the `int` range. -/
theorem Call.apply_keeps_nonneg {F : Type} [Float64Ops F] (env : Env) (db : Store F)
    (call : Call F) (hinv : StocksNonneg db) (hadm : call.admissible db) :
    StocksNonneg (call.apply env db).2 := by
  rcases Call.apply_cases env db call with ⟨_, hsame⟩ | ⟨product, hres, hprep, happ⟩
  · rw [hsame]
    exact hinv
  · have hn := Call.plan_nonneg hinv hadm hres hprep
    rw [happ]
    intro p hp
    simp only [applied, List.mem_map] at hp
    obtain ⟨q, hq, rfl⟩ := hp
    unfold setStock
    split
    · exact hn
    · exact hinv q hq

/-- C2 (amended). Starting from a store in which every stock is non-negative (and a
Go `int`), after any sequence of `StockIn` (quantity > 0), `StockOut`
(quantity > 0) and `StockAdjust` (newQuantity ≥ 0) calls in which no `StockIn`
pushes the stock of its product beyond the largest `int`, whether the calls
succeed or fail, every stock is still non-negative. -/
theorem stock_nonneg_run {F : Type} [Float64Ops F] (db : Store F)
    (calls : List (Env × Call F)) (hinv : StocksNonneg db)
    (hadm : admissibleRun db calls) :
    ∀ p ∈ (run db calls).products, 0 ≤ p.CurrentStock := by
  suffices h : StocksNonneg (run db calls) from fun p hp => (h p hp).1
  induction calls generalizing db with
  | nil => exact hinv
  | cons c rest ih =>
    exact ih _ (Call.apply_keeps_nonneg c.1 db c.2 hinv hadm.1) hadm.2

/-- Witness of C2: the sample run on a product holding 10, with a refused and a
rolled-back call in it. -/
theorem stock_nonneg_run_witness :
    (run (sampleStore 10) sampleRun).products.all (fun p => decide (0 ≤ p.CurrentStock))
      = true :=
  List.all_eq_true.mpr (fun p hp => decide_eq_true
    (stock_nonneg_run (sampleStore 10) sampleRun (by decide) (by decide) p hp))

theorem currentStock_of_resolved {F : Type} {env : Env} {db : Store F} {id : Nat}
    {product : models.Product F} (h : GetProductByID env db id = Except.ok product) :
    currentStock db id = some product.CurrentStock := by
  obtain ⟨_, _, _, _, hfind⟩ := GetProductByID_ok h
  simp [currentStock, hfind]

/-- Stock of a product after both writes: the new stock for the targeted product,
the old stock for every other product. -/
theorem currentStock_applied {F : Type} (env : Env) (db : Store F)
    (record : models.InventoryRecord F) (n : Int) (id : Nat) :
    currentStock (applied env db record n) id
      = if record.ProductID = id then (currentStock db id).map (fun _ => n)
        else currentStock db id := by
  unfold currentStock
  simp only [applied, find_map_setStock]
  cases hf : db.products.find? (isLiveWithID id) with
  | none => simp
  | some p =>
    have hp := List.find?_some hf
    simp only [isLiveWithID, decide_eq_true_eq] at hp
    simp only [Option.map_some']
    by_cases hid : record.ProductID = id
    · simp [setStock, hid, hp.1, hp.2]
    · have hne : ¬ (p.ID = record.ProductID ∧ p.DeletedAt = none) := by
        rintro ⟨h1, _⟩
        exact hid (h1 ▸ hp.1)
      simp [setStock, hid, hne]

/-- Ledger of a product after both writes: one more entry for the targeted product,
the same entries for every other product. -/
theorem ledgerOf_applied {F : Type} (env : Env) (db : Store F)
    (record : models.InventoryRecord F) (n : Int) (id : Nat) :
    ledgerOf id (applied env db record n)
      = ledgerOf id db
        ++ (if record.ProductID = id then [stampRecord env.now db.records record] else []) := by
  unfold ledgerOf
  simp only [applied, List.filter_append]
  by_cases hid : record.ProductID = id
  · simp [stampRecord, hid]
  · simp [stampRecord, hid]

/-- Effect of one call on the ledger and the stock of a product. -/
theorem Call.apply_ledger {F : Type} [Float64Ops F] (env : Env) (db : Store F)
    (call : Call F) (id : Nat) :
    (¬ (call.productID = id ∧ (call.apply env db).1 = none) →
      ledgerOf id (call.apply env db).2 = ledgerOf id db
      ∧ currentStock (call.apply env db).2 id = currentStock db id)
    ∧ (call.productID = id ∧ (call.apply env db).1 = none →
      ∃ e, ledgerOf id (call.apply env db).2 = ledgerOf id db ++ [e]
        ∧ currentStock db id = some e.BeforeQty
        ∧ currentStock (call.apply env db).2 id = some e.AfterQty) := by
  rcases Call.apply_cases env db call with ⟨herr, hsame⟩ | ⟨product, hres, _, happ⟩
  · refine ⟨fun _ => by rw [hsame]; exact ⟨rfl, rfl⟩, fun h => absurd h.2 herr⟩
  · have hcur := currentStock_of_resolved hres
    constructor
    · intro hnot
      have hid : ¬ call.productID = id := fun h => hnot ⟨h, by rw [happ]⟩
      rw [happ]
      simp only [ledgerOf_applied, currentStock_applied, Call.plan_ProductID, if_neg hid,
        List.append_nil, and_self]
    · rintro ⟨hid, _⟩
      rw [hid] at hcur
      rw [happ]
      refine ⟨stampRecord env.now db.records (call.plan product).1, ?_, ?_, ?_⟩
      · simp only [ledgerOf_applied, Call.plan_ProductID, if_pos hid]
      · simp only [stampRecord, Call.plan_BeforeQty, hcur]
      · simp only [currentStock_applied, Call.plan_ProductID, if_pos hid, hcur,
          Option.map_some', stampRecord, Call.plan_AfterQty]

theorem Chained_append {F : Type} {seed cur : Int} {l : List (models.InventoryRecord F)}
    (e : models.InventoryRecord F) (h : Chained seed l cur) (he : e.BeforeQty = cur) :
    Chained seed (l ++ [e]) e.AfterQty := by
  induction l generalizing seed with
  | nil =>
    simp only [Chained] at h
    exact ⟨he.trans h, rfl⟩
  | cons a t ih => exact ⟨h.1, ih h.2⟩

theorem Chained_last {F : Type} {seed cur : Int} {l : List (models.InventoryRecord F)}
    (h : Chained seed l cur) :
    cur = (l.getLast?.map (fun e => e.AfterQty)).getD seed := by
  induction l generalizing seed with
  | nil => exact h
  | cons a t ih =>
    have h2 := ih h.2
    cases t with
    | nil => simpa using h2
    | cons b u => simpa [List.getLast?_cons_cons] using h2

theorem Chained_link {F : Type} {seed cur : Int} {l : List (models.InventoryRecord F)}
    (h : Chained seed l cur) (i : Nat) (hi : i + 1 < l.length) :
    l[i + 1].BeforeQty = l[i].AfterQty := by
  induction l generalizing seed i with
  | nil => simp at hi
  | cons a t ih =>
    cases i with
    | zero =>
      cases t with
      | nil => simp at hi
      | cons b u => exact h.2.1
    | succ j =>
      have hj : j + 1 < t.length := by simpa using hi
      simpa using ih h.2 j hj

theorem run_append {F : Type} [Float64Ops F] (db : Store F)
    (calls more : List (Env × Call F)) :
    run db (calls ++ more) = run (run db calls) more := by
  induction calls generalizing db with
  | nil => rfl
  | cons c rest ih => exact ih _

/-- Along a run the ledger of a product only grows at its end, by one entry for
each successful call on the product, and stays chained to the current stock. -/
theorem run_ledger {F : Type} [Float64Ops F] (id : Nat) (seed : Int) (db : Store F)
    (calls : List (Env × Call F)) (cur : Int) (hcur : currentStock db id = some cur)
    (hch : Chained seed (ledgerOf id db) cur) :
    (∃ cur2, currentStock (run db calls) id = some cur2
        ∧ Chained seed (ledgerOf id (run db calls)) cur2)
    ∧ (ledgerOf id (run db calls)).length
        = (ledgerOf id db).length + successes id db calls
    ∧ ledgerOf id db <+: ledgerOf id (run db calls) := by
  induction calls generalizing db cur with
  | nil => exact ⟨⟨cur, hcur, hch⟩, by simp [run, successes], List.prefix_refl _⟩
  | cons c rest ih =>
    have hstep := Call.apply_ledger c.1 db c.2 id
    by_cases hc : c.2.productID = id ∧ (c.2.apply c.1 db).1 = none
    · obtain ⟨e, hl, hb, ha⟩ := hstep.2 hc
      have hbc : e.BeforeQty = cur := by
        rw [hcur] at hb
        exact (Option.some.inj hb).symm
      have hch2 : Chained seed (ledgerOf id (c.2.apply c.1 db).2) e.AfterQty := by
        rw [hl]
        exact Chained_append e hch hbc
      obtain ⟨h1, h2, h3⟩ := ih (c.2.apply c.1 db).2 e.AfterQty ha hch2
      refine ⟨h1, ?_, ?_⟩
      · simp only [run, successes, if_pos hc]
        rw [h2, hl]
        simp only [List.length_append, List.length_singleton]
        omega
      · simp only [run]
        exact List.IsPrefix.trans (hl ▸ List.prefix_append _ _) h3
    · obtain ⟨hl, hs⟩ := hstep.1 hc
      obtain ⟨h1, h2, h3⟩ := ih (c.2.apply c.1 db).2 cur (hs ▸ hcur) (hl ▸ hch)
      refine ⟨h1, ?_, ?_⟩
      · simp only [run, successes, if_neg hc]
        rw [h2, hl]
        omega
      · simp only [run]
        exact hl ▸ h3

/-- C6. Start from a store in which the product has stock `s` and no ledger entry,
and run any sequence of calls one after another.  Then the product's ledger has
one entry per successful call on the product, in order (a longer run only adds
entries at the end); the current stock is the quantity-after of the latest entry,
or `s` when there is none; the first entry's quantity-before is `s`; and the
quantity-before of each later entry is the quantity-after of the entry before it. -/
theorem ledger_chain {F : Type} [Float64Ops F] (db0 : Store F) (id : Nat) (s : Int)
    (calls : List (Env × Call F)) (hseed : currentStock db0 id = some s)
    (hempty : ledgerOf id db0 = []) :
    (ledgerOf id (run db0 calls)).length = successes id db0 calls
    ∧ currentStock (run db0 calls) id
        = some (((ledgerOf id (run db0 calls)).getLast?.map (fun e => e.AfterQty)).getD s)
    ∧ (ledgerOf id (run db0 calls) = [] → currentStock (run db0 calls) id = some s)
    ∧ (∀ e ∈ (ledgerOf id (run db0 calls)).head?, e.BeforeQty = s)
    ∧ (∀ (i : Nat) (h : i + 1 < (ledgerOf id (run db0 calls)).length),
        (ledgerOf id (run db0 calls))[i + 1].BeforeQty
          = (ledgerOf id (run db0 calls))[i].AfterQty)
    ∧ (∀ more : List (Env × Call F),
        ledgerOf id (run db0 calls) <+: ledgerOf id (run db0 (calls ++ more))) := by
  have hch0 : Chained s (ledgerOf id db0) s := by
    rw [hempty]
    rfl
  obtain ⟨⟨cur, hcur, hch⟩, hlen, _⟩ := run_ledger id s db0 calls s hseed hch0
  have hlast := Chained_last hch
  refine ⟨?_, ?_, ?_, ?_, ?_, ?_⟩
  · rw [hlen, hempty]
    simp
  · rw [hcur, hlast]
  · intro hnil
    rw [hcur, hlast, hnil]
    rfl
  · intro e he
    cases hl : ledgerOf id (run db0 calls) with
    | nil => simp [hl] at he
    | cons a t =>
      rw [hl] at hch he
      simp only [List.head?_cons, Option.mem_def, Option.some.injEq] at he
      exact he ▸ hch.1
  · intro i h
    exact Chained_link hch i h
  · intro more
    rw [run_append]
    exact (run_ledger id s (run db0 calls) more cur hcur hch).2.2

/-- Witness of C6: a stock-in of 5, a refused stock-out of 20 and an adjustment to 3
on a product seeded with 10: two entries, 10 → 15 → 3. -/
theorem ledger_chain_witness :
    (ledgerOf 1 (run (sampleStore 10)
      [(quietEnv 200, Call.stockIn (sampleStockIn 5) 7 "amy"),
       (quietEnv 201, Call.stockOut (sampleStockOut 20) 7 "amy"),
       (quietEnv 202, Call.stockAdjust (sampleStockAdjust 3) 7 "amy")])).map
        (fun e => (e.BeforeQty, e.AfterQty)) = [(10, 15), (15, 3)]
    ∧ currentStock (run (sampleStore 10)
      [(quietEnv 200, Call.stockIn (sampleStockIn 5) 7 "amy"),
       (quietEnv 201, Call.stockOut (sampleStockOut 20) 7 "amy"),
       (quietEnv 202, Call.stockAdjust (sampleStockAdjust 3) 7 "amy")]) 1
      = some (((ledgerOf 1 (run (sampleStore 10)
      [(quietEnv 200, Call.stockIn (sampleStockIn 5) 7 "amy"),
       (quietEnv 201, Call.stockOut (sampleStockOut 20) 7 "amy"),
       (quietEnv 202, Call.stockAdjust (sampleStockAdjust 3) 7 "amy")])).getLast?.map
        (fun e => e.AfterQty)).getD 10) :=
  ⟨by decide, (ledger_chain (sampleStore 10) 1 10
      [(quietEnv 200, Call.stockIn (sampleStockIn 5) 7 "amy"),
       (quietEnv 201, Call.stockOut (sampleStockOut 20) 7 "amy"),
       (quietEnv 202, Call.stockAdjust (sampleStockAdjust 3) 7 "amy")]
      (by decide) (by decide)).2.1⟩

/-- The two round trips of a call, made back to back, are the service call. -/
theorem advance_twice {F : Type} [Float64Ops F] (env : Env) (call : Call F)
    (db : Store F) :
    (advance env call (advance env call db Progress.idle).2
        (advance env call db Progress.idle).1)
      = (Progress.returned (call.apply env db).1, (call.apply env db).2) := by
  rw [Call.apply_eq]
  cases hprep : call.prepare env db with
  | error e => simp [advance, hprep]
  | ok plan => simp [advance, hprep]

/-- C10 (the code at the failing schedule). Two `StockOut` calls of 6 on a product
holding 10: run one after the other, the first succeeds and the second is refused
with `insufficientStock`, leaving stock 4 and one entry; but when both calls read
the product before either commits, both succeed, the stock ends at 4 and the
ledger holds two entries, each from 10 to 4.  Of the six interleavings only the
two serial ones have exactly one success. -/
theorem concurrent_StockOut_both_succeed :
    interleave (quietEnv 200) (Call.stockOut (sampleStockOut 6) 7 "amy")
        (Call.stockOut (sampleStockOut 6) 8 "bob") [false, false, true, true]
        { db := sampleStore 10, first := Progress.idle, second := Progress.idle }
      = { db := (StockOut (quietEnv 200) (sampleStore 10) (sampleStockOut 6) 7 "amy").2
          first := Progress.returned none
          second := Progress.returned (some (ServiceError.insufficientStock 4 6)) }
    ∧ (interleave (quietEnv 200) (Call.stockOut (sampleStockOut 6) 7 "amy")
        (Call.stockOut (sampleStockOut 6) 8 "bob") [false, true, false, true]
        { db := sampleStore 10, first := Progress.idle, second := Progress.idle }).first
      = Progress.returned none
    ∧ (interleave (quietEnv 200) (Call.stockOut (sampleStockOut 6) 7 "amy")
        (Call.stockOut (sampleStockOut 6) 8 "bob") [false, true, false, true]
        { db := sampleStore 10, first := Progress.idle, second := Progress.idle }).second
      = Progress.returned none
    ∧ currentStock (interleave (quietEnv 200) (Call.stockOut (sampleStockOut 6) 7 "amy")
        (Call.stockOut (sampleStockOut 6) 8 "bob") [false, true, false, true]
        { db := sampleStore 10, first := Progress.idle, second := Progress.idle }).db 1
      = some 4
    ∧ (interleave (quietEnv 200) (Call.stockOut (sampleStockOut 6) 7 "amy")
        (Call.stockOut (sampleStockOut 6) 8 "bob") [false, true, false, true]
        { db := sampleStore 10, first := Progress.idle, second := Progress.idle }).db.records.map
          (fun e => (e.OperatorName, e.Quantity, e.BeforeQty, e.AfterQty))
      = [("amy", 6, 10, 4), ("bob", 6, 10, 4)]
    ∧ schedules.filter (fun schedule =>
        decide ((interleave (quietEnv 200) (Call.stockOut (sampleStockOut 6) 7 "amy")
          (Call.stockOut (sampleStockOut 6) 8 "bob") schedule
          { db := sampleStore 10, first := Progress.idle,
            second := Progress.idle }).db.records.length = 1))
      = [[false, false, true, true], [true, true, false, false]] := by
  refine ⟨?_, ?_, ?_, ?_, ?_, ?_⟩ <;> decide

/-- C11 (the code at the failing schedule). Two `StockIn` calls of 5 and 7 on a
product holding 10: run one after the other the stock ends at 22 and the second
entry starts from 15; but when both calls read the product before either commits,
both succeed, the stock ends at 17 (the first update is lost), and the second
entry records quantity-before 10 although the store held 15 when it was
committed.  Of the six interleavings only the two serial ones end at 22. -/
theorem concurrent_StockIn_lost_update :
    currentStock (interleave (quietEnv 200) (Call.stockIn (sampleStockIn 5) 7 "amy")
        (Call.stockIn (sampleStockIn 7) 8 "bob") [false, false, true, true]
        { db := sampleStore 10, first := Progress.idle, second := Progress.idle }).db 1
      = some (10 + 5 + 7)
    ∧ (interleave (quietEnv 200) (Call.stockIn (sampleStockIn 5) 7 "amy")
        (Call.stockIn (sampleStockIn 7) 8 "bob") [false, true, false, true]
        { db := sampleStore 10, first := Progress.idle, second := Progress.idle }).first
      = Progress.returned none
    ∧ (interleave (quietEnv 200) (Call.stockIn (sampleStockIn 5) 7 "amy")
        (Call.stockIn (sampleStockIn 7) 8 "bob") [false, true, false, true]
        { db := sampleStore 10, first := Progress.idle, second := Progress.idle }).second
      = Progress.returned none
    ∧ currentStock (interleave (quietEnv 200) (Call.stockIn (sampleStockIn 5) 7 "amy")
        (Call.stockIn (sampleStockIn 7) 8 "bob") [false, true, false, true]
        { db := sampleStore 10, first := Progress.idle, second := Progress.idle }).db 1
      = some 17
    ∧ currentStock (interleave (quietEnv 200) (Call.stockIn (sampleStockIn 5) 7 "amy")
        (Call.stockIn (sampleStockIn 7) 8 "bob") [false, true, false]
        { db := sampleStore 10, first := Progress.idle, second := Progress.idle }).db 1
      = some 15
    ∧ (interleave (quietEnv 200) (Call.stockIn (sampleStockIn 5) 7 "amy")
        (Call.stockIn (sampleStockIn 7) 8 "bob") [false, true, false, true]
        { db := sampleStore 10, first := Progress.idle, second := Progress.idle }).db.records.map
          (fun e => (e.OperatorName, e.Quantity, e.BeforeQty, e.AfterQty))
      = [("amy", 5, 10, 15), ("bob", 7, 10, 17)]
    ∧ schedules.filter (fun schedule =>
        decide (currentStock (interleave (quietEnv 200)
          (Call.stockIn (sampleStockIn 5) 7 "amy") (Call.stockIn (sampleStockIn 7) 8 "bob")
          schedule { db := sampleStore 10, first := Progress.idle,
                     second := Progress.idle }).db 1 = some 22))
      = [[false, false, true, true], [true, true, false, false]] := by
  refine ⟨?_, ?_, ?_, ?_, ?_, ?_, ?_⟩ <;> decide

/-- C13. When no database call fails, a `StockAdjust` whose new quantity equals the
current stock of a product that resolves succeeds, leaves the current stock as it
was, and appends exactly one `adjust` entry with quantity 0 and quantity-before =
quantity-after = the current stock. -/
theorem StockAdjust_noop_recorded {F : Type} [Float64Ops F] (env : Env) (db : Store F)
    (req : models.StockAdjustRequest) (operatorID : Nat) (operatorName : String)
    (product : models.Product F) (hquiet : env.Quiet)
    (hres : GetProductByID env db req.ProductID = Except.ok product)
    (hsame : req.NewQuantity = product.CurrentStock) :
    (StockAdjust env db req operatorID operatorName).1 = none
    ∧ GetProductByID env (StockAdjust env db req operatorID operatorName).2 req.ProductID
        = Except.ok { product with UpdatedAt := env.now }
    ∧ currentStock (StockAdjust env db req operatorID operatorName).2 req.ProductID
        = some product.CurrentStock
    ∧ (StockAdjust env db req operatorID operatorName).2.records = db.records ++
        [{ ID := nextRecordID db.records
           ProductID := req.ProductID
           Type_ := "adjust"
           Quantity := 0
           BeforeQty := product.CurrentStock
           AfterQty := product.CurrentStock
           UnitCost := Float64Ops.zero
           TotalCost := Float64Ops.zero
           ReferenceNo := ""
           Notes := req.Notes
           OperatorID := operatorID
           OperatorName := operatorName
           CreatedAt := env.now }] := by
  have hget := GetProductByID_applied
    (stockAdjustRecord req product operatorID operatorName) req.NewQuantity hres
  have hq : adjustQuantity product.CurrentStock product.CurrentStock = 0 := by
    simp [adjustQuantity, wrapInt]
  rw [StockAdjust_resolved operatorID operatorName hres, StockOperation_quiet env hquiet]
  rw [hsame] at hget ⊢
  have hcur := currentStock_of_resolved hget
  refine ⟨rfl, hget, hcur, ?_⟩
  simp [commitResult, applied, stampRecord, stockAdjustRecord, models.StockAdjust, hsame, hq]

/-- Witness of C13: adjusting a product holding 10 to 10. -/
theorem StockAdjust_noop_recorded_witness :
    (StockAdjust (quietEnv 200) (sampleStore 10) (sampleStockAdjust 10) 7 "amy").1 = none
    ∧ currentStock (StockAdjust (quietEnv 200) (sampleStore 10) (sampleStockAdjust 10)
        7 "amy").2 1 = some 10 :=
  have h := StockAdjust_noop_recorded (quietEnv 200) (sampleStore 10)
    (sampleStockAdjust 10) 7 "amy" (sampleProduct 1 10 15) (by decide) rfl rfl
  ⟨h.1, h.2.2.1⟩

/-- C14 (counterexample). From a store with non-negative stocks a `StockIn` with a
positive quantity writes a `stock_in` entry whose quantity-after is not
quantity-before plus quantity. -/
theorem entry_wellformed_counterexample :
    (∀ p ∈ (sampleStore 1).products, 0 ≤ p.CurrentStock)
    ∧ 0 < (sampleStockIn MaxInt).Quantity
    ∧ (run (sampleStore 1)
        [(quietEnv 200, Call.stockIn (sampleStockIn MaxInt) 7 "amy")]).records.map
          (fun e => (e.Type_, e.Quantity, e.BeforeQty, e.AfterQty))
        = [("stock_in", MaxInt, 1, MinInt)]
    ∧ MinInt ≠ 1 + MaxInt
    ∧ ¬ (∀ e ∈ (run (sampleStore 1)
        [(quietEnv 200, Call.stockIn (sampleStockIn MaxInt) 7 "amy")]).records,
          EntryWellFormed e) := by
  refine ⟨?_, ?_, ?_, ?_, ?_⟩ <;> decide

/-- The entry an admissible call plans on a store with non-negative stocks is well
formed. -/
theorem Call.plan_wellFormed {F : Type} [Float64Ops F] {env : Env} {db : Store F}
    {call : Call F} {product : models.Product F} (hinv : StocksNonneg db)
    (hadm : call.admissible db)
    (hres : GetProductByID env db call.productID = Except.ok product)
    (hprep : call.prepare env db = Except.ok (call.plan product)) :
    EntryWellFormed (call.plan product).1 := by
  obtain ⟨_, hmem, _, _, hfind⟩ := GetProductByID_ok hres
  obtain ⟨h0, hmax⟩ := hinv product hmem
  unfold MaxInt at hmax
  cases call with
  | stockIn req operatorID operatorName =>
    obtain ⟨hq, hfit⟩ := hadm
    have hfit2 := hfit product.CurrentStock (by
      simp only [Call.productID] at hfind
      simp [currentStock, hfind])
    unfold MaxInt at hfit2
    have hw : wrapInt (product.CurrentStock + req.Quantity)
        = product.CurrentStock + req.Quantity :=
      wrapInt_eq_self ⟨by unfold MinInt; omega, by unfold MaxInt; omega⟩
    refine ⟨le_of_lt hq, fun _ => hw, fun h => ?_, fun h => ?_⟩
    · exact absurd h (show ¬ (models.StockIn = "stock_out") by decide)
    · exact absurd h (show ¬ (models.StockIn = "adjust") by decide)
  | stockOut req operatorID operatorName =>
    have hq : 0 < req.Quantity := hadm
    have hguard : ¬ product.CurrentStock < req.Quantity := by
      intro hlt
      simp only [Call.prepare, Call.productID] at hprep hres
      simp [hres, if_pos hlt] at hprep
    have hw : wrapInt (product.CurrentStock - req.Quantity)
        = product.CurrentStock - req.Quantity :=
      wrapInt_eq_self ⟨by unfold MinInt; omega, by unfold MaxInt; omega⟩
    refine ⟨le_of_lt hq, fun h => ?_, fun _ => ⟨hw, not_lt.mp hguard⟩, fun h => ?_⟩
    · exact absurd h (show ¬ (models.StockOut = "stock_in") by decide)
    · exact absurd h (show ¬ (models.StockOut = "adjust") by decide)
  | stockAdjust req operatorID operatorName =>
    obtain ⟨hq, hqmax⟩ := hadm
    unfold MaxInt at hqmax
    have habs : adjustQuantity req.NewQuantity product.CurrentStock
        = |req.NewQuantity - product.CurrentStock| :=
      adjustQuantity_eq_abs (by unfold MinInt; omega) (by unfold MaxInt; omega)
    refine ⟨?_, fun h => ?_, fun h => ?_, fun _ => habs⟩
    · show 0 ≤ adjustQuantity req.NewQuantity product.CurrentStock
      rw [habs]
      exact abs_nonneg _
    · exact absurd h (show ¬ (models.StockAdjust = "stock_in") by decide)
    · exact absurd h (show ¬ (models.StockAdjust = "stock_out") by decide)

/-- One admissible call keeps every ledger entry well formed. -/
theorem Call.apply_keeps_wellFormed {F : Type} [Float64Ops F] (env : Env) (db : Store F)
    (call : Call F) (hinv : StocksNonneg db) (hadm : call.admissible db)
    (hwf : ∀ e ∈ db.records, EntryWellFormed e) :
    ∀ e ∈ (call.apply env db).2.records, EntryWellFormed e := by
  rcases Call.apply_cases env db call with ⟨_, hsame⟩ | ⟨product, hres, hprep, happ⟩
  · rw [hsame]
    exact hwf
  · have hplan := Call.plan_wellFormed hinv hadm hres hprep
    rw [happ]
    intro e he
    simp only [applied, List.mem_append, List.mem_singleton] at he
    rcases he with he | he
    · exact hwf e he
    · rw [he]
      exact hplan

/-- C14 (amended). Starting from a store with non-negative stocks (Go `int`s) and a
well-formed ledger, after any sequence of `StockIn` (quantity > 0), `StockOut`
(quantity > 0) and `StockAdjust` (newQuantity ≥ 0) calls in which no `StockIn`
pushes the stock of its product beyond the largest `int`, every ledger entry is
well formed: its quantity is ≥ 0; a `stock_in` entry has after = before +
quantity; a `stock_out` entry has after = before - quantity and before ≥
quantity; an `adjust` entry has quantity = |after - before|. -/
theorem entries_wellformed_run {F : Type} [Float64Ops F] (db : Store F)
    (calls : List (Env × Call F)) (hinv : StocksNonneg db)
    (hwf : ∀ e ∈ db.records, EntryWellFormed e) (hadm : admissibleRun db calls) :
    ∀ e ∈ (run db calls).records,
      0 ≤ e.Quantity
      ∧ (e.Type_ = "stock_in" → e.AfterQty = e.BeforeQty + e.Quantity)
      ∧ (e.Type_ = "stock_out" →
          e.AfterQty = e.BeforeQty - e.Quantity ∧ e.Quantity ≤ e.BeforeQty)
      ∧ (e.Type_ = "adjust" → e.Quantity = |e.AfterQty - e.BeforeQty|) := by
  induction calls generalizing db with
  | nil => exact hwf
  | cons c rest ih =>
    exact ih _ (Call.apply_keeps_nonneg c.1 db c.2 hinv hadm.1)
      (Call.apply_keeps_wellFormed c.1 db c.2 hinv hadm.1 hwf) hadm.2

/-- Witness of C14: the entries written by the sample run on a product holding 10. -/
theorem entries_wellformed_run_witness :
    (run (sampleStore 10) sampleRun).records.all (fun e => decide (EntryWellFormed e))
      = true :=
  List.all_eq_true.mpr (fun e he => decide_eq_true
    (entries_wellformed_run (sampleStore 10) sampleRun (by decide) (by decide)
      (by decide) e he))

/-- C15 (counterexample). The service method itself accepts a `StockOut` of -5 and
raises the stock from 10 to 15; and through the handler a valid `StockIn` of
2^63-1 on a product holding 1 is accepted and lowers the stock to -2^63. -/
theorem quantity_guard_counterexample :
    (sampleStockOut (-5)).Quantity ≤ 0
    ∧ (service.StockOut (quietEnv 200) (sampleStore 10) (sampleStockOut (-5)) 7 "amy").1
        = none
    ∧ currentStock (service.StockOut (quietEnv 200) (sampleStore 10) (sampleStockOut (-5))
        7 "amy").2 1 = some 15
    ∧ (handler.StockIn (quietEnv 200) (sampleStore 1) (sampleStockIn MaxInt) 7 "amy").1
        = handler.Response.success
    ∧ currentStock (sampleStore 1) 1 = some 1
    ∧ currentStock (handler.StockIn (quietEnv 200) (sampleStore 1) (sampleStockIn MaxInt)
        7 "amy").2 1 = some MinInt
    ∧ MinInt < 1 := by
  refine ⟨?_, ?_, ?_, ?_, ?_, ?_, ?_⟩ <;> decide

/-- Stock of a product after a call, by the outcome of the call. -/
theorem Call.apply_stock {F : Type} [Float64Ops F] (env : Env) (db : Store F)
    (call : Call F) (id : Nat) (s s2 : Int) (hs : currentStock db id = some s)
    (hs2 : currentStock (call.apply env db).2 id = some s2) :
    s2 = s ∨ (call.productID = id ∧ ∃ product,
      GetProductByID env db call.productID = Except.ok product
        ∧ product.CurrentStock = s ∧ call.prepare env db = Except.ok (call.plan product)
        ∧ s2 = (call.plan product).2) := by
  rcases Call.apply_cases env db call with ⟨_, hsame⟩ | ⟨product, hres, hprep, happ⟩
  · rw [hsame, hs] at hs2
    exact Or.inl (Option.some.inj hs2).symm
  · rw [happ, currentStock_applied, Call.plan_ProductID] at hs2
    by_cases hid : call.productID = id
    · have hcur := currentStock_of_resolved hres
      rw [hid, hs] at hcur
      rw [if_pos hid, hs] at hs2
      exact Or.inr ⟨hid, product, hres, (Option.some.inj hcur).symm, hprep,
        (Option.some.inj hs2).symm⟩
    · rw [if_neg hid, hs] at hs2
      exact Or.inl (Option.some.inj hs2).symm

/-- C15 (amended). The request validation of the `StockIn` and `StockOut` handlers
refuses every request with quantity ≤ 0 with status 400 and leaves the store (all
stocks and the ledger) unchanged.  Through the handlers a `StockOut` never
increases the stock of a product, and a `StockIn` never decreases it as long as
the stock plus the quantity fits a Go `int`. -/
theorem handler_quantity_guard {F : Type} [Float64Ops F] (env : Env) (db : Store F)
    (hrange : ∀ p ∈ db.products, InIntRange p.CurrentStock) :
    (∀ (req : models.StockInRequest F) (userID : Nat) (username : String),
        req.Quantity ≤ 0 →
          handler.StockIn env db req userID username = (handler.Response.bindingError, db)
          ∧ (handler.StockIn env db req userID username).1.code = 400)
    ∧ (∀ (req : models.StockOutRequest) (userID : Nat) (username : String),
        req.Quantity ≤ 0 →
          handler.StockOut env db req userID username = (handler.Response.bindingError, db)
          ∧ (handler.StockOut env db req userID username).1.code = 400)
    ∧ (∀ (req : models.StockOutRequest) (userID : Nat) (username : String) (id : Nat)
        (s s2 : Int), currentStock db id = some s →
          currentStock (handler.StockOut env db req userID username).2 id = some s2 →
            s2 ≤ s)
    ∧ (∀ (req : models.StockInRequest F) (userID : Nat) (username : String) (id : Nat)
        (s s2 : Int), currentStock db id = some s → s + req.Quantity ≤ MaxInt →
          currentStock (handler.StockIn env db req userID username).2 id = some s2 →
            s ≤ s2) := by
  refine ⟨?_, ?_, ?_, ?_⟩
  · intro req userID username hq
    have hb : handler.bindStockInRequest req = false := by
      simp only [handler.bindStockInRequest, decide_eq_false_iff_not]
      omega
    simp [handler.StockIn, hb, handler.Response.code]
  · intro req userID username hq
    have hb : handler.bindStockOutRequest req = false := by
      simp only [handler.bindStockOutRequest, decide_eq_false_iff_not]
      omega
    simp [handler.StockOut, hb, handler.Response.code]
  · intro req userID username id s s2 hs hs2
    unfold handler.StockOut at hs2
    by_cases hb : handler.bindStockOutRequest req = true
    · rw [if_pos hb] at hs2
      have hq : 1 ≤ req.Quantity := by
        simp only [handler.bindStockOutRequest, decide_eq_true_eq] at hb
        exact hb.2.2
      have hs3 : currentStock ((Call.stockOut req userID username).apply env db).2 id
          = some s2 := by
        simp only [Call.apply]
        cases h : service.StockOut env db req userID username with
        | mk e db2 =>
          rw [h] at hs2
          cases e <;> exact hs2
      rcases Call.apply_stock env db _ id s s2 hs hs3 with
        h | ⟨_, product, hres, hp, hprep, h⟩
      · exact le_of_eq h
      · have hmem : ∃ p ∈ db.products, p.CurrentStock = s := by
          simp only [currentStock, Option.map_eq_some'] at hs
          obtain ⟨p, hp1, hp2⟩ := hs
          exact ⟨p, List.mem_of_find?_eq_some hp1, hp2⟩
        obtain ⟨p, hpm, hps⟩ := hmem
        have hr := hrange p hpm
        rw [hps] at hr
        unfold InIntRange MinInt MaxInt at hr
        have hguard : ¬ product.CurrentStock < req.Quantity := by
          intro hlt
          simp only [Call.prepare, Call.productID] at hprep hres
          simp [hres, if_pos hlt] at hprep
        rw [h]
        simp only [Call.plan]
        rw [wrapInt_eq_self ⟨by unfold MinInt; omega, by unfold MaxInt; omega⟩]
        omega
    · rw [if_neg hb, hs] at hs2
      exact le_of_eq (Option.some.inj hs2).symm
  · intro req userID username id s s2 hs hfit hs2
    unfold handler.StockIn at hs2
    by_cases hb : handler.bindStockInRequest req = true
    · rw [if_pos hb] at hs2
      have hq : 1 ≤ req.Quantity := by
        simp only [handler.bindStockInRequest, decide_eq_true_eq] at hb
        exact hb.2.2
      have hs3 : currentStock ((Call.stockIn req userID username).apply env db).2 id
          = some s2 := by
        simp only [Call.apply]
        cases h : service.StockIn env db req userID username with
        | mk e db2 =>
          rw [h] at hs2
          cases e <;> exact hs2
      rcases Call.apply_stock env db _ id s s2 hs hs3 with h | ⟨_, product, _, hp, _, h⟩
      · exact le_of_eq h.symm
      · have hmem : ∃ p ∈ db.products, p.CurrentStock = s := by
          simp only [currentStock, Option.map_eq_some'] at hs
          obtain ⟨p, hp1, hp2⟩ := hs
          exact ⟨p, List.mem_of_find?_eq_some hp1, hp2⟩
        obtain ⟨p, hpm, hps⟩ := hmem
        have hr := hrange p hpm
        rw [hps] at hr
        unfold InIntRange MinInt MaxInt at hr
        unfold MaxInt at hfit
        rw [h]
        simp only [Call.plan]
        rw [hp, wrapInt_eq_self ⟨by unfold MinInt; omega, by unfold MaxInt; omega⟩]
        omega
    · rw [if_neg hb, hs] at hs2
      exact le_of_eq (Option.some.inj hs2)

/-- Witness of C15: a stock-out of -5 sent to the handler. -/
theorem handler_quantity_guard_witness :
    handler.StockOut (quietEnv 200) (sampleStore 10) (sampleStockOut (-5)) 7 "amy"
      = (handler.Response.bindingError, sampleStore 10) :=
  ((handler_quantity_guard (quietEnv 200) (sampleStore 10) (by decide)).2.1
    (sampleStockOut (-5)) 7 "amy" (by decide)).1

/-- What `GetLowStockProducts` returns for a positive limit: at most `limit` rows,
each a live, active row with `min_stock > 0` and `current_stock ≤ min_stock`, in
ascending order of stock; together with the rows left out they are the qualifying
rows, and no row left out has a lower stock than a returned one. -/
theorem GetLowStockProducts_rows {F : Type} (env : Env) (db : Store F) (limit : Int)
    (result : List (models.Product F)) (hlimit : 0 < limit)
    (hres : repository.GetLowStockProducts env db limit = Except.ok result) :
    (result.length : Int) ≤ limit
    ∧ (∀ p ∈ result, p ∈ db.products ∧ p.DeletedAt = none ∧ p.Status = 1
        ∧ 0 < p.MinStock ∧ p.MinStock ≠ 0 ∧ p.CurrentStock ≤ p.MinStock)
    ∧ result.Pairwise (fun a b => a.CurrentStock ≤ b.CurrentStock)
    ∧ (∃ rest, (result ++ rest).Perm (db.products.filter isLowStock)
        ∧ ∀ p ∈ result, ∀ q ∈ rest, p.CurrentStock ≤ q.CurrentStock)
    ∧ (((db.products.filter isLowStock).length : Int) ≤ limit →
        result.Perm (db.products.filter isLowStock)) := by
  unfold repository.GetLowStockProducts at hres
  have hneg : ¬ limit < 0 := by omega
  cases hr : env.readErr
  · simp only [hr, Bool.false_eq_true, if_false, hneg, Except.ok.injEq] at hres
    have hperm := List.perm_insertionSort stockLE (db.products.filter isLowStock)
    have hsorted := List.sorted_insertionSort stockLE (db.products.filter isLowStock)
    have hsplit := List.take_append_drop limit.toNat
      ((db.products.filter isLowStock).insertionSort stockLE)
    rw [hres] at hsplit
    refine ⟨?_, ?_, ?_, ?_, ?_⟩
    · have h1 : result.length ≤ limit.toNat := by
        rw [← hres]
        exact List.length_take_le _ _
      omega
    · intro p hp
      have hp1 : p ∈ (db.products.filter isLowStock).insertionSort stockLE := by
        rw [← hsplit]
        exact List.mem_append_left _ hp
      have hp2 := (hperm.mem_iff).mp hp1
      rw [List.mem_filter] at hp2
      obtain ⟨hmem, hlow⟩ := hp2
      simp only [isLowStock, decide_eq_true_eq] at hlow
      exact ⟨hmem, hlow.2.2.2, hlow.2.2.1, hlow.2.1, ne_of_gt hlow.2.1, hlow.1⟩
    · have h2 : (result ++ List.drop limit.toNat
          ((db.products.filter isLowStock).insertionSort stockLE)).Pairwise stockLE := by
        rw [hsplit]
        exact hsorted
      exact (List.pairwise_append.mp h2).1
    · refine ⟨List.drop limit.toNat
        ((db.products.filter isLowStock).insertionSort stockLE), ?_, ?_⟩
      · rw [hsplit]
        exact hperm
      · have h2 : (result ++ List.drop limit.toNat
            ((db.products.filter isLowStock).insertionSort stockLE)).Pairwise stockLE := by
          rw [hsplit]
          exact hsorted
        exact (List.pairwise_append.mp h2).2.2
    · intro hle
      have hlen : ((db.products.filter isLowStock).insertionSort stockLE).length
          ≤ limit.toNat := by
        rw [hperm.length_eq]
        omega
      rw [← hres, List.take_of_length_le hlen]
      exact hperm
  · simp [hr] at hres

/-- C19. For a positive limit, `GetLowStockProducts` returns `limit` rows when more
than `limit` rows qualify and all qualifying rows otherwise (the number returned is
the smaller of `limit` and the number of qualifying rows); each returned row is a
live row of the table, active, with `min_stock > 0` (so never 0) and
`current_stock ≤ min_stock`; they are in ascending order of stock; together with
the rows left out they are exactly the qualifying rows, and no row left out has a
lower stock than a returned one, so the returned rows are the lowest-stock
qualifying rows. -/
theorem GetLowStockProducts_spec {F : Type} (env : Env) (db : Store F) (limit : Int)
    (result : List (models.Product F)) (hlimit : 0 < limit)
    (hres : repository.GetLowStockProducts env db limit = Except.ok result) :
    (result.length : Int) = min limit ((db.products.filter isLowStock).length : Int)
    ∧ (result.length : Int) ≤ limit
    ∧ (∀ p ∈ result, p ∈ db.products ∧ p.DeletedAt = none ∧ p.Status = 1
        ∧ 0 < p.MinStock ∧ p.MinStock ≠ 0 ∧ p.CurrentStock ≤ p.MinStock)
    ∧ result.Pairwise (fun a b => a.CurrentStock ≤ b.CurrentStock)
    ∧ (∃ rest, (result ++ rest).Perm (db.products.filter isLowStock)
        ∧ ∀ p ∈ result, ∀ q ∈ rest, p.CurrentStock ≤ q.CurrentStock)
    ∧ (((db.products.filter isLowStock).length : Int) ≤ limit →
        result.Perm (db.products.filter isLowStock)) := by
  have hrows := GetLowStockProducts_rows env db limit result hlimit hres
  refine ⟨?_, hrows⟩
  unfold repository.GetLowStockProducts at hres
  have hneg : ¬ limit < 0 := by omega
  cases hr : env.readErr
  · simp only [hr, Bool.false_eq_true, if_false, hneg, Except.ok.injEq] at hres
    have hperm := List.perm_insertionSort stockLE (db.products.filter isLowStock)
    rw [← hres, List.length_take, hperm.length_eq]
    omega
  · simp [hr] at hres

/-- Witness of C19: limit 1 on a store with two qualifying products (stocks 2 and
5), a minimum-0 product at stock 0, an inactive low product and a well-stocked one:
the one returned is the product with stock 2. -/
theorem GetLowStockProducts_spec_witness :
    repository.GetLowStockProducts (quietEnv 300) lowStockStore 1
        = Except.ok [{ sampleProduct 3 2 0 with MinStock := 4 }]
    ∧ (lowStockStore.products.filter isLowStock).length = 2
    ∧ ((([{ sampleProduct 3 2 0 with MinStock := 4 }] :
        List (models.Product ℚ)).length : Int)
      = min 1 ((lowStockStore.products.filter isLowStock).length : Int))
    ∧ ∃ rest, ([{ sampleProduct 3 2 0 with MinStock := 4 }] ++ rest).Perm
          (lowStockStore.products.filter isLowStock)
        ∧ ∀ p ∈ ([{ sampleProduct 3 2 0 with MinStock := 4 }] : List (models.Product ℚ)),
            ∀ q ∈ rest, p.CurrentStock ≤ q.CurrentStock :=
  have h := GetLowStockProducts_spec (quietEnv 300) lowStockStore 1
    [{ sampleProduct 3 2 0 with MinStock := 4 }] (by decide) rfl
  ⟨rfl, by decide, h.1, h.2.2.2.2.1⟩

/-- C20 (counterexample). Product 1 is active with stock 5 and minimum 10, yet it is
not in the result of `GetLowStockProducts`: twenty qualifying products with stock 0
fill the limit of 20. -/
theorem low_stock_listing_counterexample :
    GetProductByID (quietEnv 300) crowdedStore 1 = Except.ok (sampleProduct 1 5 15)
    ∧ (sampleProduct 1 5 15).CurrentStock = 5 ∧ (sampleProduct 1 5 15).MinStock = 10
    ∧ (sampleProduct 1 5 15).Status = 1
    ∧ ∃ result, service.GetLowStockProducts (quietEnv 300) crowdedStore = Except.ok result
        ∧ result.length = 20
        ∧ (result.all fun p => decide (p.ID ≠ 1 ∧ p.CurrentStock = 0)) = true :=
  ⟨rfl, rfl, rfl, rfl, _, rfl, by decide, by decide⟩

/-- C20 (amended). An active product with stock 5 and minimum stock 10 is in the
result of `GetLowStockProducts` whenever at most 20 products qualify as low stock;
and after a successful `StockIn` of 10 on it (stock 15) no row with its id is in
the result any more, however many products qualify. -/
theorem low_stock_listing {F : Type} [Float64Ops F] (env env2 : Env) (db : Store F)
    (product : models.Product F) (req : models.StockInRequest F) (operatorID : Nat)
    (operatorName : String) (result result2 : List (models.Product F))
    (hnodup : (db.products.map (fun p => p.ID)).Nodup)
    (hres : GetProductByID env db req.ProductID = Except.ok product)
    (hstock : product.CurrentStock = 5) (hmin : product.MinStock = 10)
    (hactive : product.Status = 1) (hquantity : req.Quantity = 10)
    (hok : (StockIn env db req operatorID operatorName).1 = none)
    (hlist : service.GetLowStockProducts env db = Except.ok result)
    (hlist2 : service.GetLowStockProducts env2
      (StockIn env db req operatorID operatorName).2 = Except.ok result2) :
    ((db.products.filter isLowStock).length ≤ 20 → product ∈ result)
    ∧ currentStock (StockIn env db req operatorID operatorName).2 req.ProductID = some 15
    ∧ ∀ p ∈ result2, p.ID ≠ req.ProductID := by
  obtain ⟨_, hmem, hid, hlive, _⟩ := GetProductByID_ok hres
  have hw : wrapInt (product.CurrentStock + req.Quantity) = 15 := by
    rw [hstock, hquantity]
    decide
  refine ⟨?_, ?_, ?_⟩
  · intro hcount
    have hspec := (GetLowStockProducts_rows env db 20 result (by decide) hlist).2.2.2.2
      (by exact_mod_cast hcount)
    rw [hspec.mem_iff, List.mem_filter]
    refine ⟨hmem, ?_⟩
    simp only [isLowStock, decide_eq_true_eq, hstock, hmin, hactive, hlive]
    decide
  · have happ := StockIn_resolved operatorID operatorName hres
    rw [happ, StockOperation_eq] at hok ⊢
    by_cases hf : env.updateErr = true ∨ env.createErr = true ∨ env.commitErr = true
    · simp [if_pos hf, commitResult] at hok
    · simp only [if_neg hf, commitResult, currentStock_applied, stockInRecord, if_true,
        currentStock_of_resolved hres, Option.map_some', hw]
  · intro p hp hpid
    have hspec := (GetLowStockProducts_rows env2 _ 20 result2 (by decide) hlist2).2.1 p hp
    obtain ⟨hpmem, hpl, hps, _, _, hple⟩ := hspec
    have happ := StockIn_resolved operatorID operatorName hres
    rw [happ, StockOperation_eq] at hok hpmem
    by_cases hf : env.updateErr = true ∨ env.createErr = true ∨ env.commitErr = true
    · simp [if_pos hf, commitResult] at hok
    · simp only [if_neg hf, commitResult, applied, List.mem_map] at hpmem
      obtain ⟨q, hq, hqp⟩ := hpmem
      have hqid : q.ID = product.ID := by
        rw [← hqp, setStock_ID] at hpid
        rw [hpid, hid]
      have hqe : q = product :=
        List.inj_on_of_nodup_map hnodup hq hmem hqid
      subst hqe
      rw [← hqp] at hple
      simp only [setStock, stockInRecord, hid, hlive, and_self, if_true, hw, hmin] at hple
      omega

/-- Witness of C20: product 1 with stock 5 and minimum 10, then a stock-in of 10. -/
theorem low_stock_listing_witness :
    sampleProduct 1 5 15 ∈ [{ sampleProduct 3 2 0 with MinStock := 4 }, sampleProduct 1 5 15]
    ∧ currentStock (StockIn (quietEnv 200) lowStockStore (sampleStockIn 10) 7 "amy").2 1
        = some 15
    ∧ ([{ sampleProduct 3 2 0 with MinStock := 4 }].all fun p => decide (p.ID ≠ 1)) = true :=
  have h := low_stock_listing (quietEnv 200) (quietEnv 300) lowStockStore
    (sampleProduct 1 5 15) (sampleStockIn 10) 7 "amy"
    [{ sampleProduct 3 2 0 with MinStock := 4 }, sampleProduct 1 5 15]
    [{ sampleProduct 3 2 0 with MinStock := 4 }]
    (by decide) rfl rfl rfl rfl rfl (by decide) rfl rfl
  ⟨h.1 (by decide), h.2.1, List.all_eq_true.mpr (fun p hp => decide_eq_true (h.2.2 p hp))⟩

/-- The filter of `ListInventoryRecords`, clause by clause. -/
theorem recordMatches_iff {F : Type} (keyword : String) (productID : Option Nat)
    (recordType : String) (startDate endDate : Option Nat)
    (r : models.InventoryRecord F) :
    recordMatches keyword productID recordType startDate endDate r = true ↔
      ((∀ id, productID = some id → 0 < id → r.ProductID = id)
      ∧ (recordType ≠ "" → r.Type_ = recordType)
      ∧ (∀ day, startDate = some day → day * nanosPerDay ≤ r.CreatedAt)
      ∧ (∀ day, endDate = some day →
          r.CreatedAt < day * nanosPerDay + 86399 * nanosPerSecond)
      ∧ (keyword ≠ "" → sqlLike ("%" ++ keyword ++ "%") r.ReferenceNo = true
          ∨ sqlLike ("%" ++ keyword ++ "%") r.Notes = true)) := by
  unfold recordMatches
  simp only [Bool.and_eq_true]
  have h1 : ((match productID with
      | some id => if 0 < id then decide (r.ProductID = id) else true
      | none => true) = true) ↔ (∀ id, productID = some id → 0 < id → r.ProductID = id) := by
    cases productID with
    | none => simp
    | some id =>
      by_cases hid : 0 < id
      · simp [hid]
      · simp only [if_neg hid, Option.some.injEq, true_iff]
        intro id2 h12 h0
        exact absurd (h12 ▸ h0) hid
  have h2 : ((if recordType ≠ "" then decide (r.Type_ = recordType) else true) = true)
      ↔ (recordType ≠ "" → r.Type_ = recordType) := by
    by_cases hr : recordType = ""
    · simp [hr]
    · simp [hr]
  have h3 : ((match startDate with
      | some day => notBeforeDayStart r.CreatedAt day
      | none => true) = true)
      ↔ (∀ day, startDate = some day → day * nanosPerDay ≤ r.CreatedAt) := by
    cases startDate with
    | none => simp
    | some day => simp [notBeforeDayStart]
  have h4 : ((match endDate with
      | some day => notAfterLastSecond r.CreatedAt day
      | none => true) = true)
      ↔ (∀ day, endDate = some day →
          r.CreatedAt < day * nanosPerDay + 86399 * nanosPerSecond) := by
    cases endDate with
    | none => simp
    | some day => simp [notAfterLastSecond]
  have h5 : ((if keyword ≠ "" then
        sqlLike ("%" ++ keyword ++ "%") r.ReferenceNo || sqlLike ("%" ++ keyword ++ "%") r.Notes
      else true) = true)
      ↔ (keyword ≠ "" → sqlLike ("%" ++ keyword ++ "%") r.ReferenceNo = true
          ∨ sqlLike ("%" ++ keyword ++ "%") r.Notes = true) := by
    by_cases hk : keyword = ""
    · simp [hk]
    · simp [hk]
  rw [h1, h2, h3, h4, h5]
  tauto

theorem localDay_ge_of_dayStart {t day : Nat} (h : day * nanosPerDay ≤ t) :
    day ≤ localDay t := by
  unfold localDay
  exact (Nat.le_div_iff_mul_le (by decide)).mpr h

theorem localDay_le_of_lastSecond {t day : Nat}
    (h : t < day * nanosPerDay + 86399 * nanosPerSecond) : localDay t ≤ day := by
  unfold localDay
  have h2 : t < (day + 1) * nanosPerDay := by
    unfold nanosPerDay nanosPerSecond at h ⊢
    omega
  exact Nat.le_of_lt_succ ((Nat.div_lt_iff_lt_mul (by decide)).mpr h2)

/-- What `ListInventoryRecords` returns on success. -/
theorem ListInventoryRecords_ok {F : Type} {env : Env} {db : Store F}
    {query : models.PaginationQuery} {productID : Option Nat} {recordType : String}
    {startDate endDate : Option Nat} {records : List (models.InventoryRecord F)}
    {total : Nat}
    (h : service.ListInventoryRecords env db query productID recordType startDate endDate
      = Except.ok (records, total)) :
    records = (((db.records.filter (recordMatches query.Keyword productID recordType
        startDate endDate)).insertionSort createdDesc).drop query.GetOffset.toNat).take
          query.normalized.PageSize.toNat
    ∧ total = (db.records.filter (recordMatches query.Keyword productID recordType
        startDate endDate)).length := by
  unfold service.ListInventoryRecords repository.ListInventoryRecords at h
  cases hr : env.readErr
  · simp only [hr, Bool.false_eq_true, if_false, Except.ok.injEq, Prod.mk.injEq] at h
    exact ⟨h.1.symm, h.2.symm⟩
  · simp [hr] at h

/-- C17 (counterexample). With the product id 0 supplied, the listing returns
entries of products 1 and 2; and with the keyword "po" it returns an entry whose
reference number "PO-2" and notes do not contain "po" as a substring. -/
theorem listing_filter_counterexample :
    (∃ records total, service.ListInventoryRecords (quietEnv 1) ledgerStore
        (sampleQuery 1 2 "") (some 0) "" none none = Except.ok (records, total)
      ∧ records.map (fun e => e.ProductID) = [2, 1] ∧ total = 5)
    ∧ (∃ records total, service.ListInventoryRecords (quietEnv 1) ledgerStore
        (sampleQuery 1 1 "po") none "" none (some 3) = Except.ok (records, total)
      ∧ records.map (fun e => (e.ReferenceNo, e.Notes)) = [("PO-2", "first delivery")])
    ∧ ¬ ("po".data <:+: "PO-2".data) ∧ ¬ ("po".data <:+: "first delivery".data) :=
  ⟨⟨_, _, rfl, by decide, by decide⟩, ⟨_, _, rfl, by decide⟩, by decide, by decide⟩

/-- C17 (amended). Every entry `ListInventoryRecords` returns is a stored entry that
passes each supplied filter: its product id is the given id when that id is
positive, its kind is exactly the given kind, its creation day lies between
`startDate` and `endDate` inclusive, and its reference number or notes match the
SQL pattern `%keyword%`.  Every stored entry that passes the filters and, when
`endDate` is given, was created before 23:59:59 of that day, is matched; without
any filter every stored entry is matched.  The total is the number of matched
entries and does not depend on page and page size. -/
theorem ListInventoryRecords_filters {F : Type} (env : Env) (db : Store F)
    (query : models.PaginationQuery) (productID : Option Nat) (recordType : String)
    (startDate endDate : Option Nat) (records : List (models.InventoryRecord F))
    (total : Nat)
    (h : service.ListInventoryRecords env db query productID recordType startDate endDate
      = Except.ok (records, total)) :
    (∀ e ∈ records, e ∈ db.records
      ∧ (∀ id, productID = some id → 0 < id → e.ProductID = id)
      ∧ (recordType ≠ "" → e.Type_ = recordType)
      ∧ (∀ day, startDate = some day → day ≤ localDay e.CreatedAt)
      ∧ (∀ day, endDate = some day → localDay e.CreatedAt ≤ day)
      ∧ (query.Keyword ≠ "" → sqlLike ("%" ++ query.Keyword ++ "%") e.ReferenceNo = true
          ∨ sqlLike ("%" ++ query.Keyword ++ "%") e.Notes = true))
    ∧ (∀ e ∈ db.records,
        (∀ id, productID = some id → 0 < id → e.ProductID = id) →
        (recordType ≠ "" → e.Type_ = recordType) →
        (∀ day, startDate = some day → day ≤ localDay e.CreatedAt) →
        (∀ day, endDate = some day →
          e.CreatedAt < day * nanosPerDay + 86399 * nanosPerSecond) →
        (query.Keyword ≠ "" → sqlLike ("%" ++ query.Keyword ++ "%") e.ReferenceNo = true
          ∨ sqlLike ("%" ++ query.Keyword ++ "%") e.Notes = true) →
        e ∈ db.records.filter
          (recordMatches query.Keyword productID recordType startDate endDate))
    ∧ total = (db.records.filter
        (recordMatches query.Keyword productID recordType startDate endDate)).length
    ∧ (productID = none → recordType = "" → startDate = none → endDate = none →
        query.Keyword = "" → total = db.records.length)
    ∧ (∀ (query2 : models.PaginationQuery) (records2 : List (models.InventoryRecord F))
        (total2 : Nat), query2.Keyword = query.Keyword →
        service.ListInventoryRecords env db query2 productID recordType startDate endDate
          = Except.ok (records2, total2) → total2 = total) := by
  obtain ⟨hrec, htot⟩ := ListInventoryRecords_ok h
  refine ⟨?_, ?_, htot, ?_, ?_⟩
  · intro e he
    rw [hrec] at he
    have he2 := (List.perm_insertionSort createdDesc _).mem_iff.mp
      (List.mem_of_mem_drop (List.mem_of_mem_take he))
    rw [List.mem_filter, recordMatches_iff] at he2
    obtain ⟨hmem, hp, ht, hs, hend, hk⟩ := he2
    exact ⟨hmem, hp, ht, fun day hd => localDay_ge_of_dayStart (hs day hd),
      fun day hd => localDay_le_of_lastSecond (hend day hd), hk⟩
  · intro e he hp ht hs hend hk
    rw [List.mem_filter, recordMatches_iff]
    refine ⟨he, hp, ht, fun day hd => ?_, hend, hk⟩
    have := hs day hd
    unfold localDay at this
    exact (Nat.le_div_iff_mul_le (by decide)).mp this
  · intro h1 h2 h3 h4 h5
    rw [htot]
    congr 1
    rw [List.filter_eq_self]
    intro e _
    rw [recordMatches_iff]
    subst h1 h2 h3 h4
    simp [h5]
  · intro query2 records2 total2 hkw h2
    obtain ⟨_, htot2⟩ := ListInventoryRecords_ok h2
    rw [htot2, htot, hkw]

/-- Witness of C17: entries of product 1 created on day 4, page size 1: the entry
stamped in the last second of the day is not matched, the total is 1. -/
theorem ListInventoryRecords_filters_witness :
    ([sampleRecord 3 1 "stock_out" (4 * nanosPerDay + 7) "SO-1" "sold"].all
        fun e => decide (e.ProductID = 1 ∧ localDay e.CreatedAt = 4)) = true
    ∧ (1 : Nat) = (ledgerStore.records.filter
        (recordMatches "" (some 1) "" (some 4) (some 4))).length :=
  have h := ListInventoryRecords_filters (quietEnv 1) ledgerStore (sampleQuery 1 1 "")
    (some 1) "" (some 4) (some 4)
    [sampleRecord 3 1 "stock_out" (4 * nanosPerDay + 7) "SO-1" "sold"] 1 rfl
  ⟨List.all_eq_true.mpr (fun e he => decide_eq_true
      ⟨(h.1 e he).2.1 1 rfl (by decide),
        le_antisymm ((h.1 e he).2.2.2.2.1 4 rfl) ((h.1 e he).2.2.2.1 4 rfl)⟩),
    h.2.2.1⟩

/-- A query whose page and page size are already in range is left as it is. -/
theorem normalized_of_inRange (page pageSize : Nat) (keyword : String)
    (status : Option Int) (hp : 1 ≤ page) (hs : 1 ≤ pageSize) (hs2 : pageSize ≤ 100) :
    ({ Page := page, PageSize := pageSize, Keyword := keyword, Status := status } :
        models.PaginationQuery).normalized
      = { Page := page, PageSize := pageSize, Keyword := keyword, Status := status } := by
  have h1 : ¬ ((page : Int) ≤ 0) := by omega
  have h2 : ¬ ((pageSize : Int) ≤ 0) := by omega
  have h3 : ¬ ((pageSize : Int) > 100) := by omega
  simp [models.PaginationQuery.normalized, h1, h2, h3]

/-- The offset of an in-range query is `(page - 1) * pageSize` when that fits. -/
theorem GetOffset_of_inRange (page pageSize : Nat) (keyword : String)
    (status : Option Int) (hp : 1 ≤ page) (hs : 1 ≤ pageSize) (hs2 : pageSize ≤ 100)
    (hfit : ((page : Int) - 1) * pageSize ≤ MaxInt) :
    ({ Page := page, PageSize := pageSize, Keyword := keyword, Status := status } :
        models.PaginationQuery).GetOffset.toNat = (page - 1) * pageSize := by
  unfold models.PaginationQuery.GetOffset
  rw [normalized_of_inRange page pageSize keyword status hp hs hs2]
  have hcast : ((page : Int) - 1) = ((page - 1 : Nat) : Int) := by
    rw [Nat.cast_sub hp]
    simp
  have hnn : (0 : Int) ≤ ((page - 1 : Nat) : Int) * (pageSize : Int) :=
    mul_nonneg (Int.natCast_nonneg _) (Int.natCast_nonneg _)
  have hle : ((page - 1 : Nat) : Int) ≤ ((page - 1 : Nat) : Int) * (pageSize : Int) :=
    le_mul_of_one_le_right (Int.natCast_nonneg _) (by exact_mod_cast hs)
  rw [hcast] at hfit
  have hw1 : wrapInt ((page : Int) - 1) = ((page - 1 : Nat) : Int) := by
    rw [hcast]
    exact wrapInt_eq_self ⟨by unfold MinInt; omega, le_trans hle hfit⟩
  simp only [hw1]
  rw [wrapInt_eq_self ⟨by unfold MinInt; omega, hfit⟩]
  exact_mod_cast Int.toNat_natCast ((page - 1) * pageSize)

theorem take_append_take_drop {α : Type} (l : List α) (a n : Nat) :
    (l.drop a).take n ++ (l.drop (a + n)).take n = (l.drop a).take (n + n) := by
  rw [List.take_add, List.drop_drop]

/-- C18 (counterexample). With page size 0 the listing returns five entries, more
than the page size; and with page 184467440737095517 and page size 100 the offset
`(page - 1) * pageSize` wraps to -16, so the first entries are returned although
the segment starting at that position is empty. -/
theorem listing_page_counterexample :
    (∃ records total, service.ListInventoryRecords (quietEnv 1) ledgerStore
        (sampleQuery 1 0 "") none "" none none = Except.ok (records, total)
      ∧ records.length = 5 ∧ ¬ ((records.length : Int) ≤ (sampleQuery 1 0 "").PageSize))
    ∧ (sampleQuery 184467440737095517 100 "").GetOffset = -16
    ∧ (∃ records total, service.ListInventoryRecords (quietEnv 1) ledgerStore
        (sampleQuery 184467440737095517 100 "") none "" none none
          = Except.ok (records, total)
      ∧ records.map (fun e => e.ID) = [5, 4, 3, 2, 1]
      ∧ (ledgerStore.records.drop ((184467440737095517 - 1) * 100)).take 100 = []) :=
  ⟨⟨_, _, rfl, by decide, by decide⟩, by decide, ⟨_, _, rfl, by decide, by decide⟩⟩

/-- C18 (amended). For a page ≥ 1 and a page size between 1 and 100 with
`(page - 1) * pageSize` within the Go `int` range, the returned page is the
segment from position `(page - 1) * pageSize` up to (not including)
`page * pageSize` of the matching entries sorted by creation time descending: it
is newest-first, has at most `pageSize` entries, and followed by the next page
it is the segment of twice the length, so consecutive pages neither overlap nor
skip an entry. -/
theorem ListInventoryRecords_page {F : Type} (env : Env) (db : Store F)
    (page pageSize : Nat) (keyword : String) (status : Option Int)
    (productID : Option Nat) (recordType : String) (startDate endDate : Option Nat)
    (records : List (models.InventoryRecord F)) (total : Nat)
    (hp : 1 ≤ page) (hs : 1 ≤ pageSize) (hs2 : pageSize ≤ 100)
    (hfit : ((page : Int) - 1) * pageSize ≤ MaxInt)
    (h : service.ListInventoryRecords env db
      { Page := page, PageSize := pageSize, Keyword := keyword, Status := status }
      productID recordType startDate endDate = Except.ok (records, total)) :
    (((db.records.filter (recordMatches keyword productID recordType startDate
        endDate)).insertionSort createdDesc).Perm
        (db.records.filter (recordMatches keyword productID recordType startDate endDate))
      ∧ ((db.records.filter (recordMatches keyword productID recordType startDate
        endDate)).insertionSort createdDesc).Pairwise (fun a b => b.CreatedAt ≤ a.CreatedAt))
    ∧ records = (((db.records.filter (recordMatches keyword productID recordType startDate
        endDate)).insertionSort createdDesc).drop ((page - 1) * pageSize)).take pageSize
    ∧ records.Pairwise (fun a b => b.CreatedAt ≤ a.CreatedAt)
    ∧ records.length ≤ pageSize
    ∧ (∀ (records2 : List (models.InventoryRecord F)) (total2 : Nat),
        ((page : Int) + 1 - 1) * pageSize ≤ MaxInt →
        service.ListInventoryRecords env db
          { Page := ((page + 1 : Nat) : Int), PageSize := pageSize, Keyword := keyword,
            Status := status }
          productID recordType startDate endDate = Except.ok (records2, total2) →
        records ++ records2
          = (((db.records.filter (recordMatches keyword productID recordType startDate
              endDate)).insertionSort createdDesc).drop ((page - 1) * pageSize)).take
                (pageSize + pageSize)) := by
  have hsorted := List.sorted_insertionSort createdDesc
    (db.records.filter (recordMatches keyword productID recordType startDate endDate))
  have hperm := List.perm_insertionSort createdDesc
    (db.records.filter (recordMatches keyword productID recordType startDate endDate))
  obtain ⟨hrec, _⟩ := ListInventoryRecords_ok h
  rw [GetOffset_of_inRange page pageSize keyword status hp hs hs2 hfit,
    normalized_of_inRange page pageSize keyword status hp hs hs2] at hrec
  simp only [Int.toNat_ofNat] at hrec
  refine ⟨⟨hperm, hsorted⟩, hrec, ?_, ?_, ?_⟩
  · rw [hrec]
    exact (hsorted.sublist (List.drop_sublist _ _)).sublist (List.take_sublist _ _)
  · rw [hrec]
    exact List.length_take_le _ _
  · intro records2 total2 hfit2 h2
    obtain ⟨hrec2, _⟩ := ListInventoryRecords_ok h2
    have hfit3 : (((page + 1 : Nat) : Int) - 1) * pageSize ≤ MaxInt := by
      push_cast
      exact hfit2
    rw [GetOffset_of_inRange (page + 1) pageSize keyword status (by omega) hs hs2 hfit3,
      normalized_of_inRange (page + 1) pageSize keyword status (by omega) hs hs2] at hrec2
    simp only [Int.toNat_ofNat, Nat.add_sub_cancel] at hrec2
    have hpos : page * pageSize = (page - 1) * pageSize + pageSize := by
      obtain ⟨k, rfl⟩ : ∃ k, page = k + 1 := ⟨page - 1, by omega⟩
      simp [Nat.succ_mul]
    rw [hrec, hrec2, hpos]
    exact take_append_take_drop _ _ _

/-- Witness of C18: pages 1 and 2 of size 2 over the five sample entries. -/
theorem ListInventoryRecords_page_witness :
    [sampleRecord 5 2 "stock_out" (5 * nanosPerDay + 1) "SO-2" "sold",
      sampleRecord 4 1 "adjust" (4 * nanosPerDay + 86399 * nanosPerSecond + 500000000) ""
        "recount"]
      = (((ledgerStore.records.filter (recordMatches "" none "" none none)).insertionSort
          createdDesc).drop ((1 - 1) * 2)).take 2 :=
  (ListInventoryRecords_page (quietEnv 1) ledgerStore 1 2 "" none none "" none none
    [sampleRecord 5 2 "stock_out" (5 * nanosPerDay + 1) "SO-2" "sold",
      sampleRecord 4 1 "adjust" (4 * nanosPerDay + 86399 * nanosPerSecond + 500000000) ""
        "recount"] 5 (by decide) (by decide) (by decide) (by decide) rfl).2.1

/-- C16 (counterexample). Two data-access paths write the current stock without
appending a ledger entry: `Repository.UpdateProductStock` and the whole-row
`Repository.UpdateProduct`. -/
theorem stock_write_paths_counterexample :
    (repository.UpdateProductStock (quietEnv 200) (sampleStore 10) 1 99).1 = none
    ∧ currentStock (sampleStore 10) 1 = some 10
    ∧ currentStock (repository.UpdateProductStock (quietEnv 200) (sampleStore 10) 1 99).2 1
        = some 99
    ∧ (repository.UpdateProductStock (quietEnv 200) (sampleStore 10) 1 99).2.records
        = (sampleStore 10).records
    ∧ currentStock (repository.UpdateProduct (quietEnv 200) (sampleStore 10)
        (sampleProduct 1 99 15)).2 1 = some 99
    ∧ (repository.UpdateProduct (quietEnv 200) (sampleStore 10)
        (sampleProduct 1 99 15)).2.records = (sampleStore 10).records := by
  refine ⟨?_, ?_, ?_, ?_, ?_, ?_⟩ <;> decide

/-- Saving a row that carries the id and the stock of a stored row leaves the list
of ids and stocks as it is. -/
theorem upsert_keeps_stocks {F : Type} (row product : models.Product F)
    (l : List (models.Product F)) (hmem : product ∈ l)
    (hnodup : (l.map (fun p => p.ID)).Nodup) (hid : row.ID = product.ID)
    (hstock : row.CurrentStock = product.CurrentStock) :
    (upsertBy (fun p => p.ID) row l).map (fun p => (p.ID, p.CurrentStock))
      = l.map (fun p => (p.ID, p.CurrentStock)) := by
  have hany : l.any (fun r => decide (r.ID = row.ID)) = true := by
    rw [List.any_eq_true]
    exact ⟨product, hmem, by simp [hid]⟩
  simp only [upsertBy, hany, if_true, List.map_map]
  apply List.map_congr_left
  intro r hr
  simp only [Function.comp]
  by_cases h : r.ID = row.ID
  · have hrp : r = product := List.inj_on_of_nodup_map hnodup hr hmem (h.trans hid)
    simp [h, hid, hstock, hrp]
  · simp [h]

/-- Stocks after `Repository.UpdateProduct` of a row that carries the id and the
stock of a stored row. -/
theorem repository_UpdateProduct_keeps_stocks {F : Type} (env : Env) (db : Store F)
    (row product : models.Product F) (category : Option models.Category)
    (supplier : Option models.Supplier) (hmem : product ∈ db.products)
    (hnodup : (db.products.map (fun p => p.ID)).Nodup) (hid : row.ID = product.ID)
    (hstock : row.CurrentStock = product.CurrentStock) :
    (crudResult (repository.UpdateProductWith env db row category supplier)).2.products.map
        (fun p => (p.ID, p.CurrentStock)) = db.products.map (fun p => (p.ID, p.CurrentStock))
    ∧ (crudResult (repository.UpdateProductWith env db row category supplier)).2.records
        = db.records := by
  unfold repository.UpdateProductWith
  by_cases hu : env.updateErr = true
  · simp [hu, crudResult]
  · by_cases hany : db.products.any (fun p => decide (p.ID ≠ row.ID ∧ p.SKU = row.SKU)) = true
    · simp only [hu, hany, if_true, if_false, crudResult]
      exact ⟨rfl, rfl⟩
    · by_cases hfk : repository.foreignKeysHold db
          (repository.savedRow env.now row category supplier) = false
      · simp only [hu, hany, hfk, if_true, if_false, crudResult]
        exact ⟨rfl, rfl⟩
      · simp only [hu, hany, hfk, if_false, crudResult]
        exact ⟨upsert_keeps_stocks _ product _ hmem hnodup hid hstock, rfl⟩

/-- Stocks after `Service.UpdateProduct`: the same ids with the same stocks. -/
theorem UpdateProduct_keeps_stocks {F : Type} (env : Env) (db : Store F) (id : Nat)
    (req : models.ProductRequest F) (hnodup : (db.products.map (fun p => p.ID)).Nodup) :
    (service.UpdateProduct env db id req).2.products.map (fun p => (p.ID, p.CurrentStock))
      = db.products.map (fun p => (p.ID, p.CurrentStock))
    ∧ (service.UpdateProduct env db id req).2.records = db.records := by
  unfold service.UpdateProduct
  cases hres : GetProductByID env db id with
  | error e => exact ⟨rfl, rfl⟩
  | ok product =>
    obtain ⟨_, hmem, _, _, _⟩ := GetProductByID_ok hres
    by_cases hsku : skuTaken env db id product.SKU req.SKU = true
    · simp [hsku]
    · simp only [hsku, if_false]
      apply repository_UpdateProduct_keeps_stocks env db _ product _ _ hmem hnodup
      · split <;> rfl
      · split <;> rfl

theorem crudResult_snd {F : Type} (r : Option DBError × Store F) :
    (crudResult r).2 = r.2 := by
  rcases r with ⟨_ | e, db⟩ <;> rfl

theorem deleteResult_snd {F : Type} (r : repository.DeleteOutcome × Store F) :
    (deleteResult r).2 = r.2 := by
  rcases r with ⟨_ | _ | _, db⟩ <;> rfl

theorem repository_CreateUser_frame {F : Type} (env : Env) (db : Store F) (user : models.User) :
    (repository.CreateUser env db user).2.products = db.products
    ∧ (repository.CreateUser env db user).2.records = db.records := by
  unfold repository.CreateUser
  repeat' split
  all_goals exact ⟨rfl, rfl⟩

theorem repository_UpdateUser_frame {F : Type} (env : Env) (db : Store F) (user : models.User) :
    (repository.UpdateUser env db user).2.products = db.products
    ∧ (repository.UpdateUser env db user).2.records = db.records := by
  unfold repository.UpdateUser
  repeat' split
  all_goals exact ⟨rfl, rfl⟩

theorem repository_CreateCategory_frame {F : Type} (env : Env) (db : Store F) (cat : models.Category) :
    (repository.CreateCategory env db cat).2.products = db.products
    ∧ (repository.CreateCategory env db cat).2.records = db.records := by
  unfold repository.CreateCategory
  repeat' split
  all_goals exact ⟨rfl, rfl⟩

theorem repository_UpdateCategory_frame {F : Type} (env : Env) (db : Store F) (cat : models.Category) :
    (repository.UpdateCategory env db cat).2.products = db.products
    ∧ (repository.UpdateCategory env db cat).2.records = db.records := by
  unfold repository.UpdateCategory
  repeat' split
  all_goals exact ⟨rfl, rfl⟩

theorem repository_DeleteCategory_frame {F : Type} (env : Env) (db : Store F) (id : Nat) :
    (repository.DeleteCategory env db id).2.products = db.products
    ∧ (repository.DeleteCategory env db id).2.records = db.records := by
  unfold repository.DeleteCategory
  repeat' split
  all_goals exact ⟨rfl, rfl⟩

theorem repository_CreateSupplier_frame {F : Type} (env : Env) (db : Store F) (sup : models.Supplier) :
    (repository.CreateSupplier env db sup).2.products = db.products
    ∧ (repository.CreateSupplier env db sup).2.records = db.records := by
  unfold repository.CreateSupplier
  repeat' split
  all_goals exact ⟨rfl, rfl⟩

theorem repository_UpdateSupplier_frame {F : Type} (env : Env) (db : Store F) (sup : models.Supplier) :
    (repository.UpdateSupplier env db sup).2.products = db.products
    ∧ (repository.UpdateSupplier env db sup).2.records = db.records := by
  unfold repository.UpdateSupplier
  repeat' split
  all_goals exact ⟨rfl, rfl⟩

theorem repository_DeleteSupplier_frame {F : Type} (env : Env) (db : Store F) (id : Nat) :
    (repository.DeleteSupplier env db id).2.products = db.products
    ∧ (repository.DeleteSupplier env db id).2.records = db.records := by
  unfold repository.DeleteSupplier
  repeat' split
  all_goals exact ⟨rfl, rfl⟩

/-- The service methods on users, categories and suppliers write neither the
product table nor the ledger. -/
theorem OtherCall.apply_keeps_products {F : Type} (crypto : Crypto) (env : Env)
    (db : Store F) (call : OtherCall F)
    (hother : ∀ req, call ≠ OtherCall.createProduct req)
    (hother2 : ∀ id req, call ≠ OtherCall.updateProduct id req)
    (hother3 : ∀ id, call ≠ OtherCall.deleteProduct id) :
    (call.apply crypto env db).2.products = db.products
    ∧ (call.apply crypto env db).2.records = db.records := by
  cases call with
  | register req =>
    simp only [OtherCall.apply, service.Register]
    repeat' split
    all_goals first
      | exact ⟨rfl, rfl⟩
      | (rw [crudResult_snd]; exact repository_CreateUser_frame env db _)
  | updateProfile userID req =>
    simp only [OtherCall.apply, service.UpdateProfile]
    repeat' split
    all_goals first
      | exact ⟨rfl, rfl⟩
      | (rw [crudResult_snd]; exact repository_UpdateUser_frame env db _)
  | changePassword userID req =>
    simp only [OtherCall.apply, service.ChangePassword]
    repeat' split
    all_goals first
      | exact ⟨rfl, rfl⟩
      | (rw [crudResult_snd]; exact repository_UpdateUser_frame env db _)
  | createCategory req =>
    simp only [OtherCall.apply, service.CreateCategory]
    repeat' split
    all_goals first
      | exact ⟨rfl, rfl⟩
      | (rw [crudResult_snd]; exact repository_CreateCategory_frame env db _)
  | updateCategory id req =>
    simp only [OtherCall.apply, service.UpdateCategory]
    repeat' split
    all_goals first
      | exact ⟨rfl, rfl⟩
      | (rw [crudResult_snd]; exact repository_UpdateCategory_frame env db _)
  | deleteCategory id =>
    simp only [OtherCall.apply, service.DeleteCategory]
    first
      | exact ⟨rfl, rfl⟩
      | (rw [deleteResult_snd]; exact repository_DeleteCategory_frame env db _)
  | createSupplier req =>
    simp only [OtherCall.apply, service.CreateSupplier]
    repeat' split
    all_goals first
      | exact ⟨rfl, rfl⟩
      | (rw [crudResult_snd]; exact repository_CreateSupplier_frame env db _)
  | updateSupplier id req =>
    simp only [OtherCall.apply, service.UpdateSupplier]
    repeat' split
    all_goals first
      | exact ⟨rfl, rfl⟩
      | (rw [crudResult_snd]; exact repository_UpdateSupplier_frame env db _)
  | deleteSupplier id =>
    simp only [OtherCall.apply, service.DeleteSupplier]
    first
      | exact ⟨rfl, rfl⟩
      | (rw [deleteResult_snd]; exact repository_DeleteSupplier_frame env db _)
  | createProduct req => exact absurd rfl (hother req)
  | updateProduct id req => exact absurd rfl (hother2 id req)
  | deleteProduct id => exact absurd rfl (hother3 id)

/-- Stocks after `Repository.CreateProduct`: the old rows, possibly followed by
the new row. -/
theorem repository_CreateProduct_stocks {F : Type} (env : Env) (db : Store F)
    (product : models.Product F) :
    db.products.map (fun p => (p.ID, p.CurrentStock))
      <+: (repository.CreateProduct env db product).2.products.map
        (fun p => (p.ID, p.CurrentStock))
    ∧ (repository.CreateProduct env db product).2.records = db.records := by
  unfold repository.CreateProduct
  by_cases hc : env.createErr = true
  · rw [if_pos hc]
    exact ⟨List.prefix_refl _, rfl⟩
  · by_cases hany : db.products.any (fun p => decide (p.SKU = product.SKU)) = true
    · rw [if_neg hc, if_pos hany]
      exact ⟨List.prefix_refl _, rfl⟩
    · by_cases hfk : repository.foreignKeysHold db product = false
      · rw [if_neg hc, if_neg hany, if_pos hfk]
        exact ⟨List.prefix_refl _, rfl⟩
      · rw [if_neg hc, if_neg hany, if_neg hfk]
        refine ⟨?_, rfl⟩
        simp only [List.map_append]
        exact List.prefix_append _ _

/-- Stocks after `Service.CreateProduct`: the old rows, possibly followed by the
new row. -/
theorem CreateProduct_keeps_stocks {F : Type} (env : Env) (db : Store F)
    (req : models.ProductRequest F) :
    db.products.map (fun p => (p.ID, p.CurrentStock))
      <+: (service.CreateProduct env db req).2.products.map (fun p => (p.ID, p.CurrentStock))
    ∧ (service.CreateProduct env db req).2.records = db.records := by
  unfold service.CreateProduct
  cases GetProductBySKU env db req.SKU with
  | ok existing => exact ⟨List.prefix_refl _, rfl⟩
  | error e =>
    simp only [crudResult_snd]
    exact repository_CreateProduct_stocks env db _

/-- Stocks after `Service.DeleteProduct`: the same ids with the same stocks. -/
theorem DeleteProduct_keeps_stocks {F : Type} (env : Env) (db : Store F) (id : Nat) :
    (service.DeleteProduct env db id).2.products.map (fun p => (p.ID, p.CurrentStock))
      = db.products.map (fun p => (p.ID, p.CurrentStock))
    ∧ (service.DeleteProduct env db id).2.records = db.records := by
  unfold service.DeleteProduct
  simp only [crudResult_snd]
  unfold repository.DeleteProduct
  split
  · exact ⟨rfl, rfl⟩
  · refine ⟨?_, rfl⟩
    simp only [List.map_map]
    apply List.map_congr_left
    intro p _
    simp only [Function.comp]
    split <;> rfl

/-- C16 (amended). Every service method that writes to the database, other than
`StockIn`, `StockOut` and `StockAdjust`, leaves the ledger as it is and leaves
every product row with its id and its current stock (a created product is added
behind them); in particular after `UpdateProduct`, for every request, the product
resolves with the current stock it had before. -/
theorem other_calls_keep_stock {F : Type} (crypto : Crypto) (env : Env) (db : Store F)
    (call : OtherCall F) (hnodup : (db.products.map (fun p => p.ID)).Nodup) :
    db.products.map (fun p => (p.ID, p.CurrentStock))
      <+: (call.apply crypto env db).2.products.map (fun p => (p.ID, p.CurrentStock))
    ∧ (call.apply crypto env db).2.records = db.records
    ∧ (∀ (id : Nat) (req : models.ProductRequest F) (env2 : Env)
        (product product2 : models.Product F),
        GetProductByID env db id = Except.ok product →
        GetProductByID env2 (service.UpdateProduct env db id req).2 id = Except.ok product2 →
        product2.CurrentStock = product.CurrentStock) := by
  refine ⟨?_, ?_, ?_⟩
  · cases call with
    | createProduct req => exact (CreateProduct_keeps_stocks env db req).1
    | updateProduct id req =>
      simp only [OtherCall.apply, (UpdateProduct_keeps_stocks env db id req hnodup).1]
      exact List.prefix_refl _
    | deleteProduct id =>
      simp only [OtherCall.apply, (DeleteProduct_keeps_stocks env db id).1]
      exact List.prefix_refl _
    | _ =>
      rw [(OtherCall.apply_keeps_products crypto env db _ (by intro _ h; cases h)
        (by intro _ _ h; cases h) (by intro _ h; cases h)).1]
  · cases call with
    | createProduct req => exact (CreateProduct_keeps_stocks env db req).2
    | updateProduct id req => exact (UpdateProduct_keeps_stocks env db id req hnodup).2
    | deleteProduct id => exact (DeleteProduct_keeps_stocks env db id).2
    | _ =>
      exact (OtherCall.apply_keeps_products crypto env db _ (by intro _ h; cases h)
        (by intro _ _ h; cases h) (by intro _ h; cases h)).2
  · intro id req env2 product product2 hres hres2
    obtain ⟨_, hmem, hid, _, _⟩ := GetProductByID_ok hres
    obtain ⟨_, hmem2, hid2, _, _⟩ := GetProductByID_ok hres2
    have hmap := (UpdateProduct_keeps_stocks env db id req hnodup).1
    have h2 : (product2.ID, product2.CurrentStock)
        ∈ db.products.map (fun p => (p.ID, p.CurrentStock)) := by
      rw [← hmap]
      exact List.mem_map_of_mem _ hmem2
    rw [List.mem_map] at h2
    obtain ⟨q, hq, hqe⟩ := h2
    simp only [Prod.mk.injEq] at hqe
    have hqp : q = product :=
      List.inj_on_of_nodup_map hnodup hq hmem (by rw [hqe.1, hid2, hid])
    rw [← hqe.2, hqp]

/-- Witness of C16: an update of product 1 that renames it and moves its
thresholds keeps its stock of 10. -/
theorem other_calls_keep_stock_witness :
    (service.UpdateProduct (quietEnv 200) (sampleStore 10) 1 sampleProductRequest).1 = none
    ∧ (sampleStore 10).products.map (fun p => (p.ID, p.CurrentStock))
      <+: (service.UpdateProduct (quietEnv 200) (sampleStore 10) 1
        sampleProductRequest).2.products.map (fun p => (p.ID, p.CurrentStock)) :=
  ⟨by decide, (other_calls_keep_stock sampleCrypto (quietEnv 200) (sampleStore 10)
    (OtherCall.updateProduct 1 sampleProductRequest) (by decide)).1⟩

/-- The outcome of a lookup depends on the environment only through the read
fault. -/
theorem GetProductByID_env {F : Type} (env1 env2 : Env) (db : Store F) (id : Nat)
    (h : env1.readErr = env2.readErr) :
    GetProductByID env1 db id = GetProductByID env2 db id := by
  unfold GetProductByID
  rw [h]

/-- Without database faults `Service.StockIn` on a product that resolves applies
both writes. -/
theorem StockIn_quiet {F : Type} [Float64Ops F] {env : Env} {db : Store F}
    {req : models.StockInRequest F} {product : models.Product F}
    (operatorID : Nat) (operatorName : String) (hquiet : env.Quiet)
    (hres : GetProductByID env db req.ProductID = Except.ok product) :
    StockIn env db req operatorID operatorName
      = (none, applied env db (stockInRecord req product operatorID operatorName)
          (wrapInt (product.CurrentStock + req.Quantity))) := by
  rw [StockIn_resolved operatorID operatorName hres, StockOperation_quiet env hquiet]
  rfl

/-- Without database faults `Service.StockOut` on a product that resolves with
enough stock applies both writes. -/
theorem StockOut_quiet {F : Type} [Float64Ops F] {env : Env} {db : Store F}
    {req : models.StockOutRequest} {product : models.Product F}
    (operatorID : Nat) (operatorName : String) (hquiet : env.Quiet)
    (hres : GetProductByID env db req.ProductID = Except.ok product)
    (henough : ¬ product.CurrentStock < req.Quantity) :
    StockOut env db req operatorID operatorName
      = (none, applied env db (stockOutRecord req product operatorID operatorName)
          (wrapInt (product.CurrentStock - req.Quantity))) := by
  rw [StockOut_resolved operatorID operatorName hres, if_neg henough,
    StockOperation_quiet env hquiet]
  rfl

/-- Without database faults `Service.StockAdjust` on a product that resolves
applies both writes. -/
theorem StockAdjust_quiet {F : Type} [Float64Ops F] {env : Env} {db : Store F}
    {req : models.StockAdjustRequest} {product : models.Product F}
    (operatorID : Nat) (operatorName : String) (hquiet : env.Quiet)
    (hres : GetProductByID env db req.ProductID = Except.ok product) :
    StockAdjust env db req operatorID operatorName
      = (none, applied env db (stockAdjustRecord req product operatorID operatorName)
          req.NewQuantity) := by
  rw [StockAdjust_resolved operatorID operatorName hres, StockOperation_quiet env hquiet]
  rfl

/-- C25. For stock levels `a, b ≥ 0` (Go `int`s) the quantity `StockAdjust` records
for an adjustment from `a` to `b` equals the one it records from `b` to `a`, both
being `|b - a|`; and when no database call fails, adjusting a product that resolves
with stock `a` to `b` and then back to `a` succeeds twice, appends the two entries
`(adjust, |b - a|, before a, after b)` and `(adjust, |b - a|, before b, after a)`
and leaves the product with stock `a`. -/
theorem StockAdjust_symmetric {F : Type} [Float64Ops F] (env1 env2 : Env) (db : Store F)
    (there back : models.StockAdjustRequest) (operatorID : Nat) (operatorName : String)
    (product : models.Product F) (hquiet1 : env1.Quiet) (hquiet2 : env2.Quiet)
    (hres : GetProductByID env1 db there.ProductID = Except.ok product)
    (hsame : back.ProductID = there.ProductID)
    (hback : back.NewQuantity = product.CurrentStock)
    (ha : 0 ≤ product.CurrentStock) (ha2 : product.CurrentStock ≤ MaxInt)
    (hb : 0 ≤ there.NewQuantity) (hb2 : there.NewQuantity ≤ MaxInt) :
    adjustQuantity there.NewQuantity product.CurrentStock
        = adjustQuantity product.CurrentStock there.NewQuantity
    ∧ (StockAdjust env1 db there operatorID operatorName).1 = none
    ∧ (StockAdjust env2 (StockAdjust env1 db there operatorID operatorName).2 back
        operatorID operatorName).1 = none
    ∧ ((StockAdjust env2 (StockAdjust env1 db there operatorID operatorName).2 back
        operatorID operatorName).2.records.map
          fun r => (r.Type_, r.Quantity, r.BeforeQty, r.AfterQty))
        = (db.records.map fun r => (r.Type_, r.Quantity, r.BeforeQty, r.AfterQty)) ++
          [("adjust", |there.NewQuantity - product.CurrentStock|,
              product.CurrentStock, there.NewQuantity),
            ("adjust", |there.NewQuantity - product.CurrentStock|,
              there.NewQuantity, product.CurrentStock)]
    ∧ GetProductByID env2 (StockAdjust env2
        (StockAdjust env1 db there operatorID operatorName).2 back
        operatorID operatorName).2 there.ProductID
        = Except.ok { product with UpdatedAt := env2.now } := by
  have hmax : MaxInt = 9223372036854775807 := rfl
  have hmin : MinInt = -9223372036854775808 := rfl
  have hq1 : adjustQuantity there.NewQuantity product.CurrentStock
      = |there.NewQuantity - product.CurrentStock| :=
    adjustQuantity_eq_abs (by omega) (by omega)
  have hq2 : adjustQuantity product.CurrentStock there.NewQuantity
      = |there.NewQuantity - product.CurrentStock| := by
    rw [adjustQuantity_eq_abs (by omega) (by omega), abs_sub_comm]
  have hfirst := StockAdjust_quiet operatorID operatorName hquiet1 hres
  have hget1 := GetProductByID_applied
    (stockAdjustRecord there product operatorID operatorName) there.NewQuantity hres
  have hget2 : GetProductByID env2
      (applied env1 db (stockAdjustRecord there product operatorID operatorName)
        there.NewQuantity) back.ProductID
      = Except.ok { product with CurrentStock := there.NewQuantity, UpdatedAt := env1.now } := by
    rw [hsame, GetProductByID_env env2 env1 _ _ (hquiet2.1.trans hquiet1.1.symm)]
    exact hget1
  have hsecond := StockAdjust_quiet operatorID operatorName hquiet2 hget2
  have hget3 := GetProductByID_applied
    (stockAdjustRecord back
      { product with CurrentStock := there.NewQuantity, UpdatedAt := env1.now }
      operatorID operatorName) back.NewQuantity hget2
  rw [hfirst, hsecond]
  refine ⟨hq1.trans hq2.symm, rfl, rfl, ?_, ?_⟩
  · simp [applied, stampRecord, stockAdjustRecord, models.StockAdjust, hq1, hback, hq2]
  · have h := hget3
    simp only [stockAdjustRecord, hsame, hback] at h
    simpa [stockAdjustRecord, hsame, hback] using h

/-- Witness of C25: a stock of 10 adjusted to 4 and back to 10. -/
theorem StockAdjust_symmetric_witness :
    adjustQuantity 4 10 = adjustQuantity 10 4
    ∧ ((StockAdjust (quietEnv 300) (StockAdjust (quietEnv 200) (sampleStore 10)
          (sampleStockAdjust 4) 7 "amy").2 (sampleStockAdjust 10) 7 "amy").2.records.map
          fun r => (r.Type_, r.Quantity, r.BeforeQty, r.AfterQty))
        = [("adjust", |(4 : Int) - 10|, 10, 4), ("adjust", |(4 : Int) - 10|, 4, 10)]
    ∧ GetProductByID (quietEnv 300) (StockAdjust (quietEnv 300)
        (StockAdjust (quietEnv 200) (sampleStore 10) (sampleStockAdjust 4) 7 "amy").2
        (sampleStockAdjust 10) 7 "amy").2 1
        = Except.ok { sampleProduct 1 10 15 with UpdatedAt := 300 } :=
  have h := StockAdjust_symmetric (quietEnv 200) (quietEnv 300) (sampleStore 10)
    (sampleStockAdjust 4) (sampleStockAdjust 10) 7 "amy" (sampleProduct 1 10 15)
    (by decide) (by decide) rfl rfl rfl (by decide) (by decide) (by decide) (by decide)
  ⟨h.1, h.2.2.2.1, h.2.2.2.2⟩

/-- A `Service.StockIn` that succeeds on a product that resolves met no database
fault. -/
theorem StockIn_success_quiet {F : Type} [Float64Ops F] {env : Env} {db : Store F}
    {req : models.StockInRequest F} {product : models.Product F}
    (operatorID : Nat) (operatorName : String)
    (hres : GetProductByID env db req.ProductID = Except.ok product)
    (hsucc : (StockIn env db req operatorID operatorName).1 = none) : env.Quiet := by
  have hr := (GetProductByID_ok hres).1
  rw [StockIn_resolved operatorID operatorName hres, StockOperation_eq] at hsucc
  by_cases hf : env.updateErr = true ∨ env.createErr = true ∨ env.commitErr = true
  · rw [if_pos hf] at hsucc
    simp [commitResult] at hsucc
  · simp only [not_or, Bool.not_eq_true] at hf
    exact ⟨hr, hf.1, hf.2.1, hf.2.2⟩

/-- C30 (counterexample). On a product holding the largest Go `int` a `StockIn` of
1 succeeds and leaves the smallest `int` as stock, so the `StockOut` of 1 that
follows is refused for insufficient stock. -/
theorem round_trip_counterexample :
    GetProductByID (quietEnv 200) (sampleStore MaxInt) 1
        = Except.ok (sampleProduct 1 MaxInt 15)
    ∧ (StockIn (quietEnv 200) (sampleStore MaxInt) (sampleStockIn 1) 7 "amy").1 = none
    ∧ (StockOut (quietEnv 300)
        (StockIn (quietEnv 200) (sampleStore MaxInt) (sampleStockIn 1) 7 "amy").2
        (sampleStockOut 1) 7 "amy").1
        = some (ServiceError.insufficientStock MinInt 1) := by
  refine ⟨rfl, ?_, ?_⟩ <;> decide

/-- C30 (amended). For a product that resolves with stock `s ≥ 0` and a quantity
`q > 0` such that `s + q` still fits a Go `int`, a `StockIn` of `q` that succeeds,
followed by a `StockOut` of `q` during which no database call fails, is followed by
success of the `StockOut`; the ledger has grown by exactly the two entries
`(stock_in, q, before s, after s + q)` and `(stock_out, q, before s + q, after s)`,
in this order, and the product has stock `s` again. -/
theorem StockIn_StockOut_round_trip {F : Type} [Float64Ops F] (env1 env2 : Env)
    (db : Store F) (into : models.StockInRequest F) (out : models.StockOutRequest)
    (operatorID : Nat) (operatorName : String) (product : models.Product F)
    (hres : GetProductByID env1 db into.ProductID = Except.ok product)
    (hsucc : (StockIn env1 db into operatorID operatorName).1 = none)
    (hquiet2 : env2.Quiet)
    (hsame : out.ProductID = into.ProductID) (hqty : out.Quantity = into.Quantity)
    (hs : 0 ≤ product.CurrentStock) (hq : 0 < into.Quantity)
    (hfit : product.CurrentStock + into.Quantity ≤ MaxInt) :
    (StockOut env2 (StockIn env1 db into operatorID operatorName).2 out
        operatorID operatorName).1 = none
    ∧ ((StockOut env2 (StockIn env1 db into operatorID operatorName).2 out
        operatorID operatorName).2.records.map
          fun r => (r.Type_, r.Quantity, r.BeforeQty, r.AfterQty))
        = (db.records.map fun r => (r.Type_, r.Quantity, r.BeforeQty, r.AfterQty)) ++
          [("stock_in", into.Quantity, product.CurrentStock,
              product.CurrentStock + into.Quantity),
            ("stock_out", into.Quantity, product.CurrentStock + into.Quantity,
              product.CurrentStock)]
    ∧ GetProductByID env2 (StockOut env2
        (StockIn env1 db into operatorID operatorName).2 out
        operatorID operatorName).2 into.ProductID
        = Except.ok { product with UpdatedAt := env2.now } := by
  have hquiet1 := StockIn_success_quiet operatorID operatorName hres hsucc
  have hmin : MinInt = -9223372036854775808 := rfl
  have hw1 : wrapInt (product.CurrentStock + into.Quantity)
      = product.CurrentStock + into.Quantity :=
    wrapInt_eq_self ⟨by omega, hfit⟩
  have hw2 : wrapInt (product.CurrentStock + into.Quantity - into.Quantity)
      = product.CurrentStock := by
    rw [add_sub_cancel_right]
    exact wrapInt_eq_self ⟨by omega, by omega⟩
  have hw3 : wrapInt product.CurrentStock = product.CurrentStock :=
    wrapInt_eq_self ⟨by omega, by omega⟩
  have hfirst := StockIn_quiet operatorID operatorName hquiet1 hres
  have hget1 := GetProductByID_applied
    (stockInRecord into product operatorID operatorName)
    (wrapInt (product.CurrentStock + into.Quantity)) hres
  have hget2 : GetProductByID env2
      (applied env1 db (stockInRecord into product operatorID operatorName)
        (wrapInt (product.CurrentStock + into.Quantity))) out.ProductID
      = Except.ok { product with
          CurrentStock := wrapInt (product.CurrentStock + into.Quantity),
          UpdatedAt := env1.now } := by
    rw [hsame, GetProductByID_env env2 env1 _ _ (hquiet2.1.trans hquiet1.1.symm)]
    exact hget1
  have henough : ¬ wrapInt (product.CurrentStock + into.Quantity) < out.Quantity := by
    rw [hw1, hqty]
    omega
  have hsecond := StockOut_quiet operatorID operatorName hquiet2 hget2 henough
  have hget3 := GetProductByID_applied
    (stockOutRecord out
      { product with CurrentStock := wrapInt (product.CurrentStock + into.Quantity),
                     UpdatedAt := env1.now }
      operatorID operatorName)
    (wrapInt (wrapInt (product.CurrentStock + into.Quantity) - out.Quantity)) hget2
  rw [hfirst, hsecond]
  refine ⟨rfl, ?_, ?_⟩
  · simp [applied, stampRecord, stockInRecord, stockOutRecord, models.StockIn,
      models.StockOut, hw1, hqty, hw2, hw3]
  · have h := hget3
    simp only [stockOutRecord, hsame, hqty, hw1, hw2] at h
    simpa [stockOutRecord, hsame, hqty, hw1, hw2, hw3] using h

/-- Witness of C30: 5 units in and 5 units out on a product holding 10. -/
theorem StockIn_StockOut_round_trip_witness :
    (StockOut (quietEnv 300)
        (StockIn (quietEnv 200) (sampleStore 10) (sampleStockIn 5) 7 "amy").2
        (sampleStockOut 5) 7 "amy").1 = none
    ∧ ((StockOut (quietEnv 300)
        (StockIn (quietEnv 200) (sampleStore 10) (sampleStockIn 5) 7 "amy").2
        (sampleStockOut 5) 7 "amy").2.records.map
          fun r => (r.Type_, r.Quantity, r.BeforeQty, r.AfterQty))
        = [("stock_in", 5, 10, 10 + 5), ("stock_out", 5, 10 + 5, 10)]
    ∧ GetProductByID (quietEnv 300) (StockOut (quietEnv 300)
        (StockIn (quietEnv 200) (sampleStore 10) (sampleStockIn 5) 7 "amy").2
        (sampleStockOut 5) 7 "amy").2 1
        = Except.ok { sampleProduct 1 10 15 with UpdatedAt := 300 } :=
  StockIn_StockOut_round_trip (quietEnv 200) (quietEnv 300) (sampleStore 10)
    (sampleStockIn 5) (sampleStockOut 5) 7 "amy" (sampleProduct 1 10 15)
    rfl (by decide) (by decide) rfl rfl (by decide) (by decide) (by decide)

/-- C26 (code evaluated at the failing input). The tag `required,min=0` of
`new_quantity` makes the `StockAdjust` handler refuse every request with
`new_quantity = 0` as a binding error (status 400) without touching the store: the
request that is to set the stock of product 1 from 10 to zero leaves the stock at
10 and the ledger empty, although the service method called directly would accept
it, set the stock to 0 and record the quantity 10. -/
theorem StockAdjust_zero_refused :
    (∀ (env : Env) (db : Store ℚ) (productID : Nat) (notes : String) (userID : Nat)
        (username : String),
        handler.StockAdjust env db
          { ProductID := productID, NewQuantity := 0, Notes := notes } userID username
          = (handler.Response.bindingError, db))
    ∧ (handler.StockAdjust (quietEnv 200) (sampleStore 10) (sampleStockAdjust 0) 7
        "amy").1.code = 400
    ∧ currentStock (handler.StockAdjust (quietEnv 200) (sampleStore 10)
        (sampleStockAdjust 0) 7 "amy").2 1 = some 10
    ∧ (handler.StockAdjust (quietEnv 200) (sampleStore 10) (sampleStockAdjust 0) 7
        "amy").2.records = []
    ∧ (service.StockAdjust (quietEnv 200) (sampleStore 10) (sampleStockAdjust 0) 7
        "amy").1 = none
    ∧ currentStock (service.StockAdjust (quietEnv 200) (sampleStore 10)
        (sampleStockAdjust 0) 7 "amy").2 1 = some 0
    ∧ (service.StockAdjust (quietEnv 200) (sampleStore 10) (sampleStockAdjust 0) 7
        "amy").2.records.map (fun r => r.Quantity) = [10]
    ∧ (handler.StockAdjust (quietEnv 200) (sampleStore 10) (sampleStockAdjust 1) 7
        "amy").1 = handler.Response.success
    ∧ (handler.StockAdjust (quietEnv 200) (sampleStore 10) (sampleStockAdjust (-1)) 7
        "amy").1 = handler.Response.bindingError := by
  refine ⟨?_, ?_, ?_, ?_, ?_, ?_, ?_, ?_, ?_⟩
  · intro env db productID notes userID username
    simp [handler.StockAdjust, handler.bindStockAdjustRequest]
  all_goals decide

/-- A filtered list is non-empty exactly when some element passes the filter. -/
theorem filter_length_pos {α : Type} (p : α → Bool) (l : List α) :
    0 < (l.filter p).length ↔ ∃ a ∈ l, p a = true := by
  rw [List.length_pos, Ne, List.filter_eq_nil_iff]
  push_neg
  rfl

/-- C24. When no database call fails, `DeleteCategory` is refused with an error
exactly when a product that is not deleted references the category, and a refused
call leaves the whole store as it was; when no such product references it the call
succeeds, marks the category deleted and leaves the product table as it was.  The
same holds for `DeleteSupplier` and the products referencing the supplier. -/
theorem delete_guard {F : Type} (env : Env) (db : Store F) (id : Nat)
    (hquiet : env.Quiet) :
    (((service.DeleteCategory env db id).1 ≠ none
        ↔ ∃ p ∈ db.products, p.CategoryID = some id ∧ p.DeletedAt = none)
      ∧ ((service.DeleteCategory env db id).1 ≠ none
          → (service.DeleteCategory env db id).2 = db)
      ∧ ((service.DeleteCategory env db id).1 = none
          → (service.DeleteCategory env db id).2
            = { db with categories := db.categories.map (fun c =>
                if c.ID = id ∧ c.DeletedAt = none then { c with DeletedAt := some env.now }
                else c) }))
    ∧ (((service.DeleteSupplier env db id).1 ≠ none
        ↔ ∃ p ∈ db.products, p.SupplierID = some id ∧ p.DeletedAt = none)
      ∧ ((service.DeleteSupplier env db id).1 ≠ none
          → (service.DeleteSupplier env db id).2 = db)
      ∧ ((service.DeleteSupplier env db id).1 = none
          → (service.DeleteSupplier env db id).2
            = { db with suppliers := db.suppliers.map (fun c =>
                if c.ID = id ∧ c.DeletedAt = none then { c with DeletedAt := some env.now }
                else c) })) := by
  obtain ⟨hr, hu, _, _⟩ := hquiet
  constructor
  · by_cases hc : 0 < repository.countProductsOfCategory env db id
    · have hex : ∃ p ∈ db.products, p.CategoryID = some id ∧ p.DeletedAt = none := by
        simp only [repository.countProductsOfCategory, hr, Bool.false_eq_true, if_false,
          filter_length_pos, decide_eq_true_eq] at hc
        exact hc
      have hcall : service.DeleteCategory env db id
          = (some (CrudError.inUse (repository.countProductsOfCategory env db id)), db) := by
        simp only [service.DeleteCategory, repository.DeleteCategory, if_pos hc, deleteResult]
      rw [hcall]
      simp [hex]
    · have hex : ¬ ∃ p ∈ db.products, p.CategoryID = some id ∧ p.DeletedAt = none := by
        simp only [repository.countProductsOfCategory, hr, Bool.false_eq_true, if_false,
          filter_length_pos, decide_eq_true_eq] at hc
        exact hc
      have hcall : service.DeleteCategory env db id
          = (none, { db with categories := db.categories.map (fun c =>
              if c.ID = id ∧ c.DeletedAt = none then { c with DeletedAt := some env.now }
              else c) }) := by
        simp only [service.DeleteCategory, repository.DeleteCategory, if_neg hc, hu,
          Bool.false_eq_true, if_false, deleteResult]
      rw [hcall]
      simp [hex]
  · by_cases hc : 0 < repository.countProductsOfSupplier env db id
    · have hex : ∃ p ∈ db.products, p.SupplierID = some id ∧ p.DeletedAt = none := by
        simp only [repository.countProductsOfSupplier, hr, Bool.false_eq_true, if_false,
          filter_length_pos, decide_eq_true_eq] at hc
        exact hc
      have hcall : service.DeleteSupplier env db id
          = (some (CrudError.inUse (repository.countProductsOfSupplier env db id)), db) := by
        simp only [service.DeleteSupplier, repository.DeleteSupplier, if_pos hc, deleteResult]
      rw [hcall]
      simp [hex]
    · have hex : ¬ ∃ p ∈ db.products, p.SupplierID = some id ∧ p.DeletedAt = none := by
        simp only [repository.countProductsOfSupplier, hr, Bool.false_eq_true, if_false,
          filter_length_pos, decide_eq_true_eq] at hc
        exact hc
      have hcall : service.DeleteSupplier env db id
          = (none, { db with suppliers := db.suppliers.map (fun c =>
              if c.ID = id ∧ c.DeletedAt = none then { c with DeletedAt := some env.now }
              else c) }) := by
        simp only [service.DeleteSupplier, repository.DeleteSupplier, if_neg hc, hu,
          Bool.false_eq_true, if_false, deleteResult]
      rw [hcall]
      simp [hex]

/-- Witness of C24: category 1 is referenced by product 1 and its deletion is
refused; category 2 is referenced only by a deleted product and is deleted, no
product being touched. -/
theorem delete_guard_witness :
    service.DeleteCategory (quietEnv 200) catalogStore 1
        = (some (CrudError.inUse 1), catalogStore)
    ∧ (service.DeleteCategory (quietEnv 200) catalogStore 2).1 = none
    ∧ (service.DeleteCategory (quietEnv 200) catalogStore 2).2.products
        = catalogStore.products
    ∧ (service.DeleteCategory (quietEnv 200) catalogStore 2).2.categories.map
        (fun c => (c.ID, c.DeletedAt)) = [(1, none), (2, some 200)]
    ∧ ((service.DeleteSupplier (quietEnv 200) catalogStore 1).1 ≠ none
        → (service.DeleteSupplier (quietEnv 200) catalogStore 1).2 = catalogStore) :=
  have h := delete_guard (quietEnv 200) catalogStore 1 (by decide)
  ⟨by decide, by decide, by decide, by decide, h.2.2.1⟩

/-- Rows after `Repository.CreateProduct`: the old rows, or the old rows followed by
one row that carries the status, unit and stock of the argument. -/
theorem repository_CreateProduct_rows {F : Type} (env : Env) (db : Store F)
    (product : models.Product F) :
    (repository.CreateProduct env db product).2.products = db.products
    ∨ ∃ row, (repository.CreateProduct env db product).2.products = db.products ++ [row]
        ∧ row.Status = product.Status := by
  unfold repository.CreateProduct
  by_cases hc : env.createErr = true
  · rw [if_pos hc]
    exact Or.inl rfl
  · by_cases hany : db.products.any (fun p => decide (p.SKU = product.SKU)) = true
    · rw [if_neg hc, if_pos hany]
      exact Or.inl rfl
    · by_cases hfk : repository.foreignKeysHold db product = false
      · rw [if_neg hc, if_neg hany, if_pos hfk]
        exact Or.inl rfl
      · rw [if_neg hc, if_neg hany, if_neg hfk]
        exact Or.inr ⟨_, rfl, rfl⟩

/-- Rows after `Repository.UpdateProduct`: each is an old row or the saved row. -/
theorem repository_UpdateProduct_rows {F : Type} (env : Env) (db : Store F)
    (row p : models.Product F) (category : Option models.Category)
    (supplier : Option models.Supplier)
    (hp : p ∈ (repository.UpdateProductWith env db row category supplier).2.products) :
    p ∈ db.products ∨ p = repository.savedRow env.now row category supplier := by
  unfold repository.UpdateProductWith at hp
  by_cases hu : env.updateErr = true
  · rw [if_pos hu] at hp
    exact Or.inl hp
  · by_cases hany : db.products.any (fun p => decide (p.ID ≠ row.ID ∧ p.SKU = row.SKU)) = true
    · rw [if_neg hu, if_pos hany] at hp
      exact Or.inl hp
    · by_cases hfk : repository.foreignKeysHold db
          (repository.savedRow env.now row category supplier) = false
      · rw [if_neg hu, if_neg hany, if_pos hfk] at hp
        exact Or.inl hp
      · rw [if_neg hu, if_neg hany, if_neg hfk] at hp
        simp only [upsertBy] at hp
        split at hp
        · rw [List.mem_map] at hp
          obtain ⟨r, hr, hrp⟩ := hp
          split at hrp
          · exact Or.inr hrp.symm
          · exact Or.inl (hrp ▸ hr)
        · rw [List.mem_append, List.mem_singleton] at hp
          exact hp

/-- Looking a product up after `Save` has replaced its row finds the saved row. -/
theorem find_upsert {F : Type} (row : models.Product F) (l : List (models.Product F))
    (hex : ∃ p ∈ l, p.ID = row.ID) (hlive : row.DeletedAt = none) :
    (upsertBy (fun p => p.ID) row l).find? (isLiveWithID row.ID) = some row := by
  have hany : l.any (fun r => decide (r.ID = row.ID)) = true := by
    rw [List.any_eq_true]
    obtain ⟨p, hp, hid⟩ := hex
    exact ⟨p, hp, by simp [hid]⟩
  simp only [upsertBy, hany, if_true]
  clear hany
  induction l with
  | nil =>
    obtain ⟨p, hp, _⟩ := hex
    cases hp
  | cons a t ih =>
    by_cases ha : a.ID = row.ID
    · simp [List.find?_cons, ha, isLiveWithID, hlive]
    · have hex2 : ∃ p ∈ t, p.ID = row.ID := by
        obtain ⟨p, hp, hid⟩ := hex
        rcases List.mem_cons.mp hp with h | h
        · exact absurd (h ▸ hid) ha
        · exact ⟨p, h, hid⟩
      rw [List.map_cons, if_neg ha, List.find?_cons]
      simp only [isLiveWithID, ha, false_and, decide_False]
      exact ih hex2

/-- The foreign keys of a saved row hold when the ids of the row, as far as they
are set, are ids of rows of their tables: a loaded association is such a row. -/
theorem foreignKeysHold_savedRow {F : Type} (db : Store F) (now : Nat)
    (product old : models.Product F)
    (hcat : ∀ id, product.CategoryID = some id → ∃ c ∈ db.categories, c.ID = id)
    (hsup : ∀ id, product.SupplierID = some id → ∃ s ∈ db.suppliers, s.ID = id) :
    repository.foreignKeysHold db (repository.savedRow now product
      (repository.preloadCategory db old) (repository.preloadSupplier db old)) = true := by
  have h1 : ∀ id, (repository.savedRow now product (repository.preloadCategory db old)
      (repository.preloadSupplier db old)).CategoryID = some id →
      ∃ c ∈ db.categories, c.ID = id := by
    intro id hid
    simp only [repository.savedRow] at hid
    cases hpre : repository.preloadCategory db old with
    | none =>
      rw [hpre] at hid
      exact hcat id hid
    | some c =>
      rw [hpre] at hid
      simp only [Option.some.injEq] at hid
      unfold repository.preloadCategory at hpre
      cases hold : old.CategoryID with
      | none => simp [hold] at hpre
      | some k =>
        simp only [hold] at hpre
        exact ⟨c, List.mem_of_find?_eq_some hpre, hid⟩
  have h2 : ∀ id, (repository.savedRow now product (repository.preloadCategory db old)
      (repository.preloadSupplier db old)).SupplierID = some id →
      ∃ s ∈ db.suppliers, s.ID = id := by
    intro id hid
    simp only [repository.savedRow] at hid
    cases hpre : repository.preloadSupplier db old with
    | none =>
      rw [hpre] at hid
      exact hsup id hid
    | some c =>
      rw [hpre] at hid
      simp only [Option.some.injEq] at hid
      unfold repository.preloadSupplier at hpre
      cases hold : old.SupplierID with
      | none => simp [hold] at hpre
      | some k =>
        simp only [hold] at hpre
        exact ⟨c, List.mem_of_find?_eq_some hpre, hid⟩
  unfold repository.foreignKeysHold
  rw [Bool.and_eq_true]
  constructor
  · cases hc : (repository.savedRow now product (repository.preloadCategory db old)
        (repository.preloadSupplier db old)).CategoryID with
    | none => rfl
    | some id =>
      obtain ⟨c, hcm, hcid⟩ := h1 id hc
      simp only [List.any_eq_true, decide_eq_true_eq]
      exact ⟨c, hcm, hcid⟩
  · cases hc : (repository.savedRow now product (repository.preloadCategory db old)
        (repository.preloadSupplier db old)).SupplierID with
    | none => rfl
    | some id =>
      obtain ⟨c, hcm, hcid⟩ := h2 id hc
      simp only [List.any_eq_true, decide_eq_true_eq]
      exact ⟨c, hcm, hcid⟩

/-- C29. A status of 0 in a product request counts as not supplied.  When no
database call fails, `CreateProduct` with status 0, a SKU that no row carries and a
category id and supplier id that are absent or refer to rows of their tables
succeeds and appends a product with status 1, stock 0 and the requested unit, or the
standard unit when the requested one is empty; under the same conditions
`UpdateProduct` with status 0 on a product that resolves, with a SKU that no other
row carries, succeeds, and afterwards the product resolves with the status and the
stock it had before.  And whatever the request and the environment, a product that
has status 0 after a `CreateProduct` was in the table before the call, and a product
that has status 0 after an `UpdateProduct` had an equally identified row with
status 0 before. -/
theorem product_status_zero {F : Type} (env : Env) (db : Store F) (hquiet : env.Quiet) :
    (∀ req : models.ProductRequest F, req.Status = 0 →
        (∀ p ∈ db.products, p.SKU ≠ req.SKU) →
        (∀ id, req.CategoryID = some id → ∃ c ∈ db.categories, c.ID = id) →
        (∀ id, req.SupplierID = some id → ∃ s ∈ db.suppliers, s.ID = id) →
        service.CreateProduct env db req = (none, { db with products := db.products ++
          [{ ID := nextID (db.products.map (fun p => p.ID))
             CreatedAt := env.now
             UpdatedAt := env.now
             DeletedAt := none
             SKU := req.SKU
             Name := req.Name
             Description := req.Description
             CategoryID := req.CategoryID
             SupplierID := req.SupplierID
             Unit := if req.Unit = "" then "个" else req.Unit
             CostPrice := req.CostPrice
             SellingPrice := req.SellingPrice
             CurrentStock := 0
             MinStock := req.MinStock
             MaxStock := req.MaxStock
             Barcode := req.Barcode
             Location := req.Location
             ImageURL := req.ImageURL
             Status := 1 }] }))
    ∧ (∀ (id : Nat) (req : models.ProductRequest F) (product : models.Product F),
        req.Status = 0 → GetProductByID env db id = Except.ok product →
        (∀ p ∈ db.products, p.ID ≠ id → p.SKU ≠ req.SKU) →
        (∀ c, req.CategoryID = some c → ∃ r ∈ db.categories, r.ID = c) →
        (∀ c, req.SupplierID = some c → ∃ r ∈ db.suppliers, r.ID = c) →
        (service.UpdateProduct env db id req).1 = none
        ∧ ∃ updated, GetProductByID env (service.UpdateProduct env db id req).2 id
              = Except.ok updated
            ∧ updated.Status = product.Status
            ∧ updated.CurrentStock = product.CurrentStock
            ∧ updated.Name = req.Name)
    ∧ (∀ (anyEnv : Env) (req : models.ProductRequest F),
        ∀ p ∈ (service.CreateProduct anyEnv db req).2.products,
          p.Status = 0 → p ∈ db.products)
    ∧ (∀ (anyEnv : Env) (id : Nat) (req : models.ProductRequest F),
        ∀ p ∈ (service.UpdateProduct anyEnv db id req).2.products,
          p.Status = 0 → ∃ q ∈ db.products, q.ID = p.ID ∧ q.Status = 0) := by
  obtain ⟨hr, hu, hc, _⟩ := hquiet
  refine ⟨?_, ?_, ?_, ?_⟩
  · intro req hzero hfresh hcat hsup
    have hfind : db.products.find? (fun p => decide (p.SKU = req.SKU ∧ p.DeletedAt = none))
        = none := by
      rw [List.find?_eq_none]
      intro p hp
      simp [hfresh p hp]
    have hany : db.products.any (fun p => decide (p.SKU = req.SKU)) = false := by
      rw [List.any_eq_false]
      intro p hp
      simp [hfresh p hp]
    have hsku : GetProductBySKU env db req.SKU = Except.error DBError.recordNotFound := by
      simp only [GetProductBySKU, hr, Bool.false_eq_true, if_false, hfind]
    have hc1 : (match req.CategoryID with
        | none => true
        | some id => db.categories.any (fun c => decide (c.ID = id))) = true := by
      cases hcid : req.CategoryID with
      | none => rfl
      | some id =>
        obtain ⟨c, hcm, hce⟩ := hcat id hcid
        simp only [List.any_eq_true, decide_eq_true_eq]
        exact ⟨c, hcm, hce⟩
    have hs1 : (match req.SupplierID with
        | none => true
        | some id => db.suppliers.any (fun s => decide (s.ID = id))) = true := by
      cases hsid : req.SupplierID with
      | none => rfl
      | some id =>
        obtain ⟨c, hcm, hce⟩ := hsup id hsid
        simp only [List.any_eq_true, decide_eq_true_eq]
        exact ⟨c, hcm, hce⟩
    by_cases hunit : req.Unit = ""
    · simp only [service.CreateProduct, hsku, hzero, hunit, repository.CreateProduct, hc,
        hany, crudResult, repository.foreignKeysHold, hc1, hs1, Bool.false_eq_true, if_false,
        if_true, ne_eq, not_true_eq_false, Bool.and_self, Bool.true_eq_false]
    · simp only [service.CreateProduct, hsku, hzero, hunit, repository.CreateProduct, hc,
        hany, crudResult, repository.foreignKeysHold, hc1, hs1, Bool.false_eq_true, if_false,
        if_true, ne_eq, not_true_eq_false, Bool.and_self, Bool.true_eq_false]
  · intro id req product hzero hres hfree hcat hsup
    obtain ⟨_, hmem, hid, hdel, _⟩ := GetProductByID_ok hres
    subst hid
    have htaken : skuTaken env db product.ID product.SKU req.SKU = false := by
      unfold skuTaken
      by_cases hsku : req.SKU ≠ product.SKU
      · rw [if_pos hsku]
        unfold GetProductBySKU
        rw [hr]
        simp only [Bool.false_eq_true, if_false]
        cases hf : db.products.find? (fun p => decide (p.SKU = req.SKU ∧ p.DeletedAt = none)) with
        | none => rfl
        | some existing =>
          have h1 := List.find?_some hf
          have h2 := List.mem_of_find?_eq_some hf
          simp only [decide_eq_true_eq] at h1
          simp only [decide_eq_false_iff_not, not_not]
          by_contra hne
          exact hfree existing h2 hne h1.1
      · rw [if_neg hsku]
    have hany : db.products.any
        (fun p => decide (p.ID ≠ product.ID ∧ p.SKU = req.SKU)) = false := by
      rw [List.any_eq_false]
      intro x hx
      simp only [decide_eq_true_eq, not_and]
      intro hne
      exact hfree x hx hne
    have hfk := foreignKeysHold_savedRow db env.now
      { product with
          SKU := req.SKU, Name := req.Name, Description := req.Description,
          CategoryID := req.CategoryID, SupplierID := req.SupplierID,
          Unit := req.Unit, CostPrice := req.CostPrice,
          SellingPrice := req.SellingPrice, MinStock := req.MinStock,
          MaxStock := req.MaxStock, Barcode := req.Barcode,
          Location := req.Location, ImageURL := req.ImageURL } product hcat hsup
    have hfu := find_upsert
      (repository.savedRow env.now
        { product with
            SKU := req.SKU, Name := req.Name, Description := req.Description,
            CategoryID := req.CategoryID, SupplierID := req.SupplierID,
            Unit := req.Unit, CostPrice := req.CostPrice,
            SellingPrice := req.SellingPrice, MinStock := req.MinStock,
            MaxStock := req.MaxStock, Barcode := req.Barcode,
            Location := req.Location, ImageURL := req.ImageURL }
        (repository.preloadCategory db product) (repository.preloadSupplier db product))
      db.products ⟨product, hmem, rfl⟩ hdel
    have hcall : service.UpdateProduct env db product.ID req
        = (none, { db with products := upsertBy (fun p => p.ID)
                              (repository.savedRow env.now
                                { product with
                                    SKU := req.SKU, Name := req.Name,
                                    Description := req.Description,
                                    CategoryID := req.CategoryID,
                                    SupplierID := req.SupplierID,
                                    Unit := req.Unit, CostPrice := req.CostPrice,
                                    SellingPrice := req.SellingPrice,
                                    MinStock := req.MinStock,
                                    MaxStock := req.MaxStock, Barcode := req.Barcode,
                                    Location := req.Location, ImageURL := req.ImageURL }
                                (repository.preloadCategory db product)
                                (repository.preloadSupplier db product)) db.products }) := by
      simp only [service.UpdateProduct, hres, htaken, Bool.false_eq_true, if_false, hzero,
        ne_eq, not_true_eq_false, repository.UpdateProductWith, hu, hany, hfk, crudResult]
      rfl
    rw [hcall]
    refine ⟨rfl, repository.savedRow env.now
      { product with
          SKU := req.SKU, Name := req.Name, Description := req.Description,
          CategoryID := req.CategoryID, SupplierID := req.SupplierID,
          Unit := req.Unit, CostPrice := req.CostPrice,
          SellingPrice := req.SellingPrice, MinStock := req.MinStock,
          MaxStock := req.MaxStock, Barcode := req.Barcode,
          Location := req.Location, ImageURL := req.ImageURL }
      (repository.preloadCategory db product) (repository.preloadSupplier db product),
      ?_, rfl, rfl, rfl⟩
    unfold GetProductByID
    simp only [hr, Bool.false_eq_true, if_false]
    have hfu2 : (upsertBy (fun p => p.ID)
        (repository.savedRow env.now
          { product with
              SKU := req.SKU, Name := req.Name, Description := req.Description,
              CategoryID := req.CategoryID, SupplierID := req.SupplierID,
              Unit := req.Unit, CostPrice := req.CostPrice,
              SellingPrice := req.SellingPrice, MinStock := req.MinStock,
              MaxStock := req.MaxStock, Barcode := req.Barcode,
              Location := req.Location, ImageURL := req.ImageURL }
          (repository.preloadCategory db product) (repository.preloadSupplier db product))
        db.products).find? (isLiveWithID product.ID) = some _ := hfu
    rw [hfu2]
  · intro anyEnv req p hp hzero
    unfold service.CreateProduct at hp
    cases hsku : GetProductBySKU anyEnv db req.SKU with
    | ok existing =>
      rw [hsku] at hp
      exact hp
    | error e =>
      rw [hsku] at hp
      simp only [crudResult_snd] at hp
      rcases repository_CreateProduct_rows anyEnv db _ with h | ⟨row, h, hstatus⟩
      · rw [h] at hp
        exact hp
      · rw [h, List.mem_append, List.mem_singleton] at hp
        rcases hp with hp | hp
        · exact hp
        · exfalso
          rw [hp, hstatus] at hzero
          by_cases hs : req.Status ≠ 0
          · simp [hs] at hzero
          · simp [hs] at hzero
            split at hzero <;> simp_all
  · intro anyEnv id req p hp hzero
    unfold service.UpdateProduct at hp
    cases hres : GetProductByID anyEnv db id with
    | error e =>
      rw [hres] at hp
      exact ⟨p, hp, rfl, hzero⟩
    | ok product =>
      rw [hres] at hp
      obtain ⟨_, hmem, _, _, _⟩ := GetProductByID_ok hres
      by_cases hsku : skuTaken anyEnv db id product.SKU req.SKU = true
      · simp only [hsku, if_true] at hp
        exact ⟨p, hp, rfl, hzero⟩
      · simp only [hsku, Bool.false_eq_true, if_false, crudResult_snd] at hp
        rcases repository_UpdateProduct_rows anyEnv db _ p _ _ hp with h | h
        · exact ⟨p, h, rfl, hzero⟩
        · refine ⟨product, hmem, ?_, ?_⟩
          · rw [h]
            simp only [repository.savedRow]
            split <;> rfl
          · rw [h] at hzero
            simp only [repository.savedRow] at hzero
            by_cases hs : req.Status ≠ 0
            · simp [hs] at hzero
            · simpa [hs] using hzero

/-- Witness of C29: a request with status 0, an empty unit and a new SKU creates
product 3 with status 1, unit `个` and stock 0; the sample request, which has
status 0, updates product 1 and leaves its status 1 and its stock 10.  On
`catalogStore` an update of product 1 that asks for category 2 keeps status 1,
stock 10 and, the category being loaded with the product, category 1. -/
theorem product_status_zero_witness :
    service.CreateProduct (quietEnv 200) (sampleStore 10)
        { sampleProductRequest with SKU := "N1", Unit := "" }
      = (none, { sampleStore 10 with products := (sampleStore 10).products ++
          [{ ID := 3, CreatedAt := 200, UpdatedAt := 200, DeletedAt := none, SKU := "N1"
             Name := "hex bolt", Description := "M8", CategoryID := none
             SupplierID := none, Unit := "个", CostPrice := 4, SellingPrice := 6
             CurrentStock := 0, MinStock := 2, MaxStock := 50, Barcode := ""
             Location := "A-1", ImageURL := "", Status := 1 }] })
    ∧ (service.UpdateProduct (quietEnv 200) (sampleStore 10) 1 sampleProductRequest).1 = none
    ∧ (∃ updated, GetProductByID (quietEnv 200)
          (service.UpdateProduct (quietEnv 200) (sampleStore 10) 1 sampleProductRequest).2 1
          = Except.ok updated
        ∧ updated.Status = (sampleProduct 1 10 15).Status
        ∧ updated.CurrentStock = (sampleProduct 1 10 15).CurrentStock
        ∧ updated.Name = sampleProductRequest.Name)
    ∧ (GetProductByID (quietEnv 200)
          (service.UpdateProduct (quietEnv 200) catalogStore 1
            { sampleProductRequest with CategoryID := some 2 }).2 1).map
        (fun p => (p.Status, p.CurrentStock, p.CategoryID, p.SupplierID))
        = Except.ok (1, 10, some 1, some 1) :=
  have h := product_status_zero (quietEnv 200) (sampleStore 10) (by decide)
  have h2 := h.2.1 1 sampleProductRequest (sampleProduct 1 10 15) rfl rfl (by decide)
    (by decide) (by decide)
  ⟨h.1 { sampleProductRequest with SKU := "N1", Unit := "" } rfl (by decide) (by decide)
    (by decide), h2.1, h2.2, rfl⟩

/-- The receiver after `GetOffset`, column by column. -/
theorem normalized_eq (p : models.PaginationQuery) :
    p.normalized =
      { Page := if p.Page ≤ 0 then 1 else p.Page
        PageSize := if p.PageSize ≤ 0 then 20 else if p.PageSize > 100 then 100
          else p.PageSize
        Keyword := p.Keyword
        Status := p.Status } := by
  unfold models.PaginationQuery.normalized
  by_cases h1 : p.Page ≤ 0 <;> by_cases h2 : p.PageSize ≤ 0 <;>
    by_cases h3 : p.PageSize > 100 <;> simp [h1, h2, h3]

/-- C27 (counterexample). With page 184467440737095517 and page size 100, both in
range and kept by the normalisation, `(Page - 1) * PageSize` exceeds the Go `int`
range and the offset returned is -16. -/
theorem GetOffset_counterexample :
    (sampleQuery 184467440737095517 100 "").normalized
        = sampleQuery 184467440737095517 100 ""
    ∧ InIntRange (sampleQuery 184467440737095517 100 "").Page
    ∧ (sampleQuery 184467440737095517 100 "").GetOffset = -16
    ∧ ¬ (0 ≤ (sampleQuery 184467440737095517 100 "").GetOffset)
    ∧ (sampleQuery 184467440737095517 100 "").GetOffset
        ≠ ((sampleQuery 184467440737095517 100 "").normalized.Page - 1)
            * (sampleQuery 184467440737095517 100 "").normalized.PageSize := by
  refine ⟨?_, ?_, ?_, ?_, ?_⟩ <;> decide

/-- C27 (amended). For every `PaginationQuery`, `GetOffset` leaves the receiver with
`Page ≥ 1` and `1 ≤ PageSize ≤ 100`: a page ≤ 0 has become 1, a page size ≤ 0 has
become 20, a page size > 100 has become 100, and values in range, the keyword and
the status filter are kept.  It is idempotent: on the receiver it has left, a
second call changes nothing and returns the same offset.  When
`(Page - 1) * PageSize` of the normalised values fits a Go `int`, the offset
returned is that product and is not negative. -/
theorem GetOffset_normalises (p : models.PaginationQuery) :
    p.normalized.Page = (if p.Page ≤ 0 then 1 else p.Page)
    ∧ p.normalized.PageSize
        = (if p.PageSize ≤ 0 then 20 else if p.PageSize > 100 then 100 else p.PageSize)
    ∧ p.normalized.Keyword = p.Keyword ∧ p.normalized.Status = p.Status
    ∧ 1 ≤ p.normalized.Page ∧ 1 ≤ p.normalized.PageSize ∧ p.normalized.PageSize ≤ 100
    ∧ p.normalized.normalized = p.normalized
    ∧ p.normalized.GetOffset = p.GetOffset
    ∧ ((p.normalized.Page - 1) * p.normalized.PageSize ≤ MaxInt →
        p.GetOffset = (p.normalized.Page - 1) * p.normalized.PageSize
        ∧ 0 ≤ p.GetOffset) := by
  have hpage : 1 ≤ p.normalized.Page := by
    rw [normalized_eq]
    by_cases h1 : p.Page ≤ 0 <;> simp [h1]
    omega
  have hsize : 1 ≤ p.normalized.PageSize ∧ p.normalized.PageSize ≤ 100 := by
    rw [normalized_eq]
    by_cases h2 : p.PageSize ≤ 0 <;> by_cases h3 : p.PageSize > 100 <;>
      simp only [h2, h3, if_true, if_false] <;> omega
  have hidem : p.normalized.normalized = p.normalized := by
    have h1 : ¬ p.normalized.Page ≤ 0 := by omega
    have h2 : ¬ p.normalized.PageSize ≤ 0 := by omega
    have h3 : ¬ p.normalized.PageSize > 100 := by omega
    rw [normalized_eq p.normalized]
    simp [h1, h2, h3]
  refine ⟨by rw [normalized_eq], by rw [normalized_eq], by rw [normalized_eq],
    by rw [normalized_eq], hpage, hsize.1, hsize.2, hidem, ?_, ?_⟩
  · unfold models.PaginationQuery.GetOffset
    rw [hidem]
  · intro hfit
    have hnn : 0 ≤ (p.normalized.Page - 1) * p.normalized.PageSize :=
      mul_nonneg (by omega) (by omega)
    have hle : p.normalized.Page - 1 ≤ (p.normalized.Page - 1) * p.normalized.PageSize :=
      le_mul_of_one_le_right (by omega) hsize.1
    have hw1 : wrapInt (p.normalized.Page - 1) = p.normalized.Page - 1 :=
      wrapInt_eq_self ⟨by unfold MinInt; omega, le_trans hle hfit⟩
    have hw2 : p.GetOffset = (p.normalized.Page - 1) * p.normalized.PageSize := by
      unfold models.PaginationQuery.GetOffset
      rw [hw1]
      exact wrapInt_eq_self ⟨by unfold MinInt; omega, hfit⟩
    exact ⟨hw2, hw2 ▸ hnn⟩

/-- Witness of C27: page 0 with page size 500 becomes page 1 with page size 100 and
offset 0. -/
theorem GetOffset_normalises_witness :
    (sampleQuery 0 500 "").normalized = sampleQuery 1 100 ""
    ∧ (sampleQuery 0 500 "").GetOffset
        = ((sampleQuery 0 500 "").normalized.Page - 1)
            * (sampleQuery 0 500 "").normalized.PageSize
    ∧ 0 ≤ (sampleQuery 0 500 "").GetOffset :=
  have h := (GetOffset_normalises (sampleQuery 0 500 "")).2.2.2.2.2.2.2.2.2 (by decide)
  ⟨by decide, h.1, h.2⟩

/-- C23 (code evaluated at the failing input). No route of `Setup` mounts
`AdminOnly`: the chain of every route that creates, updates or deletes a category,
a supplier or a product is the engine's handlers followed by `JWTAuth` alone.  A
request with a valid token whose role is `operator` therefore reaches each of the
nine endpoints, with the role `operator` in its context, and so does a valid token
with any role; only a request without a valid token is stopped, with status 401.
`AdminOnly` itself would stop the role `operator` with status 403 and let `admin`
through. -/
theorem master_data_routes_open :
    (router.Setup.all fun route => decide (router.Middleware.adminOnly ∉ route.chain))
        = true
    ∧ (masterDataWrites "Bearer t-user").map (router.serve (sampleJwtParse "operator"))
        = [router.Endpoint.CreateCategory, router.Endpoint.UpdateCategory,
            router.Endpoint.DeleteCategory, router.Endpoint.CreateSupplier,
            router.Endpoint.UpdateSupplier, router.Endpoint.DeleteSupplier,
            router.Endpoint.CreateProduct, router.Endpoint.UpdateProduct,
            router.Endpoint.DeleteProduct].map
          (fun endpoint => router.Outcome.reached endpoint
            { UserID := some 7, Username := some "amy", Role := some "operator" })
    ∧ (∀ role : String,
        router.serve (sampleJwtParse role)
            { method := router.Method.DELETE, path := ["api", "v1", "products", "1"]
              authorization := "Bearer t-user" }
          = router.Outcome.reached router.Endpoint.DeleteProduct
              { UserID := some 7, Username := some "amy", Role := some role })
    ∧ (masterDataWrites "").map (router.serve (sampleJwtParse "operator"))
        = List.replicate 9 (router.Outcome.aborted 401)
    ∧ (masterDataWrites "Bearer forged").map (router.serve (sampleJwtParse "operator"))
        = List.replicate 9 (router.Outcome.aborted 401)
    ∧ middleware.AdminOnly
        { UserID := some 7, Username := some "amy", Role := some "operator" }
        = Except.error 403
    ∧ middleware.AdminOnly
        { UserID := some 1, Username := some "root", Role := some "admin" }
        = Except.ok { UserID := some 1, Username := some "root", Role := some "admin" } := by
  refine ⟨by decide, by decide, ?_, by decide, by decide, rfl, rfl⟩
  intro role
  rfl

theorem roundHalfEven_intCast (n : Int) : roundHalfEven (n : ℚ) = n := by
  simp [roundHalfEven]

theorem roundHalfEven_bounds (m : ℚ) :
    ⌊m⌋ ≤ roundHalfEven m ∧ roundHalfEven m ≤ ⌊m⌋ + 1 := by
  unfold roundHalfEven
  split_ifs <;> omega

theorem roundHalfEven_eq_floor (m : ℚ) (h : roundHalfEven m = ⌊m⌋) : m - ⌊m⌋ ≤ 1 / 2 := by
  unfold roundHalfEven at h
  split_ifs at h with h1 h2 h3
  · exact le_of_lt h1
  · omega
  · exact not_lt.mp h2
  · omega

/-- The unit in the last place of a positive number below 2^53 is `2^-j` for a
natural `j`, and 2^52 units do not exceed the number. -/
theorem ulp_spec (x : ℚ) (hx : 0 < x) (hlt : x < 2 ^ 53) :
    ∃ j : ℕ, (2 : ℚ) ^ (Int.log 2 |x| - 52) = ((2 : ℚ) ^ j)⁻¹
      ∧ ((2 : ℚ) ^ j)⁻¹ * 2 ^ 52 ≤ x := by
  rw [abs_of_pos hx]
  have hlog : Int.log 2 x < 53 := by
    rw [← Int.lt_zpow_iff_log_lt (by norm_num) hx]
    norm_num
    exact hlt
  have hle := Int.zpow_log_le_self (b := 2) (r := x) (by norm_num) hx
  refine ⟨(52 - Int.log 2 x).toNat, ?_, ?_⟩
  · rw [← zpow_natCast, ← zpow_neg, Int.toNat_of_nonneg (by omega)]
    congr 1
    ring
  · rw [← zpow_natCast, ← zpow_neg, Int.toNat_of_nonneg (by omega)]
    have h52 : ((2 : ℚ) ^ 52) = (2 : ℚ) ^ (52 : ℤ) := by norm_num
    rw [h52, ← zpow_add₀ (by norm_num)]
    have : -(52 - Int.log 2 x) + 52 = Int.log 2 x := by ring
    rw [this]
    exact_mod_cast hle

/-- Integers from 0 up to 2^53 (exclusive) are `float64` values. -/
theorem float64Round_int (n : Int) (h0 : 0 ≤ n) (hlt : n < 9007199254740992) :
    float64Round (n : ℚ) = n := by
  rcases eq_or_lt_of_le h0 with h | hpos
  · subst h
    simp [float64Round]
  · have hx : (0 : ℚ) < n := by exact_mod_cast hpos
    have hxlt : (n : ℚ) < 2 ^ 53 := by
      have : (n : ℚ) < 9007199254740992 := by exact_mod_cast hlt
      norm_num
      exact this
    obtain ⟨j, hu, _⟩ := ulp_spec n hx hxlt
    unfold float64Round
    rw [if_neg (ne_of_gt hx), hu, div_inv_eq_mul]
    have hcast : (n : ℚ) * 2 ^ j = ((n * 2 ^ j : Int) : ℚ) := by push_cast; ring
    rw [hcast, roundHalfEven_intCast]
    push_cast
    field_simp

/-- Rounding the quotient of a total below 2^53 by a page size does not change its
ceiling. -/
theorem float64Round_ceil (t p : Int) (ht : 0 < t) (htlt : t < 9007199254740992)
    (hp1 : 1 ≤ p) :
    ⌈float64Round ((t : ℚ) / p)⌉ = ⌈(t : ℚ) / p⌉ := by
  have hpq : (0 : ℚ) < p := by exact_mod_cast (by omega : (0 : Int) < p)
  have htq : (0 : ℚ) < t := by exact_mod_cast ht
  by_cases hdvd : p ∣ t
  · obtain ⟨n, hn⟩ := hdvd
    have hx : (t : ℚ) / p = (n : ℚ) := by
      rw [hn]
      push_cast
      field_simp
    have hn0 : 0 < n := by
      by_contra hneg
      have : p * n ≤ 0 := Int.mul_nonpos_of_nonneg_of_nonpos (by omega) (by omega)
      omega
    have hnle : n ≤ t := by
      rw [hn]
      exact le_mul_of_one_le_left (by omega) hp1
    rw [hx, float64Round_int n (by omega) (by omega)]
  · set x : ℚ := (t : ℚ) / p with hxdef
    have hx : 0 < x := div_pos htq hpq
    have hxt : x ≤ t := by
      rw [hxdef, div_le_iff₀ hpq]
      have : (1 : ℚ) ≤ p := by exact_mod_cast hp1
      nlinarith
    have htq2 : (t : ℚ) < 9007199254740992 := by exact_mod_cast htlt
    have hxlt : x < 2 ^ 53 := by
      norm_num
      linarith
    obtain ⟨j, hu, hulp⟩ := ulp_spec x hx hxlt
    have hpow : (0 : ℚ) < 2 ^ j := by positivity
    -- the floor of the quotient and the distance to it
    have hk1 : (⌊x⌋ : ℚ) ≤ x := Int.floor_le x
    have hk2 : x < ⌊x⌋ + 1 := Int.lt_floor_add_one x
    have hrem : (1 : ℚ) ≤ t - ⌊x⌋ * p := by
      have h1 : (⌊x⌋ : ℚ) * p ≤ t := by
        have := mul_le_mul_of_nonneg_right hk1 (le_of_lt hpq)
        rwa [hxdef, div_mul_cancel₀ _ (ne_of_gt hpq)] at this
      have h2 : ⌊x⌋ * p ≤ t := by exact_mod_cast h1
      have h3 : ⌊x⌋ * p ≠ t := by
        intro h
        exact hdvd ⟨⌊x⌋, by rw [← h]; ring⟩
      have h4 : (1 : Int) ≤ t - ⌊x⌋ * p := by omega
      exact_mod_cast h4
    have hgap : 1 / (p : ℚ) ≤ x - ⌊x⌋ := by
      rw [hxdef, div_le_iff₀ hpq, sub_mul, div_mul_cancel₀ _ (ne_of_gt hpq)]
      exact hrem
    have hklt : (⌊x⌋ : ℚ) < x := by
      have : (0 : ℚ) < 1 / p := by positivity
      linarith
    have hceil : ⌈x⌉ = ⌊x⌋ + 1 := by
      rw [Int.ceil_eq_iff]
      push_cast
      constructor
      · linarith
      · linarith
    -- the significand and its rounding
    have hfl : float64Round x = (roundHalfEven (x * 2 ^ j) : ℚ) * ((2 : ℚ) ^ j)⁻¹ := by
      unfold float64Round
      rw [if_neg (ne_of_gt hx), hu, div_inv_eq_mul]
    obtain ⟨hb1, hb2⟩ := roundHalfEven_bounds (x * 2 ^ j)
    have hKle : ⌊x⌋ * 2 ^ j ≤ ⌊x * 2 ^ j⌋ := by
      rw [Int.le_floor]
      push_cast
      exact mul_le_mul_of_nonneg_right hk1 (le_of_lt hpow)
    have hKlt : ⌊x * 2 ^ j⌋ < (⌊x⌋ + 1) * 2 ^ j := by
      rw [Int.floor_lt]
      push_cast
      exact mul_lt_mul_of_pos_right hk2 hpow
    have hne : roundHalfEven (x * 2 ^ j) ≠ ⌊x⌋ * 2 ^ j := by
      intro heq
      have hfloor : ⌊x * 2 ^ j⌋ = ⌊x⌋ * 2 ^ j := by omega
      have hhalf := roundHalfEven_eq_floor (x * 2 ^ j) (by rw [heq, hfloor])
      rw [hfloor] at hhalf
      push_cast at hhalf
      -- (x - k) * 2^j ≤ 1/2, while 2^52 / 2^j ≤ x and t < 2^53
      have h1 : (x - ⌊x⌋) * 2 ^ j ≤ 1 / 2 := by linarith
      have h2 : (2 : ℚ) ^ 52 ≤ x * 2 ^ j := by
        have := mul_le_mul_of_nonneg_right hulp (le_of_lt hpow)
        rwa [mul_comm (((2 : ℚ) ^ j)⁻¹) _, mul_assoc, inv_mul_cancel₀ (ne_of_gt hpow),
          mul_one] at this
      have h3 : (1 / (p : ℚ)) * 2 ^ j ≤ 1 / 2 :=
        le_trans (mul_le_mul_of_nonneg_right hgap (le_of_lt hpow)) h1
      have h4 : (2 : ℚ) ^ j ≤ p / 2 := by
        rw [div_mul_eq_mul_div, one_mul, div_le_iff₀ hpq] at h3
        linarith
      have h5 : x * p = t := by rw [hxdef, div_mul_cancel₀ _ (ne_of_gt hpq)]
      have h6 : (2 : ℚ) ^ 52 * p ≤ t * (p / 2) := by
        calc (2 : ℚ) ^ 52 * p ≤ x * 2 ^ j * p := mul_le_mul_of_nonneg_right h2 (le_of_lt hpq)
          _ = t * 2 ^ j := by rw [mul_right_comm, h5]
          _ ≤ t * (p / 2) := mul_le_mul_of_nonneg_left h4 (le_of_lt htq)
      have h7 : (2 : ℚ) ^ 53 ≤ t := by
        have : (2 : ℚ) ^ 52 * p ≤ (t / 2) * p := by linarith
        have := le_of_mul_le_mul_right this hpq
        norm_num at this ⊢
        linarith
      norm_num at h7
      linarith
    have hlow : ⌊x⌋ * 2 ^ j + 1 ≤ roundHalfEven (x * 2 ^ j) := by omega
    have hhigh : roundHalfEven (x * 2 ^ j) ≤ (⌊x⌋ + 1) * 2 ^ j := by omega
    rw [hceil, Int.ceil_eq_iff, hfl]
    push_cast
    have hlowq : ((⌊x⌋ : ℚ) * 2 ^ j + 1) ≤ (roundHalfEven (x * 2 ^ j) : ℚ) := by
      exact_mod_cast hlow
    have hhighq : (roundHalfEven (x * 2 ^ j) : ℚ) ≤ ((⌊x⌋ : ℚ) + 1) * 2 ^ j := by
      exact_mod_cast hhigh
    have hinv : (0 : ℚ) < ((2 : ℚ) ^ j)⁻¹ := inv_pos.mpr hpow
    constructor
    · have := mul_le_mul_of_nonneg_right hlowq (le_of_lt hinv)
      rw [add_mul, mul_assoc, mul_inv_cancel₀ (ne_of_gt hpow), mul_one, one_mul] at this
      linarith
    · have := mul_le_mul_of_nonneg_right hhighq (le_of_lt hinv)
      rwa [mul_assoc, mul_inv_cancel₀ (ne_of_gt hpow), mul_one] at this

/-- The page count `Paginated` reports for a total below 2^53 is the ceiling of the
exact quotient. -/
theorem Paginated_eq_ceil {α : Type} (items : α) (total page pageSize : Int)
    (h0 : 0 ≤ total) (hlt : total < 9007199254740992) (hp1 : 1 ≤ pageSize)
    (hp2 : pageSize ≤ 100) :
    (handler.Paginated items total page pageSize).TotalPages
      = ⌈(total : ℚ) / pageSize⌉ := by
  unfold handler.Paginated float64Div float64OfInt mathCeil intOfFloat64
  simp only
  rw [float64Round_int total h0 hlt, float64Round_int pageSize (by omega) (by omega)]
  have hc : ⌈float64Round ((total : ℚ) / pageSize)⌉ = ⌈(total : ℚ) / pageSize⌉ := by
    rcases eq_or_lt_of_le h0 with h | hpos
    · subst h
      simp [float64Round]
    · exact float64Round_ceil total pageSize hpos hlt hp1
  rw [hc]
  have hpq : (0 : ℚ) < pageSize := by exact_mod_cast (by omega : (0 : Int) < pageSize)
  have hnn : 0 ≤ ⌈(total : ℚ) / pageSize⌉ :=
    Int.ceil_nonneg (div_nonneg (by exact_mod_cast h0) (le_of_lt hpq))
  have hle : ⌈(total : ℚ) / pageSize⌉ ≤ total := by
    rw [Int.ceil_le, div_le_iff₀ hpq]
    have h1 : (1 : ℚ) ≤ pageSize := by exact_mod_cast hp1
    have h2 : (0 : ℚ) ≤ total := by exact_mod_cast h0
    nlinarith
  have hq : (0 : ℚ) ≤ ((⌈(total : ℚ) / pageSize⌉ : Int) : ℚ) := by exact_mod_cast hnn
  rw [if_pos hq, Int.floor_intCast]
  exact wrapInt_eq_self ⟨by unfold MinInt; omega, by unfold MaxInt; omega⟩

/-- The binary exponent of a positive number between two consecutive powers of 2. -/
theorem log2_eq (x : ℚ) (e : ℤ) (hx : 0 < x) (h1 : (2 : ℚ) ^ e ≤ x)
    (h2 : x < (2 : ℚ) ^ (e + 1)) : Int.log 2 x = e := by
  apply le_antisymm
  · have : Int.log 2 x < e + 1 := by
      rw [← Int.lt_zpow_iff_log_lt (by norm_num) hx]
      exact_mod_cast h2
    omega
  · rw [← Int.zpow_le_iff_le_log (by norm_num) hx]
    exact_mod_cast h1

/-- The integer 2^53 + 1 lies halfway between two `float64` values and is rounded
to the even one, 2^53. -/
theorem float64Round_above_2_53 :
    float64Round 9007199254740993 = 9007199254740992 := by
  have hlog : Int.log 2 |(9007199254740993 : ℚ)| = 53 := by
    rw [abs_of_pos (by norm_num)]
    exact log2_eq _ 53 (by norm_num) (by norm_num) (by norm_num)
  have hfloor : ⌊(9007199254740993 : ℚ) / 2⌋ = 4503599627370496 := by
    rw [Int.floor_eq_iff]
    constructor <;> norm_num
  have hround : roundHalfEven ((9007199254740993 : ℚ) / 2) = 4503599627370496 := by
    unfold roundHalfEven
    rw [hfloor]
    norm_num
  unfold float64Round
  rw [if_neg (by norm_num), hlog]
  norm_num
  rw [hround]
  norm_num

/-- The integer 2^53 is a `float64` value. -/
theorem float64Round_2_53 : float64Round 9007199254740992 = 9007199254740992 := by
  have hlog : Int.log 2 |(9007199254740992 : ℚ)| = 53 := by
    rw [abs_of_pos (by norm_num)]
    exact log2_eq _ 53 (by norm_num) (by norm_num) (by norm_num)
  have hround : roundHalfEven (4503599627370496 : ℚ) = 4503599627370496 := by
    have := roundHalfEven_intCast 4503599627370496
    exact_mod_cast this
  unfold float64Round
  rw [if_neg (by norm_num), hlog]
  norm_num
  rw [hround]
  norm_num

/-- C28 (counterexample). For a total of 2^53 + 1 and page size 1, `float64(total)`
is 2^53 and `Paginated` reports 2^53 pages, which times the page size is less than
the total. -/
theorem Paginated_counterexample :
    (handler.Paginated () 9007199254740993 1 1).TotalPages = 9007199254740992
    ∧ ¬ ((9007199254740993 : Int)
        ≤ (handler.Paginated () 9007199254740993 1 1).TotalPages * 1) := by
  have hpages : (handler.Paginated () 9007199254740993 1 1).TotalPages
      = 9007199254740992 := by
    unfold handler.Paginated float64Div float64OfInt mathCeil intOfFloat64
    simp only
    have h1 : float64Round ((1 : Int) : ℚ) = ((1 : Int) : ℚ) :=
      float64Round_int 1 (by norm_num) (by norm_num)
    have h2 : float64Round ((9007199254740993 : Int) : ℚ) = 9007199254740992 := by
      have := float64Round_above_2_53
      exact_mod_cast this
    rw [h1, h2]
    norm_num
    rw [float64Round_2_53]
    norm_num [wrapInt]
  rw [hpages]
  exact ⟨rfl, by decide⟩

/-- C28 (amended). For every total from 0 up to 2^53 (exclusive) and every page
size from 1 to 100, the `total_pages` of `Paginated` is the least integer `n` with
`n * pageSize ≥ total`, and 0 when the total is 0.  Every list handler passes the
page size of the query that `GetOffset` has normalised, which lies between 1 and
100, so the divisor `float64(pageSize)` is not zero. -/
theorem Paginated_totalPages {α : Type} (items : α) (total page pageSize : Int)
    (h0 : 0 ≤ total) (hlt : total < 9007199254740992) (hp1 : 1 ≤ pageSize)
    (hp2 : pageSize ≤ 100) :
    total ≤ (handler.Paginated items total page pageSize).TotalPages * pageSize
    ∧ (∀ n : Int, total ≤ n * pageSize →
        (handler.Paginated items total page pageSize).TotalPages ≤ n)
    ∧ (total = 0 → (handler.Paginated items total page pageSize).TotalPages = 0)
    ∧ (∀ query : models.PaginationQuery,
        1 ≤ query.normalized.PageSize ∧ query.normalized.PageSize ≤ 100
        ∧ float64OfInt query.normalized.PageSize ≠ 0)
    ∧ (∀ (fetch : models.PaginationQuery → Except DBError (α × Nat))
        (query : models.PaginationQuery) (rows : α) (count : Nat),
        fetch query.normalized = Except.ok (rows, count) →
          handler.listResponse fetch query
            = Except.ok (handler.Paginated rows count query.normalized.Page
                query.normalized.PageSize)) := by
  have hpq : (0 : ℚ) < pageSize := by exact_mod_cast (by omega : (0 : Int) < pageSize)
  rw [Paginated_eq_ceil items total page pageSize h0 hlt hp1 hp2]
  refine ⟨?_, ?_, ?_, ?_, ?_⟩
  · have h := Int.le_ceil ((total : ℚ) / pageSize)
    rw [div_le_iff₀ hpq] at h
    exact_mod_cast h
  · intro n hn
    rw [Int.ceil_le, div_le_iff₀ hpq]
    exact_mod_cast hn
  · intro hzero
    subst hzero
    simp
  · intro query
    have hsize : 1 ≤ query.normalized.PageSize ∧ query.normalized.PageSize ≤ 100 := by
      rw [normalized_eq]
      by_cases h2 : query.PageSize ≤ 0 <;> by_cases h3 : query.PageSize > 100 <;>
        simp only [h2, h3, if_true, if_false] <;> omega
    refine ⟨hsize.1, hsize.2, ?_⟩
    unfold float64OfInt
    rw [float64Round_int _ (by omega) (by omega)]
    exact_mod_cast (by omega : query.normalized.PageSize ≠ 0)
  · intro fetch query rows count hfetch
    simp [handler.listResponse, hfetch]

/-- Witness of C28: 45 rows in pages of 20 make 3 pages. -/
theorem Paginated_totalPages_witness :
    (45 : Int) ≤ (handler.Paginated () 45 3 20).TotalPages * 20
    ∧ (handler.Paginated () 45 3 20).TotalPages ≤ 3 :=
  have h := Paginated_totalPages () 45 3 20 (by decide) (by decide) (by decide) (by decide)
  ⟨h.1, h.2.1 3 (by decide)⟩

/-- The smallest normal `float64` is below 2^-60. -/
theorem two_pow_neg_1022_le : (2 : ℚ) ^ (-1022 : Int) ≤ 2 ^ (-60 : Int) :=
  zpow_le_zpow_right₀ (by norm_num) (by norm_num)

/-- The largest finite `float64` is above 2^64. -/
theorem two_pow_64_lt : (2 : ℚ) ^ 64 < 2 ^ 1024 :=
  pow_lt_pow_right₀ (by norm_num) (by norm_num)

/-- A number of ordinary size whose rounding is known has that rounding as its
`float64` value. -/
theorem float64Value_normal (x r : ℚ) (hlo : (2 : ℚ) ^ (-60 : Int) ≤ |x|)
    (hr : float64Round x = r) (hhi : |r| ≤ 2 ^ 64) : float64Value x = some r := by
  have h1 : ¬ |x| < 2 ^ (-1022 : Int) := not_lt.mpr (le_trans two_pow_neg_1022_le hlo)
  have h2 : |r| < 2 ^ 1024 := lt_of_le_of_lt hhi two_pow_64_lt
  unfold float64Value
  simp only [h1, if_false, hr, h2, if_true]

/-- Integers from 0 up to 2^53 (exclusive) are `float64` values. -/
theorem float64Value_int (n : Int) (h0 : 0 ≤ n) (hlt : n < 9007199254740992) :
    float64Value (n : ℚ) = some (n : ℚ) := by
  rcases eq_or_lt_of_le h0 with h | hpos
  · subst h
    have h1 : |((0 : Int) : ℚ)| < 2 ^ (-1022 : Int) := by
      simp only [Int.cast_zero, abs_zero]
      positivity
    unfold float64Value
    simp only [h1, if_true]
    simp [roundHalfEven]
  · have hn1 : (1 : ℚ) ≤ n := by exact_mod_cast hpos
    have hn2 : (n : ℚ) < 9007199254740992 := by exact_mod_cast hlt
    apply float64Value_normal _ _ _ (float64Round_int n h0 hlt)
    · rw [abs_of_pos (by linarith)]
      have : (2 : ℚ) ^ 64 = 18446744073709551616 := by norm_num
      rw [this]
      linarith
    · rw [abs_of_pos (by linarith)]
      have : (2 : ℚ) ^ (-60 : Int) ≤ 1 := zpow_le_one_of_nonpos₀ (by norm_num) (by norm_num)
      linarith

/-- The rounding of a positive number whose binary exponent and rounded
significand are known. -/
theorem float64Round_eq (x : ℚ) (e m : Int) (hx : 0 < x) (h1 : (2 : ℚ) ^ e ≤ x)
    (h2 : x < (2 : ℚ) ^ (e + 1)) (hm : roundHalfEven (x / 2 ^ (e - 52)) = m) :
    float64Round x = (m : ℚ) * 2 ^ (e - 52) := by
  unfold float64Round
  rw [if_neg (ne_of_gt hx), abs_of_pos hx, log2_eq x e hx h1 h2, hm]

/-- The `float64` value of 0.1. -/
theorem float64Value_tenth :
    float64Value (1 / 10) = some (3602879701896397 / 36028797018963968) := by
  apply float64Value_normal
  · rw [abs_of_pos (by norm_num)]
    have : (2 : ℚ) ^ (-60 : Int) ≤ 2 ^ (-4 : Int) :=
      zpow_le_zpow_right₀ (by norm_num) (by norm_num)
    exact le_trans this (by norm_num)
  · have hfloor : ⌊(1 / 10 : ℚ) / 2 ^ ((-4 : Int) - 52)⌋ = 7205759403792793 := by
      rw [Int.floor_eq_iff]
      constructor <;> norm_num
    have hround : roundHalfEven ((1 / 10 : ℚ) / 2 ^ ((-4 : Int) - 52)) = 7205759403792794 := by
      unfold roundHalfEven
      rw [hfloor]
      norm_num
    rw [float64Round_eq (1 / 10) (-4) 7205759403792794 (by norm_num) (by norm_num)
      (by norm_num) hround]
    norm_num
  · rw [abs_of_pos (by norm_num)]
    norm_num

/-- Three times the `float64` value of 0.1 lies halfway between two `float64`
values and is rounded to the upper, even one. -/
theorem float64Value_three_tenths :
    float64Value (3 * (3602879701896397 / 36028797018963968))
      = some (5404319552844596 / 18014398509481984) := by
  apply float64Value_normal
  · rw [abs_of_pos (by norm_num)]
    have : (2 : ℚ) ^ (-60 : Int) ≤ 2 ^ (-4 : Int) :=
      zpow_le_zpow_right₀ (by norm_num) (by norm_num)
    exact le_trans this (by norm_num)
  · have hfloor : ⌊(3 * (3602879701896397 / 36028797018963968) : ℚ) / 2 ^ ((-2 : Int) - 52)⌋
        = 5404319552844595 := by
      rw [Int.floor_eq_iff]
      constructor <;> norm_num
    have hround : roundHalfEven
        ((3 * (3602879701896397 / 36028797018963968) : ℚ) / 2 ^ ((-2 : Int) - 52))
        = 5404319552844596 := by
      unfold roundHalfEven
      rw [hfloor]
      norm_num
    rw [float64Round_eq _ (-2) 5404319552844596 (by norm_num) (by norm_num)
      (by norm_num) hround]
    norm_num
  · rw [abs_of_pos (by norm_num)]
    norm_num

/-- C12 (counterexample). A stock-in of 3 units at unit cost 0.1, that is at the
`float64` value 3602879701896397 / 2^55 the request carries, succeeds and records
the total cost 5404319552844596 / 2^54 (printed 0.30000000000000004), which is not
3 times the unit cost. -/
theorem total_cost_counterexample :
    float64Value (1 / 10) = some (3602879701896397 / 36028797018963968)
    ∧ (StockIn (quietEnv 200) (float64Store 0)
        (float64StockIn 3 (3602879701896397 / 36028797018963968)) 7 "amy").1 = none
    ∧ (StockIn (quietEnv 200) (float64Store 0)
        (float64StockIn 3 (3602879701896397 / 36028797018963968)) 7 "amy").2.records.map
          (fun e => (e.Quantity, e.UnitCost.val, e.TotalCost.val))
        = [(3, some (3602879701896397 / 36028797018963968),
            some (5404319552844596 / 18014398509481984))]
    ∧ (5404319552844596 / 18014398509481984 : ℚ)
        ≠ 3 * (3602879701896397 / 36028797018963968) := by
  refine ⟨float64Value_tenth, by decide, ?_, by norm_num⟩
  have h : (StockIn (quietEnv 200) (float64Store 0)
      (float64StockIn 3 (3602879701896397 / 36028797018963968)) 7 "amy").2.records.map
        (fun e => (e.Quantity, e.UnitCost.val, e.TotalCost.val))
      = [(3, some (3602879701896397 / 36028797018963968),
          (Float64Ops.mul (Float64Ops.ofInt 3)
            ({ val := some (3602879701896397 / 36028797018963968) } : Float64)).val)] := rfl
  rw [h]
  have h3 : float64Value ((3 : Int) : ℚ) = some ((3 : Int) : ℚ) :=
    float64Value_int 3 (by norm_num) (by norm_num)
  simp only [Float64Ops.mul, Float64Ops.ofInt, h3]
  have h4 := float64Value_three_tenths
  norm_num at h4 ⊢
  exact h4

/-- C12 (amended). A successful call appends one entry whose cost fields are: for a
`StockIn` the request's unit cost and, for a quantity from 0 up to 2^53
(exclusive) and a finite unit cost, the `float64` value of quantity × unit cost,
that is the exact product rounded to the nearest `float64`, which is the exact
product whenever that is a `float64` value; for a `StockOut` or a `StockAdjust`
unit cost 0 and total cost 0.  So 20 units at 3.5 on a product holding 0 give the
entry before 0, after 20, total cost 70, and the stock becomes 20. -/
theorem ledger_costs (env : Env) (db : Store Float64) (call : Call Float64)
    (hok : (call.apply env db).1 = none) :
    (∃ e, (call.apply env db).2.records = db.records ++ [e]
      ∧ match call with
        | Call.stockIn req _ _ =>
          e.Type_ = "stock_in" ∧ e.UnitCost = req.UnitCost
            ∧ (∀ u : ℚ, req.UnitCost.val = some u → 0 ≤ req.Quantity →
                req.Quantity < 9007199254740992 →
                e.TotalCost.val = float64Value (req.Quantity * u)
                ∧ (float64Value (req.Quantity * u) = some (req.Quantity * u) →
                    e.TotalCost.val = some (req.Quantity * u)))
        | Call.stockOut _ _ _ =>
          e.Type_ = "stock_out" ∧ e.UnitCost.val = some 0 ∧ e.TotalCost.val = some 0
        | Call.stockAdjust _ _ _ =>
          e.Type_ = "adjust" ∧ e.UnitCost.val = some 0 ∧ e.TotalCost.val = some 0)
    ∧ (StockIn (quietEnv 200) (float64Store 0) (float64StockIn 20 3.5) 7 "amy").1 = none
    ∧ currentStock (StockIn (quietEnv 200) (float64Store 0) (float64StockIn 20 3.5) 7
        "amy").2 1 = some 20
    ∧ (StockIn (quietEnv 200) (float64Store 0) (float64StockIn 20 3.5) 7
        "amy").2.records.map
        (fun e => (e.Type_, e.Quantity, e.BeforeQty, e.AfterQty)) = [("stock_in", 20, 0, 20)]
    ∧ (StockIn (quietEnv 200) (float64Store 0) (float64StockIn 20 3.5) 7
        "amy").2.records.map
        (fun e => (e.UnitCost.val, e.TotalCost.val)) = [(some 3.5, some 70)] := by
  refine ⟨?_, by decide, by decide, by decide, ?_⟩
  · obtain ⟨product, _, happ⟩ := Call.apply_success hok
    rw [happ]
    refine ⟨_, rfl, ?_⟩
    cases call with
    | stockIn req operatorID operatorName =>
      refine ⟨rfl, rfl, ?_⟩
      intro u hu h0 hlt
      have hq := float64Value_int req.Quantity h0 hlt
      have hval : (stampRecord env.now db.records
          ((Call.stockIn req operatorID operatorName).plan product).1).TotalCost.val
          = float64Value (req.Quantity * u) := by
        simp only [stampRecord, Call.plan, stockInRecord, Float64Ops.mul, Float64Ops.ofInt,
          hq, hu]
      exact ⟨hval, fun hexact => hval.trans hexact⟩
    | stockOut req operatorID operatorName => exact ⟨rfl, rfl, rfl⟩
    | stockAdjust req operatorID operatorName => exact ⟨rfl, rfl, rfl⟩
  · have h : (StockIn (quietEnv 200) (float64Store 0) (float64StockIn 20 3.5) 7
        "amy").2.records.map (fun e => (e.UnitCost.val, e.TotalCost.val))
        = [(some 3.5, (Float64Ops.mul (Float64Ops.ofInt 20)
            ({ val := some 3.5 } : Float64)).val)] := rfl
    rw [h]
    have h20 : float64Value ((20 : Int) : ℚ) = some ((20 : Int) : ℚ) :=
      float64Value_int 20 (by norm_num) (by norm_num)
    have h70 : float64Value ((70 : Int) : ℚ) = some ((70 : Int) : ℚ) :=
      float64Value_int 70 (by norm_num) (by norm_num)
    simp only [Float64Ops.mul, Float64Ops.ofInt, h20]
    norm_num at h70 ⊢
    exact h70

/-- Witness of C12: the stock-in of 20 units at 3.5. -/
theorem ledger_costs_witness :
    ∃ e, (StockIn (quietEnv 200) (float64Store 0) (float64StockIn 20 3.5) 7
          "amy").2.records = (float64Store 0).records ++ [e]
      ∧ e.Type_ = "stock_in" ∧ e.UnitCost = (float64StockIn 20 3.5).UnitCost
      ∧ (∀ u : ℚ, (float64StockIn 20 3.5).UnitCost.val = some u →
          0 ≤ (float64StockIn 20 3.5).Quantity →
          (float64StockIn 20 3.5).Quantity < 9007199254740992 →
          e.TotalCost.val = float64Value ((float64StockIn 20 3.5).Quantity * u)
          ∧ (float64Value ((float64StockIn 20 3.5).Quantity * u)
                = some ((float64StockIn 20 3.5).Quantity * u) →
              e.TotalCost.val = some ((float64StockIn 20 3.5).Quantity * u))) :=
  (ledger_costs (quietEnv 200) (float64Store 0)
    (Call.stockIn (float64StockIn 20 3.5) 7 "amy") (by decide)).1

end GoCargo
